import Mathlib

/-!
# The RPC client connection core (`src/rpc/virnetclient.c`)

A shallow embedding of the call queue, the router and the event loop of the
generic network RPC client, and of the QCOW header parsers of
`src/util/storage_file.c`, followed by theorems about them.

Conventions of the embedding.

* A `virNetClientCallPtr` is an address (`addr : Nat`); the linked list
  `waitDispatch` is the list of the call objects in link order, so `next` is the
  list position.
* Memory is unbounded: `VIR_ALLOC`, `VIR_ALLOC_N`, `VIR_REALLOC_N` and
  `virCondInit` always succeed, so their out-of-memory branches do not appear.
* Code of other translation units (socket, stream, program, keepalive, message
  codec) is a parameter: the record `virNetCollab` holds the functions, and the
  socket holds the scripted results of its future reads and writes.
* Effects that leave the connection object (error reports, signalled condition
  variables, freed calls, bytes and descriptors written, callbacks) are appended
  to the ghost field `trace`.
-/

namespace VirNetClient

/-! ## Data model -/

/-- The `type` field of a message header; `other` is any value the switch in
`virNetClientCallDispatch` sends to its `default` branch. -/
inductive virNetMessageType where
  | VIR_NET_CALL
  | VIR_NET_REPLY
  | VIR_NET_MESSAGE
  | VIR_NET_STREAM
  | VIR_NET_REPLY_WITH_FDS
  | other (n : Nat)
  deriving DecidableEq, Repr

/-- The `status` field of a message header. -/
inductive virNetMessageStatus where
  | VIR_NET_OK
  | VIR_NET_ERROR
  | VIR_NET_CONTINUE
  | other (n : Nat)
  deriving DecidableEq, Repr

/-- The decoded header of a message (`virNetMessageHeader`). -/
structure virNetMessageHeader where
  prog : Nat
  vers : Nat
  proc : Nat
  type : virNetMessageType
  serial : Nat
  status : virNetMessageStatus
  deriving DecidableEq, Repr

/-- The fields of `virNetMessage` the client touches. -/
structure virNetMessage where
  buffer : List Nat
  bufferLength : Nat
  bufferOffset : Nat
  header : virNetMessageHeader
  fds : List Int
  nfds : Nat
  donefds : Nat
  deriving DecidableEq, Repr

/-- The anonymous enum of call modes. -/
inductive virNetClientMode where
  | VIR_NET_CLIENT_MODE_WAIT_TX
  | VIR_NET_CLIENT_MODE_WAIT_RX
  | VIR_NET_CLIENT_MODE_COMPLETE
  deriving DecidableEq, Repr

/-- The object `struct _virNetClientCall`; `addr` is the address of the object,
`cond` is represented by the `condSignal` events on it and `next` by the position
in the queue. -/
structure virNetClientCall where
  addr : Nat
  mode : virNetClientMode
  msg : virNetMessage
  expectReply : Bool
  nonBlock : Bool
  haveThread : Bool
  deriving DecidableEq, Repr

/-- The reasons of `virConnectCloseReason` that the client passes around. -/
inductive virConnectCloseReason where
  | VIR_CONNECT_CLOSE_REASON_ERROR
  | VIR_CONNECT_CLOSE_REASON_EOF
  | VIR_CONNECT_CLOSE_REASON_KEEPALIVE
  | VIR_CONNECT_CLOSE_REASON_CLIENT
  deriving DecidableEq, Repr

/-- The result of one non-blocking socket operation: a negative return value, the
return value 0 (would block), or a positive one with what was transferred. -/
inductive virNetSocketResult (α : Type) where
  | error
  | wouldBlock
  | ok (a : α)
  deriving DecidableEq, Repr

/-- The socket as the client sees it: the results its future operations will
have, in order. `rx` holds the chunks of bytes `virNetSocketRead` will deliver,
`tx` the number of bytes `virNetSocketWrite` will accept, `rxfds` and `txfds` the
results of `virNetSocketRecvFD` and `virNetSocketSendFD`; an exhausted script
means the operation would block. `cachedData` is `virNetSocketHasCachedData`. -/
structure virNetSocket where
  rx : List (virNetSocketResult (List Nat))
  tx : List (virNetSocketResult Nat)
  rxfds : List (virNetSocketResult Int)
  txfds : List (virNetSocketResult Unit)
  cachedData : Bool
  deriving DecidableEq, Repr

/-- Effects of the client that are visible outside the connection object. -/
inductive virNetClientEvent where
  | reportError
  | warn
  | condSignal (call : Nat)
  | callFree (call : Nat)
  | socketWrite (data : List Nat)
  | socketSendFD (fd : Int)
  | programDispatch (index : Nat) (msg : virNetMessage)
  | keepAliveStop
  | closeCb (reason : virConnectCloseReason)
  deriving DecidableEq, Repr

/-- The functions of the other translation units that the client calls. Streams,
programs and keepalive objects are opaque to the client. A stream or codec
function that returns a negative value returns `none` here. -/
structure virNetCollab where
  Stream : Type
  Program : Type
  KeepAlive : Type
  virNetClientStreamMatches : Stream → virNetMessage → Bool
  virNetClientStreamQueuePacket : Stream → virNetMessage → Option Stream
  virNetClientStreamSetError : Stream → virNetMessage → Option Stream
  virNetClientStreamRaiseError : Stream → Bool
  virNetClientProgramMatches : Program → virNetMessage → Bool
  virKeepAliveCheckMessage : KeepAlive → virNetMessage → Bool × Option virNetMessage
  virKeepAliveTimeout : KeepAlive → Int
  virNetMessageDecodeLength : virNetMessage → Option virNetMessage
  virNetMessageDecodeHeader : virNetMessage → Option virNetMessage
  virNetMessageDecodeNumFDs : virNetMessage → Option virNetMessage

/-- The fields of `struct _virNetClient` that the call queue, the router and the
event loop use. `closeCb` says whether a close callback is registered; `nextAddr`
is the address the next `VIR_ALLOC` of a call object returns. -/
structure virNetClient (X : virNetCollab) where
  sock : Option virNetSocket
  programs : List X.Program
  msg : virNetMessage
  waitDispatch : List virNetClientCall
  haveTheBuck : Bool
  streams : List X.Stream
  keepalive : Option X.KeepAlive
  wantClose : Bool
  closeReason : virConnectCloseReason
  closeCb : Bool
  trace : List virNetClientEvent
  nextAddr : Nat

/-! ## The call queue -/

/-- Append a call to the end of the list. -/
def virNetClientCallQueue : List virNetClientCall → virNetClientCall → List virNetClientCall
  | [], call => [call]
  | tmp :: next, call => tmp :: virNetClientCallQueue next call

/-- Remove a call (given by its address) from anywhere in the list. -/
def virNetClientCallRemove : List virNetClientCall → Nat → List virNetClientCall
  | [], _ => []
  | tmp :: next, call =>
    if tmp.addr = call then next else tmp :: virNetClientCallRemove next call

/-- Remove a list of calls from the list based on a predicate; the predicate
threads its `opaque` state and its effects through `σ`. -/
def virNetClientCallRemovePredicate {σ : Type} (pred : virNetClientCall → σ → Bool × σ) :
    List virNetClientCall → σ → List virNetClientCall × σ
  | [], s => ([], s)
  | tmp :: next, s =>
    if (pred tmp s).1 then
      virNetClientCallRemovePredicate pred next (pred tmp s).2
    else
      (tmp :: (virNetClientCallRemovePredicate pred next (pred tmp s).2).1,
       (virNetClientCallRemovePredicate pred next (pred tmp s).2).2)

/-- Returns true if the predicate matches at least one call in the list. -/
def virNetClientCallMatchPredicate {σ : Type} (pred : virNetClientCall → σ → Bool × σ) :
    List virNetClientCall → σ → Bool × σ
  | [], s => (false, s)
  | tmp :: next, s =>
    if (pred tmp s).1 then (true, (pred tmp s).2)
    else virNetClientCallMatchPredicate pred next (pred tmp s).2

/-! ## The router -/

/-- The condition of the `while` loops that look for the call a message belongs
to: program, version and serial of the call's message equal those of `msg`. -/
def virNetClientCallMatches (msg : virNetMessage) (thecall : virNetClientCall) : Bool :=
  decide (thecall.msg.header.prog = msg.header.prog) &&
  decide (thecall.msg.header.vers = msg.header.vers) &&
  decide (thecall.msg.header.serial = msg.header.serial)

/-- A write through the pointer that a search loop stopped at: the first object
of the list satisfying `p` becomes `f` of itself. -/
def modifyFirst {α : Type} (p : α → Bool) (f : α → α) : List α → List α
  | [] => []
  | tmp :: next => if p tmp then f tmp :: next else tmp :: modifyFirst p f next

/-- The assignments `virNetClientCallDispatchReply` makes to the call it found:
buffer, header, `bufferLength` and `bufferOffset` of the incoming message are
copied and the mode becomes COMPLETE. -/
def virNetClientCallDispatchReplyCopy (msg : virNetMessage) (thecall : virNetClientCall) :
    virNetClientCall :=
  { thecall with
    msg := { thecall.msg with
             buffer := msg.buffer.take msg.bufferLength
             header := msg.header
             bufferLength := msg.bufferLength
             bufferOffset := msg.bufferOffset }
    mode := virNetClientMode.VIR_NET_CLIENT_MODE_COMPLETE }

/-- The function `virNetClientCallDispatchReply`. -/
def virNetClientCallDispatchReply {X : virNetCollab} (client : virNetClient X) :
    Int × virNetClient X :=
  match client.waitDispatch.find? (virNetClientCallMatches client.msg) with
  | none => (-1, { client with trace := client.trace ++ [virNetClientEvent.reportError] })
  | some _ =>
    (0, { client with
          waitDispatch :=
            modifyFirst (virNetClientCallMatches client.msg)
              (virNetClientCallDispatchReplyCopy client.msg) client.waitDispatch })

/-- The function `virNetClientCallNew`; `addr` is the address of the object that
`VIR_ALLOC` returns, zero-filled. The message's `donefds` is reset. -/
def virNetClientCallNew (addr : Nat) (msg : virNetMessage) (expectReply nonBlock : Bool) :
    Option virNetClientCall :=
  if expectReply && decide (msg.bufferLength ≠ 0) &&
      decide (msg.header.status = virNetMessageStatus.VIR_NET_CONTINUE) then
    none
  else if expectReply && nonBlock then
    none
  else
    some { addr := addr
           mode := if msg.bufferLength ≠ 0 then virNetClientMode.VIR_NET_CLIENT_MODE_WAIT_TX
                   else virNetClientMode.VIR_NET_CLIENT_MODE_WAIT_RX
           msg := { msg with donefds := 0 }
           expectReply := expectReply
           nonBlock := nonBlock
           haveThread := false }

/-- The function `virNetClientQueueNonBlocking`: a new call without reply and
with `nonBlock` set is appended to the queue. -/
def virNetClientQueueNonBlocking {X : virNetCollab} (client : virNetClient X)
    (msg : virNetMessage) : Int × virNetClient X :=
  match virNetClientCallNew client.nextAddr msg false true with
  | none => (-1, { client with trace := client.trace ++ [virNetClientEvent.reportError] })
  | some call =>
    (0, { client with
          waitDispatch := virNetClientCallQueue client.waitDispatch call
          nextAddr := client.nextAddr + 1 })

/-- The index of the first object of the list that satisfies `p`: the search
loops over `client->programs` and `client->streams`. -/
def findFirst {α : Type} (p : α → Bool) : List α → Option Nat
  | [] => none
  | x :: rest => if p x then some 0 else (findFirst p rest).map (· + 1)

/-- The function `virNetClientCallDispatchMessage`; the callback of the program
that `virNetClientProgramDispatch` invokes is the event `programDispatch`. -/
def virNetClientCallDispatchMessage {X : virNetCollab} (client : virNetClient X) :
    Int × virNetClient X :=
  match findFirst (fun prog => X.virNetClientProgramMatches prog client.msg) client.programs with
  | none => (-1, client)
  | some i =>
    (0, { client with
          trace := client.trace ++ [virNetClientEvent.programDispatch i client.msg] })

/-- The function `virNetClientCallDispatchStream`. The stream `st` is the first
one of `client->streams` that matches, `thecall` the first queued call with the
program, version and serial of the message. -/
def virNetClientCallDispatchStream {X : virNetCollab} (client : virNetClient X) :
    Int × virNetClient X :=
  match client.streams.find? (fun st => X.virNetClientStreamMatches st client.msg) with
  | none => (0, client)
  | some st =>
    match client.msg.header.status with
    | virNetMessageStatus.VIR_NET_CONTINUE =>
      match X.virNetClientStreamQueuePacket st client.msg with
      | none => (-1, client)
      | some st1 =>
        (0, { client with
              streams := modifyFirst (fun s => X.virNetClientStreamMatches s client.msg)
                (fun _ => st1) client.streams
              waitDispatch := modifyFirst (virNetClientCallMatches client.msg)
                (fun thecall =>
                  if thecall.expectReply &&
                      decide (thecall.msg.header.status = virNetMessageStatus.VIR_NET_CONTINUE) then
                    { thecall with mode := virNetClientMode.VIR_NET_CLIENT_MODE_COMPLETE }
                  else thecall)
                client.waitDispatch })
    | virNetMessageStatus.VIR_NET_OK =>
      match client.waitDispatch.find? (virNetClientCallMatches client.msg) with
      | none => (-1, client)
      | some thecall =>
        if thecall.expectReply then
          (0, { client with
                waitDispatch := modifyFirst (virNetClientCallMatches client.msg)
                  (fun c => { c with mode := virNetClientMode.VIR_NET_CLIENT_MODE_COMPLETE })
                  client.waitDispatch })
        else (-1, client)
    | virNetMessageStatus.VIR_NET_ERROR =>
      match X.virNetClientStreamSetError st client.msg with
      | none => (-1, client)
      | some st1 =>
        match client.waitDispatch.find? (virNetClientCallMatches client.msg) with
        | none =>
          (0, { client with
                streams := modifyFirst (fun s => X.virNetClientStreamMatches s client.msg)
                  (fun _ => st1) client.streams })
        | some thecall =>
          if thecall.expectReply then
            (0, { client with
                  streams := modifyFirst (fun s => X.virNetClientStreamMatches s client.msg)
                    (fun _ => st1) client.streams
                  waitDispatch := modifyFirst (virNetClientCallMatches client.msg)
                    (fun c => { c with mode := virNetClientMode.VIR_NET_CLIENT_MODE_COMPLETE })
                    client.waitDispatch
                  trace := if X.virNetClientStreamRaiseError st1 then
                             client.trace ++ [virNetClientEvent.reportError]
                           else client.trace })
          else
            (0, { client with
                  streams := modifyFirst (fun s => X.virNetClientStreamMatches s client.msg)
                    (fun _ => st1) client.streams })
    | virNetMessageStatus.other _ =>
      (-1, { client with trace := client.trace ++ [virNetClientEvent.warn] })

/-- The function `virNetClientCallDispatch`. `virKeepAliveCheckMessage` is asked
only when a keepalive object exists (it returns false for NULL). -/
def virNetClientCallDispatch {X : virNetCollab} (client : virNetClient X) :
    Int × virNetClient X :=
  match (match client.keepalive with
         | none => (false, none)
         | some ka => X.virKeepAliveCheckMessage ka client.msg) with
  | (true, none) => (0, client)
  | (true, some response) =>
    if (virNetClientQueueNonBlocking client response).1 < 0 then
      (0, { client with trace := client.trace ++ [virNetClientEvent.warn] })
    else (0, (virNetClientQueueNonBlocking client response).2)
  | (false, _) =>
    match client.msg.header.type with
    | virNetMessageType.VIR_NET_REPLY => virNetClientCallDispatchReply client
    | virNetMessageType.VIR_NET_REPLY_WITH_FDS => virNetClientCallDispatchReply client
    | virNetMessageType.VIR_NET_MESSAGE => virNetClientCallDispatchMessage client
    | virNetMessageType.VIR_NET_STREAM => virNetClientCallDispatchStream client
    | _ => (-1, { client with trace := client.trace ++ [virNetClientEvent.reportError] })

/-! ## Socket operations

The client calls these on `client->sock`; it never does so with a NULL socket,
and the embedding lets every operation on a missing socket fail. -/

/-- The call `virNetSocketWrite(sock, data, len)` with `len` the length of `data`:
the return value, the socket afterwards and the bytes that went out. -/
def virNetSocketWrite (sock : Option virNetSocket) (data : List Nat) :
    Int × Option virNetSocket × List Nat :=
  match sock with
  | none => (-1, none, [])
  | some s =>
    match s.tx with
    | [] => (0, some s, [])
    | virNetSocketResult.error :: rest => (-1, some { s with tx := rest }, [])
    | virNetSocketResult.wouldBlock :: rest => (0, some { s with tx := rest }, [])
    | virNetSocketResult.ok n :: rest =>
      (((min n data.length : Nat) : Int), some { s with tx := rest }, data.take (min n data.length))

/-- The call `virNetSocketRead(sock, buf, len)`: the return value, the socket
afterwards and the bytes stored at `buf`. A chunk longer than `len` stays at the
head of the script with its first `len` bytes removed. -/
def virNetSocketRead (sock : Option virNetSocket) (len : Nat) :
    Int × Option virNetSocket × List Nat :=
  match sock with
  | none => (-1, none, [])
  | some s =>
    match s.rx with
    | [] => (0, some s, [])
    | virNetSocketResult.error :: rest => (-1, some { s with rx := rest }, [])
    | virNetSocketResult.wouldBlock :: rest => (0, some { s with rx := rest }, [])
    | virNetSocketResult.ok chunk :: rest =>
      if len < chunk.length then
        ((len : Int), some { s with rx := virNetSocketResult.ok (chunk.drop len) :: rest },
         chunk.take len)
      else
        ((chunk.length : Int), some { s with rx := rest }, chunk)

/-- The call `virNetSocketSendFD(sock, fd)`. -/
def virNetSocketSendFD (sock : Option virNetSocket) : Int × Option virNetSocket :=
  match sock with
  | none => (-1, none)
  | some s =>
    match s.txfds with
    | [] => (0, some s)
    | virNetSocketResult.error :: rest => (-1, some { s with txfds := rest })
    | virNetSocketResult.wouldBlock :: rest => (0, some { s with txfds := rest })
    | virNetSocketResult.ok _ :: rest => (1, some { s with txfds := rest })

/-- The call `virNetSocketRecvFD(sock, &fd)`: the return value, the socket
afterwards and the descriptor stored at `fd` when one arrived. -/
def virNetSocketRecvFD (sock : Option virNetSocket) : Int × Option virNetSocket × Option Int :=
  match sock with
  | none => (-1, none, none)
  | some s =>
    match s.rxfds with
    | [] => (0, some s, none)
    | virNetSocketResult.error :: rest => (-1, some { s with rxfds := rest }, none)
    | virNetSocketResult.wouldBlock :: rest => (0, some { s with rxfds := rest }, none)
    | virNetSocketResult.ok fd :: rest => (1, some { s with rxfds := rest }, some fd)

/-- The call `virNetSocketHasCachedData(sock)`. -/
def virNetSocketHasCachedData (sock : Option virNetSocket) : Bool :=
  match sock with
  | none => false
  | some s => s.cachedData

/-! ## Output -/

/-- The socket, the trace and the call that `virNetClientIOWriteMessage` works
on. -/
structure virNetClientWriteState where
  sock : Option virNetSocket
  trace : List virNetClientEvent
  thecall : virNetClientCall

/-- The `for` loop of `virNetClientIOWriteMessage` over the descriptors from
`donefds` on, with `n` descriptors left: `some rv` is an early `return rv`, `none`
is the normal end of the loop. -/
def virNetClientIOWriteMessageFDs : Nat → virNetClientWriteState →
    Option Int × virNetClientWriteState
  | 0, st => (none, st)
  | n + 1, st =>
    if (virNetSocketSendFD st.sock).1 < 0 then
      (some (-1), { st with sock := (virNetSocketSendFD st.sock).2 })
    else if (virNetSocketSendFD st.sock).1 = 0 then
      (some 0, { st with sock := (virNetSocketSendFD st.sock).2 })
    else
      virNetClientIOWriteMessageFDs n
        { sock := (virNetSocketSendFD st.sock).2
          trace := st.trace ++
            [virNetClientEvent.socketSendFD (st.thecall.msg.fds.getD st.thecall.msg.donefds 0)]
          thecall := { st.thecall with
                       msg := { st.thecall.msg with donefds := st.thecall.msg.donefds + 1 } } }

/-- The second half of `virNetClientIOWriteMessage`, entered with the return value
`ret` of the first half: when the buffer is all written the descriptors are sent
and the call leaves the sending mode. -/
def virNetClientIOWriteMessageFinish (ret : Int) (st : virNetClientWriteState) :
    Int × virNetClientWriteState :=
  if st.thecall.msg.bufferOffset = st.thecall.msg.bufferLength then
    match virNetClientIOWriteMessageFDs (st.thecall.msg.nfds - st.thecall.msg.donefds) st with
    | (some rv, st1) => (rv, st1)
    | (none, st1) =>
      (ret, { st1 with
              thecall := { st1.thecall with
                           msg := { st1.thecall.msg with
                                    donefds := 0, bufferOffset := 0, bufferLength := 0,
                                    buffer := [] }
                           mode := if st1.thecall.expectReply then
                                     virNetClientMode.VIR_NET_CLIENT_MODE_WAIT_RX
                                   else virNetClientMode.VIR_NET_CLIENT_MODE_COMPLETE } })
  else (ret, st)

/-- The function `virNetClientIOWriteMessage`. -/
def virNetClientIOWriteMessage (st : virNetClientWriteState) : Int × virNetClientWriteState :=
  if st.thecall.msg.bufferOffset < st.thecall.msg.bufferLength then
    let w := virNetSocketWrite st.sock
      ((st.thecall.msg.buffer.drop st.thecall.msg.bufferOffset).take
        (st.thecall.msg.bufferLength - st.thecall.msg.bufferOffset))
    if w.1 ≤ 0 then (w.1, { st with sock := w.2.1 })
    else
      virNetClientIOWriteMessageFinish w.1
        { sock := w.2.1
          trace := st.trace ++ [virNetClientEvent.socketWrite w.2.2]
          thecall := { st.thecall with
                       msg := { st.thecall.msg with
                                bufferOffset := st.thecall.msg.bufferOffset + w.1.toNat } } }
  else virNetClientIOWriteMessageFinish 0 st

/-- The second `while` loop of `virNetClientIOHandleOutput`, from the call at the
head of `queue` on: the return value, socket and trace afterwards and the calls as
they are after the pass. -/
def virNetClientIOHandleOutputLoop : List virNetClientCall → Option virNetSocket →
    List virNetClientEvent → Int × Option virNetSocket × List virNetClientEvent × List virNetClientCall
  | [], sock, trace => (0, sock, trace, [])
  | thecall :: next, sock, trace =>
    let r := virNetClientIOWriteMessage { sock := sock, trace := trace, thecall := thecall }
    if r.1 < 0 then (r.1, r.2.sock, r.2.trace, r.2.thecall :: next)
    else if r.2.thecall.mode = virNetClientMode.VIR_NET_CLIENT_MODE_WAIT_TX then
      (0, r.2.sock, r.2.trace, r.2.thecall :: next)
    else
      let rest := virNetClientIOHandleOutputLoop next r.2.sock r.2.trace
      (rest.1, rest.2.1, rest.2.2.1, r.2.thecall :: rest.2.2.2)

/-- The first `while` loop of `virNetClientIOHandleOutput` skips the calls that
are not in the sending mode; the second loop runs from the first one that is. -/
def virNetClientIOHandleOutputFrom : List virNetClientCall → Option virNetSocket →
    List virNetClientEvent → Int × Option virNetSocket × List virNetClientEvent × List virNetClientCall
  | [], sock, trace => (0, sock, trace, [])
  | thecall :: next, sock, trace =>
    if thecall.mode ≠ virNetClientMode.VIR_NET_CLIENT_MODE_WAIT_TX then
      let rest := virNetClientIOHandleOutputFrom next sock trace
      (rest.1, rest.2.1, rest.2.2.1, thecall :: rest.2.2.2)
    else virNetClientIOHandleOutputLoop (thecall :: next) sock trace

/-- The function `virNetClientIOHandleOutput`. -/
def virNetClientIOHandleOutput {X : virNetCollab} (client : virNetClient X) :
    Int × virNetClient X :=
  let r := virNetClientIOHandleOutputFrom client.waitDispatch client.sock client.trace
  (r.1, { client with sock := r.2.1, trace := r.2.2.1, waitDispatch := r.2.2.2 })

/-! ## Input -/

/-- The function `virNetClientIOReadMessage`. The bytes read are stored in the
buffer from `bufferOffset` on. -/
def virNetClientIOReadMessage {X : virNetCollab} (client : virNetClient X) :
    Int × virNetClient X :=
  let msg0 : virNetMessage :=
    if client.msg.bufferLength = 0 then
      { client.msg with bufferLength := 4, buffer := List.replicate 4 0 }
    else client.msg
  let r := virNetSocketRead client.sock (msg0.bufferLength - msg0.bufferOffset)
  if r.1 ≤ 0 then (r.1, { client with msg := msg0, sock := r.2.1 })
  else
    (r.1, { client with
            sock := r.2.1
            msg := { msg0 with
                     buffer := msg0.buffer.take msg0.bufferOffset ++ r.2.2 ++
                       msg0.buffer.drop (msg0.bufferOffset + r.2.2.length)
                     bufferOffset := msg0.bufferOffset + r.1.toNat } })

/-- The `for` loop of `virNetClientIOHandleInput` that receives the descriptors
from `donefds` on, with `n` of them left: the flag is true for the `return -1`;
the socket and the message are as they are when the loop ends, breaks or
returns. -/
def virNetClientIOHandleInputFDs : Nat → Option virNetSocket → virNetMessage →
    Bool × Option virNetSocket × virNetMessage
  | 0, sock, msg => (false, sock, msg)
  | n + 1, sock, msg =>
    if (virNetSocketRecvFD sock).1 < 0 then (true, (virNetSocketRecvFD sock).2.1, msg)
    else if (virNetSocketRecvFD sock).1 = 0 then (false, (virNetSocketRecvFD sock).2.1, msg)
    else
      virNetClientIOHandleInputFDs n (virNetSocketRecvFD sock).2.1
        { msg with
          fds := msg.fds.set msg.donefds ((virNetSocketRecvFD sock).2.2.getD 0)
          donefds := msg.donefds + 1 }

/-- What one turn of a `for (;;)` loop of the client ends in: another turn, or a
`return`. -/
inductive virNetClientLoop (X : virNetCollab) where
  | again (client : virNetClient X)
  | done (ret : Int) (client : virNetClient X)

/-- The end of the body of the loop of `virNetClientIOHandleInput`: dispatch the
message, reset the buffer, and go round again only if the dispatch succeeded and
the socket has cached data. -/
def virNetClientIOHandleInputDispatch {X : virNetCollab} (client : virNetClient X) :
    virNetClientLoop X :=
  let d := virNetClientCallDispatch client
  let c : virNetClient X :=
    { d.2 with msg := { d.2.msg with bufferOffset := 0, bufferLength := 0, buffer := [] } }
  if d.1 = 0 ∧ virNetSocketHasCachedData c.sock = true then virNetClientLoop.again c
  else virNetClientLoop.done d.1 c

/-- The part of the body of the loop of `virNetClientIOHandleInput` that follows
a complete frame (`bufferOffset == bufferLength`, not the length word): decode the
header, receive the descriptors of a reply with descriptors, dispatch. -/
def virNetClientIOHandleInputFrame {X : virNetCollab} (client : virNetClient X) :
    virNetClientLoop X :=
  match X.virNetMessageDecodeHeader client.msg with
  | none => virNetClientLoop.done (-1) client
  | some hmsg =>
    if hmsg.header.type = virNetMessageType.VIR_NET_REPLY_WITH_FDS then
      match X.virNetMessageDecodeNumFDs hmsg with
      | none => virNetClientLoop.done (-1) { client with msg := hmsg }
      | some nmsg =>
        let r := virNetClientIOHandleInputFDs (nmsg.nfds - nmsg.donefds) client.sock nmsg
        if r.1 then virNetClientLoop.done (-1) { client with sock := r.2.1, msg := r.2.2 }
        else if r.2.2.donefds < r.2.2.nfds then
          virNetClientLoop.done 0
            { client with
              sock := r.2.1
              msg := { r.2.2 with bufferOffset := r.2.2.bufferLength } }
        else virNetClientIOHandleInputDispatch { client with sock := r.2.1, msg := r.2.2 }
    else virNetClientIOHandleInputDispatch { client with msg := hmsg }

/-- The check for completion in the loop of `virNetClientIOHandleInput`: after
the length word the length is decoded and the loop goes round again, after the
whole frame the frame is processed. -/
def virNetClientIOHandleInputCheck {X : virNetCollab} (client : virNetClient X) :
    virNetClientLoop X :=
  if client.msg.bufferOffset = client.msg.bufferLength then
    if client.msg.bufferOffset = 4 then
      match X.virNetMessageDecodeLength client.msg with
      | none => virNetClientLoop.done (-1) client
      | some lmsg => virNetClientLoop.again { client with msg := lmsg }
    else virNetClientIOHandleInputFrame client
  else virNetClientLoop.again client

/-- One turn of the loop of `virNetClientIOHandleInput`. -/
def virNetClientIOHandleInputTurn {X : virNetCollab} (client : virNetClient X) :
    virNetClientLoop X :=
  if client.msg.nfds = 0 then
    let r := virNetClientIOReadMessage client
    if r.1 < 0 then virNetClientLoop.done (-1) r.2
    else if r.1 = 0 then virNetClientLoop.done 0 r.2
    else virNetClientIOHandleInputCheck r.2
  else virNetClientIOHandleInputCheck client

/-- The function `virNetClientIOHandleInput`, with at most `fuel` turns of its
loop; `none` when the loop has not returned by then. -/
def virNetClientIOHandleInput {X : virNetCollab} : Nat → virNetClient X →
    Option (Int × virNetClient X)
  | 0, _ => none
  | fuel + 1, client =>
    match virNetClientIOHandleInputTurn client with
    | virNetClientLoop.done ret c => some (ret, c)
    | virNetClientLoop.again c => virNetClientIOHandleInput fuel c

/-! ## The event loop -/

/-- The bits of `events` and `revents` of a `struct pollfd` that the client
looks at. -/
structure pollEvents where
  POLLIN : Bool
  POLLOUT : Bool
  POLLERR : Bool
  POLLHUP : Bool
  deriving DecidableEq, Repr

/-- The predicate `virNetClientIOEventLoopPollEvents`; `opaque` is the pollfd of
the socket. -/
def virNetClientIOEventLoopPollEvents (call : virNetClientCall) (fd : pollEvents) :
    Bool × pollEvents :=
  (false,
   { fd with
     POLLIN := fd.POLLIN || decide (call.mode = virNetClientMode.VIR_NET_CLIENT_MODE_WAIT_RX)
     POLLOUT := fd.POLLOUT || decide (call.mode = virNetClientMode.VIR_NET_CLIENT_MODE_WAIT_TX) })

/-- The predicate `virNetClientIOEventLoopRemoveDone`; `opaque` is the pointer
`thiscall` (possibly NULL) and the effects go to the trace. -/
def virNetClientIOEventLoopRemoveDone (thiscall : Option Nat) (call : virNetClientCall)
    (trace : List virNetClientEvent) : Bool × List virNetClientEvent :=
  if some call.addr = thiscall then (false, trace)
  else if call.mode ≠ virNetClientMode.VIR_NET_CLIENT_MODE_COMPLETE then (false, trace)
  else if call.haveThread then (true, trace ++ [virNetClientEvent.condSignal call.addr])
  else if call.expectReply then
    (true, trace ++ [virNetClientEvent.warn, virNetClientEvent.callFree call.addr])
  else (true, trace ++ [virNetClientEvent.callFree call.addr])

/-- The function `virNetClientIODetachNonBlocking`. -/
def virNetClientIODetachNonBlocking (call : virNetClientCall) : virNetClientCall :=
  { call with haveThread := false }

/-- The predicate `virNetClientIOEventLoopRemoveAll`. -/
def virNetClientIOEventLoopRemoveAll (thiscall : Option Nat) (call : virNetClientCall)
    (trace : List virNetClientEvent) : Bool × List virNetClientEvent :=
  if some call.addr = thiscall then (false, trace)
  else (true, trace ++ [virNetClientEvent.callFree call.addr])

/-- The function `virNetClientMarkClose`. -/
def virNetClientMarkClose {X : virNetCollab} (client : virNetClient X)
    (reason : virConnectCloseReason) : virNetClient X :=
  { client with wantClose := true, closeReason := reason }

/-- The function `virNetClientCloseLocked`. -/
def virNetClientCloseLocked {X : virNetCollab} (client : virNetClient X) : virNetClient X :=
  match client.sock with
  | none => client
  | some _ =>
    { client with
      sock := none
      keepalive := none
      wantClose := false
      trace := client.trace ++
        (if client.keepalive.isSome then [virNetClientEvent.keepAliveStop] else []) ++
        (if client.closeCb then [virNetClientEvent.closeCb client.closeReason] else []) }

/-- The function `virNetClientIOEventLoopPassTheBuck`; `thiscall` is the pointer
it is called with, possibly NULL. -/
def virNetClientIOEventLoopPassTheBuck {X : virNetCollab} (client : virNetClient X)
    (thiscall : Option Nat) : virNetClient X :=
  match client.waitDispatch.find?
      (fun tmp => decide (some tmp.addr ≠ thiscall) && tmp.haveThread) with
  | some tmp => { client with trace := client.trace ++ [virNetClientEvent.condSignal tmp.addr] }
  | none =>
    if client.wantClose then
      let c := virNetClientCloseLocked { client with haveTheBuck := false }
      let r := virNetClientCallRemovePredicate (virNetClientIOEventLoopRemoveAll thiscall)
        c.waitDispatch c.trace
      { c with waitDispatch := r.1, trace := r.2 }
    else { client with haveTheBuck := false }

/-- What the world outside the connection answers during one turn of the event
loop: the return value of `poll` once it is neither EAGAIN nor EINTR, the
`revents` it stores for the socket and whether it stores any for the wake-up pipe,
the answer of `virKeepAliveTrigger` (its return value and the message it hands
back), whether `saferead` on the wake-up pipe delivers its byte, and the number of
turns the input loop may take. -/
structure virNetClientPoll where
  ret : Int
  revents0 : pollEvents
  revents1 : Bool
  keepAliveDead : Bool
  keepAliveMsg : Option virNetMessage
  wakeupRead : Bool
  inputFuel : Nat
  deriving DecidableEq, Repr

/-- The object that the pointer `thiscall` points to: the queued call with that
address, or, when the call is not queued, the object as the caller holds it. -/
def virNetClientCallDeref (queue : List virNetClientCall) (thiscall : virNetClientCall) :
    virNetClientCall :=
  (queue.find? (fun c => decide (c.addr = thiscall.addr))).getD thiscall

/-- What `virNetClientIOEventLoop` returns: its return value, the connection and
the object `thiscall` as they are then. -/
structure virNetClientIOResult (X : virNetCollab) where
  ret : Int
  client : virNetClient X
  thiscall : virNetClientCall

/-- One turn of the loop of `virNetClientIOEventLoop` ends in another turn or in
a `return`. -/
inductive virNetClientIOStep (X : virNetCollab) where
  | again (client : virNetClient X)
  | done (r : virNetClientIOResult X)

/-- The `events` that `virNetClientIOEventLoop` asks `poll` for on the socket. -/
def virNetClientIOEventLoopEvents {X : virNetCollab} (client : virNetClient X) : pollEvents :=
  let fd := (virNetClientCallMatchPredicate virNetClientIOEventLoopPollEvents client.waitDispatch
    { POLLIN := false, POLLOUT := false, POLLERR := false, POLLHUP := false }).2
  if client.streams.length ≠ 0 then { fd with POLLIN := true } else fd

/-- The keepalive step of the event loop after `poll`: a dead peer marks the
connection for close, a request handed back is queued as a non-blocking call. -/
def virNetClientIOEventLoopTrigger {X : virNetCollab} (env : virNetClientPoll)
    (client : virNetClient X) : virNetClient X :=
  match client.keepalive with
  | none => client
  | some _ =>
    if env.keepAliveDead then
      virNetClientMarkClose client virConnectCloseReason.VIR_CONNECT_CLOSE_REASON_KEEPALIVE
    else
      match env.keepAliveMsg with
      | none => client
      | some msg =>
        if (virNetClientQueueNonBlocking client msg).1 < 0 then
          { client with trace := client.trace ++ [virNetClientEvent.warn] }
        else (virNetClientQueueNonBlocking client msg).2

/-- The value of `fds[0].revents` that the event loop acts on: what `poll` stored
(readable and writable only if asked for), readable added when the socket has
cached data, and replaced by POLLERR when the connection is marked for close. -/
def virNetClientIOEventLoopRevents {X : virNetCollab} (env : virNetClientPoll)
    (events : pollEvents) (client : virNetClient X) : pollEvents :=
  if client.wantClose then
    { POLLIN := false, POLLOUT := false, POLLERR := true, POLLHUP := false }
  else
    { POLLIN := (env.revents0.POLLIN && events.POLLIN) || virNetSocketHasCachedData client.sock
      POLLOUT := env.revents0.POLLOUT && events.POLLOUT
      POLLERR := env.revents0.POLLERR
      POLLHUP := env.revents0.POLLHUP }

/-- The code at the label `error` of `virNetClientIOEventLoop`. -/
def virNetClientIOEventLoopError {X : virNetCollab} (client : virNetClient X)
    (thiscall : virNetClientCall) : virNetClientIOResult X :=
  { ret := -1
    client := virNetClientIOEventLoopPassTheBuck
      { client with waitDispatch := virNetClientCallRemove client.waitDispatch thiscall.addr }
      (some thiscall.addr)
    thiscall := virNetClientCallDeref client.waitDispatch thiscall }

/-- The end of a turn of the event loop, after output and input: sweep the
completed calls, then return 0 if the own call is complete, return 1 if it is
non-blocking, fail on hangup or error, and otherwise go round again. -/
def virNetClientIOEventLoopSweep {X : virNetCollab} (revents : pollEvents)
    (client : virNetClient X) (thiscall : virNetClientCall) : virNetClientIOStep X :=
  let r := virNetClientCallRemovePredicate (virNetClientIOEventLoopRemoveDone (some thiscall.addr))
    client.waitDispatch client.trace
  let c : virNetClient X := { client with waitDispatch := r.1, trace := r.2 }
  let own := virNetClientCallDeref c.waitDispatch thiscall
  if own.mode = virNetClientMode.VIR_NET_CLIENT_MODE_COMPLETE then
    virNetClientIOStep.done
      { ret := 0
        client := virNetClientIOEventLoopPassTheBuck
          { c with waitDispatch := virNetClientCallRemove c.waitDispatch thiscall.addr }
          (some thiscall.addr)
        thiscall := own }
  else if own.nonBlock then
    virNetClientIOStep.done
      { ret := 1
        client := virNetClientIOEventLoopPassTheBuck
          { c with
            waitDispatch := modifyFirst (fun q => decide (q.addr = thiscall.addr))
              virNetClientIODetachNonBlocking c.waitDispatch }
          (some thiscall.addr)
        thiscall := virNetClientIODetachNonBlocking own }
  else if revents.POLLHUP || revents.POLLERR then
    virNetClientIOStep.done
      (virNetClientIOEventLoopError
        { virNetClientMarkClose c virConnectCloseReason.VIR_CONNECT_CLOSE_REASON_EOF with
          trace := c.trace ++ [virNetClientEvent.reportError] }
        thiscall)
  else virNetClientIOStep.again c

/-- The input step of a turn of the event loop, and what follows it. `none` when
the input loop does not return within its fuel. -/
def virNetClientIOEventLoopInput {X : virNetCollab} (env : virNetClientPoll)
    (revents : pollEvents) (client : virNetClient X) (thiscall : virNetClientCall) :
    Option (virNetClientIOStep X) :=
  if revents.POLLIN then
    match virNetClientIOHandleInput env.inputFuel client with
    | none => none
    | some (ret, c) =>
      if ret < 0 then
        some (virNetClientIOStep.done
          (virNetClientIOEventLoopError
            (virNetClientMarkClose c virConnectCloseReason.VIR_CONNECT_CLOSE_REASON_ERROR)
            thiscall))
      else some (virNetClientIOEventLoopSweep revents c thiscall)
  else some (virNetClientIOEventLoopSweep revents client thiscall)

/-- The output step of a turn of the event loop, and what follows it. -/
def virNetClientIOEventLoopOutput {X : virNetCollab} (env : virNetClientPoll)
    (revents : pollEvents) (client : virNetClient X) (thiscall : virNetClientCall) :
    Option (virNetClientIOStep X) :=
  if revents.POLLOUT then
    if (virNetClientIOHandleOutput client).1 < 0 then
      some (virNetClientIOStep.done
        (virNetClientIOEventLoopError
          (virNetClientMarkClose (virNetClientIOHandleOutput client).2
            virConnectCloseReason.VIR_CONNECT_CLOSE_REASON_ERROR)
          thiscall))
    else virNetClientIOEventLoopInput env revents (virNetClientIOHandleOutput client).2 thiscall
  else virNetClientIOEventLoopInput env revents client thiscall

/-- One turn of the loop of `virNetClientIOEventLoop`, from the computation of the
poll events to the end of the loop body. -/
def virNetClientIOEventLoopTurn {X : virNetCollab} (env : virNetClientPoll)
    (client : virNetClient X) (thiscall : virNetClientCall) : Option (virNetClientIOStep X) :=
  if env.ret < 0 then
    some (virNetClientIOStep.done
      (virNetClientIOEventLoopError
        { client with trace := client.trace ++ [virNetClientEvent.reportError] } thiscall))
  else
    let c := virNetClientIOEventLoopTrigger env client
    let revents := virNetClientIOEventLoopRevents env (virNetClientIOEventLoopEvents client) c
    if env.revents1 && !env.wakeupRead then
      some (virNetClientIOStep.done
        (virNetClientIOEventLoopError
          (virNetClientMarkClose
            { c with trace := c.trace ++ [virNetClientEvent.reportError] }
            virConnectCloseReason.VIR_CONNECT_CLOSE_REASON_ERROR)
          thiscall))
    else virNetClientIOEventLoopOutput env revents c thiscall

/-- The function `virNetClientIOEventLoop`: one answer of the outside world per
turn of the loop; `none` when the loop has not returned after the last answer. -/
def virNetClientIOEventLoop {X : virNetCollab} : List virNetClientPoll → virNetClient X →
    virNetClientCall → Option (virNetClientIOResult X)
  | [], _, _ => none
  | env :: rest, client, thiscall =>
    match virNetClientIOEventLoopTurn env client thiscall with
    | none => none
    | some (virNetClientIOStep.done r) => some r
    | some (virNetClientIOStep.again c) => virNetClientIOEventLoop rest c thiscall

/-! ## Sending -/

/-- What happens around a thread while it is inside `virNetClientIO`: whether
`safewrite` on the wake-up pipe succeeds; what the thread finds when `virCondWait`
returns (`none` when the wait fails, otherwise the connection and its own call
object as the other threads left them); and the answers of the outside world to
the turns of the event loop. -/
structure virNetClientIOEnv (X : virNetCollab) where
  wakeupWrite : Bool
  condWait : Option (virNetClient X × virNetClientCall)
  polls : List virNetClientPoll

/-- The part of `virNetClientIO` from "We have the buck" on: the last error is
reset, the event loop runs, and a return value 0 becomes -1 when an error was
reported meanwhile. `none` when the event loop has not returned after the last
answer. -/
def virNetClientIOBuck {X : virNetCollab} (polls : List virNetClientPoll)
    (client : virNetClient X) (thiscall : virNetClientCall) : Option (virNetClientIOResult X) :=
  match virNetClientIOEventLoop polls client thiscall with
  | none => none
  | some r =>
    if r.ret = 0 ∧ virNetClientEvent.reportError ∈ r.client.trace.drop client.trace.length then
      some { r with ret := -1 }
    else some r

/-- The function `virNetClientIO`. -/
def virNetClientIO {X : virNetCollab} (env : virNetClientIOEnv X) (client : virNetClient X)
    (thiscall : virNetClientCall) : Option (virNetClientIOResult X) :=
  let queued : virNetClient X :=
    { client with waitDispatch := virNetClientCallQueue client.waitDispatch thiscall }
  if client.haveTheBuck then
    if !env.wakeupWrite then
      some { ret := -1
             client := { queued with
                         waitDispatch := virNetClientCallRemove queued.waitDispatch thiscall.addr
                         trace := queued.trace ++ [virNetClientEvent.reportError] }
             thiscall := thiscall }
    else if thiscall.nonBlock then
      some { ret := 1
             client := { queued with
                         waitDispatch := modifyFirst (fun q => decide (q.addr = thiscall.addr))
                           virNetClientIODetachNonBlocking queued.waitDispatch }
             thiscall := virNetClientIODetachNonBlocking thiscall }
    else
      match env.condWait with
      | none =>
        some { ret := -1
               client := { queued with
                           waitDispatch := virNetClientCallRemove queued.waitDispatch thiscall.addr
                           trace := queued.trace ++ [virNetClientEvent.reportError] }
               thiscall := thiscall }
      | some (woken, own) =>
        if own.mode = virNetClientMode.VIR_NET_CLIENT_MODE_COMPLETE then
          some { ret := 0, client := woken, thiscall := own }
        else virNetClientIOBuck env.polls woken own
  else virNetClientIOBuck env.polls { queued with haveTheBuck := true } thiscall

/-- What a `virNetClientSend...` function returns: its return value, the
connection, and the caller's message as it is then. -/
structure virNetClientSendResult (X : virNetCollab) where
  ret : Int
  client : virNetClient X
  msg : virNetMessage

/-- The function `virNetClientSendInternal`. The call object is destroyed unless
the call was queued (return value 1). `none` when the event loop has not returned
after the last answer. -/
def virNetClientSendInternal {X : virNetCollab} (env : virNetClientIOEnv X)
    (client : virNetClient X) (msg : virNetMessage) (expectReply nonBlock : Bool) :
    Option (virNetClientSendResult X) :=
  if client.sock.isNone || client.wantClose then
    some { ret := -1
           client := { client with trace := client.trace ++ [virNetClientEvent.reportError] }
           msg := msg }
  else
    match virNetClientCallNew client.nextAddr msg expectReply nonBlock with
    | none =>
      some { ret := -1
             client := { client with
                         trace := client.trace ++
                           [virNetClientEvent.reportError, virNetClientEvent.reportError] }
             msg := msg }
    | some call =>
      match virNetClientIO env { client with nextAddr := client.nextAddr + 1 }
          { call with haveThread := true } with
      | none => none
      | some r =>
        if r.ret = 1 then some { ret := 1, client := r.client, msg := r.thiscall.msg }
        else
          some { ret := r.ret
                 client := { r.client with
                             trace := r.client.trace ++ [virNetClientEvent.callFree call.addr] }
                 msg := r.thiscall.msg }

/-- The function `virNetClientSendWithReply`. -/
def virNetClientSendWithReply {X : virNetCollab} (env : virNetClientIOEnv X)
    (client : virNetClient X) (msg : virNetMessage) : Option (virNetClientSendResult X) :=
  (virNetClientSendInternal env client msg true false).map
    (fun r => if r.ret < 0 then { r with ret := -1 } else { r with ret := 0 })

/-- The function `virNetClientSendNoReply`. -/
def virNetClientSendNoReply {X : virNetCollab} (env : virNetClientIOEnv X)
    (client : virNetClient X) (msg : virNetMessage) : Option (virNetClientSendResult X) :=
  (virNetClientSendInternal env client msg false false).map
    (fun r => if r.ret < 0 then { r with ret := -1 } else { r with ret := 0 })

/-- The function `virNetClientSendNonBlock`. -/
def virNetClientSendNonBlock {X : virNetCollab} (env : virNetClientIOEnv X)
    (client : virNetClient X) (msg : virNetMessage) : Option (virNetClientSendResult X) :=
  virNetClientSendInternal env client msg false true

/-! ## Image header parsing (`src/util/storage_file.c`)

The parsers of the QCOW and QCOW2 headers. The pointer `buf` is the list of the
bytes behind it and `buf_size` (`buflen`) is passed next to it, as in the source;
a byte outside the list reads as 0. Every function returns, next to its results,
the indices of `buf` it has loaded from, in order. `size_t` and `unsigned long
long` are 64 bits wide, `unsigned int` and `int` 32 bits. -/

/-- The byte `buf[i]`. -/
def virStorageFileByte (buf : List Nat) (i : Nat) : Nat :=
  buf.getD i 0

/-- The C string that starts at `buf + offset`: the bytes up to the first NUL. -/
def virStorageFileString (buf : List Nat) (offset : Nat) : List Nat :=
  (buf.drop offset).takeWhile (fun b => decide (b ≠ 0))

/-- The result codes of the `getBackingStore` functions. -/
inductive virStorageBackingStore where
  | BACKING_STORE_OK
  | BACKING_STORE_INVALID
  | BACKING_STORE_ERROR
  deriving DecidableEq, Repr

/-- The members of `enum lv_endian`. -/
inductive lv_endian where
  | LV_LITTLE_ENDIAN
  | LV_BIG_ENDIAN
  deriving DecidableEq, Repr

/-- The value `VIR_STORAGE_FILE_AUTO`. -/
def VIR_STORAGE_FILE_AUTO : Int := -1

/-- The value `VIR_STORAGE_FILE_NONE`, the first name of the format enum. -/
def VIR_STORAGE_FILE_NONE : Int := 0

/-- The constant `QCOWX_HDR_VERSION`. -/
def QCOWX_HDR_VERSION : Nat := 4

/-- The constant `QCOWX_HDR_BACKING_FILE_OFFSET`. -/
def QCOWX_HDR_BACKING_FILE_OFFSET : Nat := QCOWX_HDR_VERSION + 4

/-- The constant `QCOWX_HDR_BACKING_FILE_SIZE`. -/
def QCOWX_HDR_BACKING_FILE_SIZE : Nat := QCOWX_HDR_BACKING_FILE_OFFSET + 8

/-- The constant `QCOWX_HDR_IMAGE_SIZE`. -/
def QCOWX_HDR_IMAGE_SIZE : Nat := QCOWX_HDR_BACKING_FILE_SIZE + 4 + 4

/-- The constant `QCOW1_HDR_CRYPT`. -/
def QCOW1_HDR_CRYPT : Nat := QCOWX_HDR_IMAGE_SIZE + 8 + 1 + 1

/-- The constant `QCOW2_HDR_CRYPT`. -/
def QCOW2_HDR_CRYPT : Nat := QCOWX_HDR_IMAGE_SIZE + 8

/-- The constant `QCOW2_HDR_TOTAL_SIZE`. -/
def QCOW2_HDR_TOTAL_SIZE : Nat := QCOW2_HDR_CRYPT + 4 + 4 + 8 + 8 + 4 + 4 + 8

/-- The constant `QCOW2_HDR_EXTENSION_END`. -/
def QCOW2_HDR_EXTENSION_END : Nat := 0

/-- The constant `QCOW2_HDR_EXTENSION_BACKING_FORMAT`. -/
def QCOW2_HDR_EXTENSION_BACKING_FORMAT : Nat := 0xE2792ACA

/-- What `qcow2GetBackingStoreFormat` returns: its return value, `*format` and the
indices read so far. -/
structure qcow2FormatResult where
  ret : Int
  format : Int
  reads : List Nat
  deriving DecidableEq, Repr

/-- The `while` loop of `qcow2GetBackingStoreFormat`, with at most `fuel` turns;
`none` when the loop has not ended by then. `fromString` is
`virStorageFileFormatTypeFromString`, which reads the string it is given up to its
NUL. A `break` inside the `switch` leaves the `switch` only. -/
def qcow2GetBackingStoreFormatLoop (fromString : List Nat → Int) (buf : List Nat)
    (buf_size extension_end : Nat) : Nat → Nat → Int → List Nat → Option qcow2FormatResult
  | 0, _, _, _ => none
  | fuel + 1, offset, format, reads =>
    if offset < (buf_size + 2 ^ 64 - 8) % 2 ^ 64 ∧
        offset < (extension_end + 2 ^ 64 - 8) % 2 ^ 64 then
      let magic := ((virStorageFileByte buf offset <<< 24) +
        (virStorageFileByte buf (offset + 1) <<< 16) +
        (virStorageFileByte buf (offset + 2) <<< 8) +
        virStorageFileByte buf (offset + 3)) % 2 ^ 32
      let len := ((virStorageFileByte buf (offset + 4) <<< 24) +
        (virStorageFileByte buf (offset + 5) <<< 16) +
        (virStorageFileByte buf (offset + 6) <<< 8) +
        virStorageFileByte buf (offset + 7)) % 2 ^ 32
      let reads1 := reads ++ List.range' offset 8
      let offset1 := (offset + 8) % 2 ^ 64
      if (offset1 + len) % 2 ^ 64 < offset1 then
        some { ret := 0, format := format, reads := reads1 }
      else if (offset1 + len) % 2 ^ 64 > buf_size then
        some { ret := 0, format := format, reads := reads1 }
      else if magic = QCOW2_HDR_EXTENSION_END then
        some { ret := 0, format := format, reads := reads1 }
      else if magic = QCOW2_HDR_EXTENSION_BACKING_FORMAT then
        if virStorageFileByte buf ((offset1 + len) % 2 ^ 64) ≠ 0 then
          qcow2GetBackingStoreFormatLoop fromString buf buf_size extension_end fuel
            ((offset1 + len) % 2 ^ 64) format (reads1 ++ [(offset1 + len) % 2 ^ 64])
        else
          let name := virStorageFileString buf offset1
          let reads2 := reads1 ++ [(offset1 + len) % 2 ^ 64] ++
            List.range' offset1 (name.length + 1)
          if fromString name ≤ VIR_STORAGE_FILE_NONE then
            some { ret := -1, format := fromString name, reads := reads2 }
          else
            qcow2GetBackingStoreFormatLoop fromString buf buf_size extension_end fuel
              ((offset1 + len) % 2 ^ 64) (fromString name) reads2
      else
        qcow2GetBackingStoreFormatLoop fromString buf buf_size extension_end fuel
          ((offset1 + len) % 2 ^ 64) format reads1
    else some { ret := 0, format := format, reads := reads }

/-- The function `qcow2GetBackingStoreFormat`; `format` is the value of `*format`
at entry. Every turn of its loop moves `offset` up, by 8 at least, and stops
before `buf_size`, so `buf_size` turns are enough. -/
def qcow2GetBackingStoreFormat (fromString : List Nat → Int) (format : Int) (buf : List Nat)
    (buf_size extension_start extension_end : Nat) (reads : List Nat) :
    Option qcow2FormatResult :=
  qcow2GetBackingStoreFormatLoop fromString buf buf_size extension_end buf_size
    extension_start format reads

/-- What a `getBackingStore` function returns: its return value, `*res` (NULL or
the name, without its NUL), `*format` when the pointer `format` is not NULL, and
the indices read so far. -/
structure virStorageBackingResult where
  ret : virStorageBackingStore
  res : Option (List Nat)
  format : Option Int
  reads : List Nat
  deriving DecidableEq, Repr

/-- The function `qcowXGetBackingStore`; `format` says whether the pointer
`format` is not NULL. `none` when the extension scan has not ended within its
turns. -/
def qcowXGetBackingStore (fromString : List Nat → Int) (format : Bool) (buf : List Nat)
    (buf_size : Nat) (isQCow2 : Bool) (reads : List Nat) : Option virStorageBackingResult :=
  let format0 : Option Int := if format then some VIR_STORAGE_FILE_AUTO else none
  if buf_size < QCOWX_HDR_BACKING_FILE_OFFSET + 8 + 4 then
    some { ret := virStorageBackingStore.BACKING_STORE_INVALID, res := none, format := format0
           reads := reads }
  else
    let offset :=
      ((virStorageFileByte buf QCOWX_HDR_BACKING_FILE_OFFSET <<< 56) |||
       (virStorageFileByte buf (QCOWX_HDR_BACKING_FILE_OFFSET + 1) <<< 48) |||
       (virStorageFileByte buf (QCOWX_HDR_BACKING_FILE_OFFSET + 2) <<< 40) |||
       (virStorageFileByte buf (QCOWX_HDR_BACKING_FILE_OFFSET + 3) <<< 32) |||
       (virStorageFileByte buf (QCOWX_HDR_BACKING_FILE_OFFSET + 4) <<< 24) |||
       (virStorageFileByte buf (QCOWX_HDR_BACKING_FILE_OFFSET + 5) <<< 16) |||
       (virStorageFileByte buf (QCOWX_HDR_BACKING_FILE_OFFSET + 6) <<< 8) |||
       virStorageFileByte buf (QCOWX_HDR_BACKING_FILE_OFFSET + 7)) % 2 ^ 64
    let reads1 := reads ++ List.range' QCOWX_HDR_BACKING_FILE_OFFSET 8
    if offset > buf_size then
      some { ret := virStorageBackingStore.BACKING_STORE_INVALID, res := none, format := format0
             reads := reads1 }
    else
      let size :=
        ((virStorageFileByte buf QCOWX_HDR_BACKING_FILE_SIZE <<< 24) |||
         (virStorageFileByte buf (QCOWX_HDR_BACKING_FILE_SIZE + 1) <<< 16) |||
         (virStorageFileByte buf (QCOWX_HDR_BACKING_FILE_SIZE + 2) <<< 8) |||
         virStorageFileByte buf (QCOWX_HDR_BACKING_FILE_SIZE + 3)) % 2 ^ 32
      let reads2 := reads1 ++ List.range' QCOWX_HDR_BACKING_FILE_SIZE 4
      if size = 0 then
        some { ret := virStorageBackingStore.BACKING_STORE_OK, res := none
               format := if format then some VIR_STORAGE_FILE_NONE else none
               reads := reads2 }
      else if (offset + size) % 2 ^ 64 > buf_size ∨ (offset + size) % 2 ^ 64 < offset then
        some { ret := virStorageBackingStore.BACKING_STORE_INVALID, res := none
               format := format0, reads := reads2 }
      else if (size + 1) % 2 ^ 32 = 0 then
        some { ret := virStorageBackingStore.BACKING_STORE_INVALID, res := none
               format := format0, reads := reads2 }
      else
        let name := (List.range' offset size).map (virStorageFileByte buf)
        let reads3 := reads2 ++ List.range' offset size
        if isQCow2 && format then
          match qcow2GetBackingStoreFormat fromString VIR_STORAGE_FILE_AUTO buf buf_size
              QCOW2_HDR_TOTAL_SIZE offset reads3 with
          | none => none
          | some r =>
            if r.ret < 0 then
              some { ret := virStorageBackingStore.BACKING_STORE_INVALID, res := some name
                     format := some r.format, reads := r.reads }
            else
              some { ret := virStorageBackingStore.BACKING_STORE_OK, res := some name
                     format := some r.format, reads := r.reads }
        else
          some { ret := virStorageBackingStore.BACKING_STORE_OK, res := some name
                 format := format0, reads := reads3 }

/-- The function `qcow1GetBackingStore`. -/
def qcow1GetBackingStore (fromString : List Nat → Int) (buf : List Nat) (buf_size : Nat)
    (reads : List Nat) : Option virStorageBackingResult :=
  match qcowXGetBackingStore fromString false buf buf_size false reads with
  | none => none
  | some r =>
    if r.ret = virStorageBackingStore.BACKING_STORE_OK then
      some { r with
             format := if virStorageFileByte buf 0 = 0 then some VIR_STORAGE_FILE_NONE
                       else some VIR_STORAGE_FILE_AUTO
             reads := r.reads ++ [0] }
    else some { r with format := some VIR_STORAGE_FILE_AUTO }

/-- The function `qcow2GetBackingStore`. -/
def qcow2GetBackingStore (fromString : List Nat → Int) (buf : List Nat) (buf_size : Nat)
    (reads : List Nat) : Option virStorageBackingResult :=
  qcowXGetBackingStore fromString true buf buf_size true reads

/-- The formats of `enum virStorageFileFormat` whose headers are parsed here. -/
inductive virStorageFileFormat where
  | VIR_STORAGE_FILE_QCOW
  | VIR_STORAGE_FILE_QCOW2
  deriving DecidableEq, Repr

/-- The members of `struct FileTypeInfo` that `virStorageFileGetMetadataFromBuf`
uses; an offset of -1 is `none`. -/
structure FileTypeInfo where
  magic : Option (List Nat)
  endian : lv_endian
  sizeOffset : Option Nat
  sizeMultiplier : Nat
  qcowCryptOffset : Option Nat
  getBackingStore : Option ((List Nat → Int) → List Nat → Nat → List Nat →
    Option virStorageBackingResult)

/-- The entries of the table `fileTypeInfo` for QCOW and QCOW2; the magic is
"QFI". -/
def fileTypeInfo : virStorageFileFormat → FileTypeInfo
  | virStorageFileFormat.VIR_STORAGE_FILE_QCOW =>
    { magic := some [81, 70, 73], endian := lv_endian.LV_BIG_ENDIAN
      sizeOffset := some QCOWX_HDR_IMAGE_SIZE, sizeMultiplier := 1
      qcowCryptOffset := some QCOW1_HDR_CRYPT, getBackingStore := some qcow1GetBackingStore }
  | virStorageFileFormat.VIR_STORAGE_FILE_QCOW2 =>
    { magic := some [81, 70, 73], endian := lv_endian.LV_BIG_ENDIAN
      sizeOffset := some QCOWX_HDR_IMAGE_SIZE, sizeMultiplier := 1
      qcowCryptOffset := some QCOW2_HDR_CRYPT, getBackingStore := some qcow2GetBackingStore }

/-- What `virStorageFileGetMetadataFromBuf` returns and stores at `meta` from the
header: the return value, the capacity, the encryption flag, the name of the
backing store as the header gives it and its format, and the indices of `buf` read.
The resolution of the name against `path`, which follows and does not touch `buf`,
is left out. -/
structure virStorageFileMetadata where
  ret : Int
  capacity : Nat
  encrypted : Bool
  backingStoreRaw : Option (List Nat)
  backingStoreFormat : Int
  reads : List Nat
  deriving DecidableEq, Repr

/-- The part of `virStorageFileGetMetadataFromBuf` that calls the
`getBackingStore` function of the format. -/
def virStorageFileGetMetadataBacking (fromString : List Nat → Int) (info : FileTypeInfo)
    (buf : List Nat) (buflen : Nat) (meta : virStorageFileMetadata) :
    Option virStorageFileMetadata :=
  match info.getBackingStore with
  | none => some meta
  | some getBackingStore =>
    match getBackingStore fromString buf buflen meta.reads with
    | none => none
    | some r =>
      if r.ret = virStorageBackingStore.BACKING_STORE_INVALID then
        some { meta with ret := 1, reads := r.reads }
      else if r.ret = virStorageBackingStore.BACKING_STORE_ERROR then
        some { meta with ret := -1, reads := r.reads }
      else
        match r.res with
        | some backing =>
          some { meta with
                 backingStoreRaw := some backing
                 backingStoreFormat := r.format.getD VIR_STORAGE_FILE_AUTO
                 reads := r.reads }
        | none =>
          some { meta with
                 backingStoreRaw := none
                 backingStoreFormat := VIR_STORAGE_FILE_NONE
                 reads := r.reads }

/-- The part of `virStorageFileGetMetadataFromBuf` that reads the encryption mode
and goes on to the backing store. -/
def virStorageFileGetMetadataCrypt (fromString : List Nat → Int) (info : FileTypeInfo)
    (buf : List Nat) (buflen : Nat) (meta : virStorageFileMetadata) :
    Option virStorageFileMetadata :=
  match info.qcowCryptOffset with
  | none => virStorageFileGetMetadataBacking fromString info buf buflen meta
  | some qcowCryptOffset =>
    let crypt_format :=
      ((virStorageFileByte buf qcowCryptOffset <<< 24) |||
       (virStorageFileByte buf (qcowCryptOffset + 1) <<< 16) |||
       (virStorageFileByte buf (qcowCryptOffset + 2) <<< 8) |||
       virStorageFileByte buf (qcowCryptOffset + 3)) % 2 ^ 32
    virStorageFileGetMetadataBacking fromString info buf buflen
      { meta with
        encrypted := decide (crypt_format ≠ 0)
        reads := meta.reads ++ List.range' qcowCryptOffset 4 }

/-- The function `virStorageFileGetMetadataFromBuf` for the formats QCOW and
QCOW2, from metadata that is all zero. -/
def virStorageFileGetMetadataFromBuf (fromString : List Nat → Int)
    (format : virStorageFileFormat) (buf : List Nat) (buflen : Nat) :
    Option virStorageFileMetadata :=
  let info := fileTypeInfo format
  let meta : virStorageFileMetadata :=
    { ret := 0, capacity := 0, encrypted := false, backingStoreRaw := none
      backingStoreFormat := 0, reads := [] }
  match info.magic with
  | none => some meta
  | some _ =>
    match info.sizeOffset with
    | none => virStorageFileGetMetadataCrypt fromString info buf buflen meta
    | some sizeOffset =>
      if sizeOffset + 8 > buflen then some { meta with ret := 1 }
      else
        let capacity :=
          if info.endian = lv_endian.LV_LITTLE_ENDIAN then
            ((virStorageFileByte buf (sizeOffset + 7) <<< 56) |||
             (virStorageFileByte buf (sizeOffset + 6) <<< 48) |||
             (virStorageFileByte buf (sizeOffset + 5) <<< 40) |||
             (virStorageFileByte buf (sizeOffset + 4) <<< 32) |||
             (virStorageFileByte buf (sizeOffset + 3) <<< 24) |||
             (virStorageFileByte buf (sizeOffset + 2) <<< 16) |||
             (virStorageFileByte buf (sizeOffset + 1) <<< 8) |||
             virStorageFileByte buf sizeOffset) % 2 ^ 64
          else
            ((virStorageFileByte buf sizeOffset <<< 56) |||
             (virStorageFileByte buf (sizeOffset + 1) <<< 48) |||
             (virStorageFileByte buf (sizeOffset + 2) <<< 40) |||
             (virStorageFileByte buf (sizeOffset + 3) <<< 32) |||
             (virStorageFileByte buf (sizeOffset + 4) <<< 24) |||
             (virStorageFileByte buf (sizeOffset + 5) <<< 16) |||
             (virStorageFileByte buf (sizeOffset + 6) <<< 8) |||
             virStorageFileByte buf (sizeOffset + 7)) % 2 ^ 64
        let reads1 := if info.endian = lv_endian.LV_LITTLE_ENDIAN then
            (List.range' sizeOffset 8).reverse
          else List.range' sizeOffset 8
        if capacity > (2 ^ 64 - 1) / info.sizeMultiplier then
          some { meta with ret := 1, capacity := capacity, reads := reads1 }
        else
          virStorageFileGetMetadataCrypt fromString info buf buflen
            { meta with capacity := capacity * info.sizeMultiplier, reads := reads1 }

/-! ## Predicates of the properties -/

/-- The connection at the point where a turn of the event loop tests POLLIN: the
keepalive step and, if the socket was writable, the output step are done. -/
def virNetClientIOEventLoopAtInput {X : virNetCollab} (env : virNetClientPoll)
    (client : virNetClient X) : virNetClient X :=
  if (virNetClientIOEventLoopRevents env (virNetClientIOEventLoopEvents client)
      (virNetClientIOEventLoopTrigger env client)).POLLOUT then
    (virNetClientIOHandleOutput (virNetClientIOEventLoopTrigger env client)).2
  else virNetClientIOEventLoopTrigger env client

/-- A turn of the event loop gets as far as calling `virNetClientIOHandleInput`:
`poll` did not fail, the byte of the wake-up pipe (if signalled) was read, the
output step (if any) did not fail, and `revents` of the socket has POLLIN. -/
def virNetClientIOEventLoopRunsInput {X : virNetCollab} (env : virNetClientPoll)
    (client : virNetClient X) : Bool :=
  decide (0 ≤ env.ret) && !(env.revents1 && !env.wakeupRead) &&
  (!(virNetClientIOEventLoopRevents env (virNetClientIOEventLoopEvents client)
      (virNetClientIOEventLoopTrigger env client)).POLLOUT ||
    decide (0 ≤ (virNetClientIOHandleOutput (virNetClientIOEventLoopTrigger env client)).1)) &&
  (virNetClientIOEventLoopRevents env (virNetClientIOEventLoopEvents client)
    (virNetClientIOEventLoopTrigger env client)).POLLIN

/-- The keepalive object, if there is one, does not claim the message. -/
def virNetClientNotKeepAlive {X : virNetCollab} (client : virNetClient X)
    (msg : virNetMessage) : Prop :=
  ∀ ka, client.keepalive = some ka → (X.virKeepAliveCheckMessage ka msg).1 = false

/-- A predicate with a record of its evaluations: it answers and acts as `pred`
does and appends the call it was asked about and its answer to a log. -/
def virNetClientCallPredicateLogged {σ : Type} (pred : virNetClientCall → σ → Bool × σ)
    (call : virNetClientCall) (s : σ × List (virNetClientCall × Bool)) :
    Bool × (σ × List (virNetClientCall × Bool)) :=
  ((pred call s.1).1, ((pred call s.1).2, s.2 ++ [(call, (pred call s.1).1)]))

/-- The operations of the client on its queue: `virNetClientSendInternal` creates
a call and `virNetClientIO` puts it on the queue; `virNetClientQueueNonBlocking`;
`virNetClientCallRemove` of a call; `virNetClientCallRemovePredicate` with a
predicate that acts on the trace. -/
inductive virNetClientQueueOp where
  | send (msg : virNetMessage) (expectReply nonBlock : Bool)
  | queueNonBlocking (msg : virNetMessage)
  | remove (call : Nat)
  | removePredicate
      (pred : virNetClientCall → List virNetClientEvent → Bool × List virNetClientEvent)

/-- The connection after one operation on its queue. -/
def virNetClientQueueOp.apply {X : virNetCollab} (client : virNetClient X) :
    virNetClientQueueOp → virNetClient X
  | virNetClientQueueOp.send msg expectReply nonBlock =>
    match virNetClientCallNew client.nextAddr msg expectReply nonBlock with
    | none => client
    | some call =>
      { client with
        waitDispatch := virNetClientCallQueue client.waitDispatch { call with haveThread := true }
        nextAddr := client.nextAddr + 1 }
  | virNetClientQueueOp.queueNonBlocking msg => (virNetClientQueueNonBlocking client msg).2
  | virNetClientQueueOp.remove call =>
    { client with waitDispatch := virNetClientCallRemove client.waitDispatch call }
  | virNetClientQueueOp.removePredicate pred =>
    { client with
      waitDispatch := (virNetClientCallRemovePredicate pred client.waitDispatch client.trace).1
      trace := (virNetClientCallRemovePredicate pred client.waitDispatch client.trace).2 }

/-- No call object is on the queue twice, and every queued call was allocated
before the next address the allocator hands out. -/
def virNetClientQueueDistinct {X : virNetCollab} (client : virNetClient X) : Prop :=
  (client.waitDispatch.map (fun c => c.addr)).Nodup ∧
  ∀ c ∈ client.waitDispatch, c.addr < client.nextAddr

/-- The next `n` calls of `virNetSocketSendFD` on the socket all hand their
descriptor over. -/
def virNetSocketSendsAll : Option virNetSocket → Nat → Bool
  | _, 0 => true
  | none, _ + 1 => false
  | some s, n + 1 =>
    match s.txfds with
    | virNetSocketResult.ok _ :: rest => virNetSocketSendsAll (some { s with txfds := rest }) n
    | _ => false

/-- The number of bytes the socket takes in one attempt of
`virNetClientIOWriteMessage`: what `virNetSocketWrite` returns for the unwritten
rest of the buffer if that is positive, and nothing if no byte is left to write or
the write fails or would block. -/
def virNetClientIOWriteCount (st : virNetClientWriteState) : Nat :=
  if st.thecall.msg.bufferOffset < st.thecall.msg.bufferLength then
    (virNetSocketWrite st.sock
      ((st.thecall.msg.buffer.drop st.thecall.msg.bufferOffset).take
        (st.thecall.msg.bufferLength - st.thecall.msg.bufferOffset))).1.toNat
  else 0

/-- The socket after the write of that attempt, before any descriptor is sent. -/
def virNetClientIOSocketAfterWrite (st : virNetClientWriteState) : Option virNetSocket :=
  if st.thecall.msg.bufferOffset < st.thecall.msg.bufferLength then
    (virNetSocketWrite st.sock
      ((st.thecall.msg.buffer.drop st.thecall.msg.bufferOffset).take
        (st.thecall.msg.bufferLength - st.thecall.msg.bufferOffset))).2.1
  else st.sock

/-- The trace holds a descriptor sent to the socket. -/
def virNetClientEvent.isSendFD : virNetClientEvent → Bool
  | virNetClientEvent.socketSendFD _ => true
  | _ => false

/-- The message after the descriptors `got` have been stored in its array from
`donefds` on, one by one. -/
def virNetMessageStoreFDs (msg : virNetMessage) (got : List Int) : virNetMessage :=
  got.foldl (fun m fd => { m with fds := m.fds.set m.donefds fd, donefds := m.donefds + 1 }) msg

/-- The connection that the input pass hands to the router for a frame whose
decoded header is `hmsg`: for a reply with descriptors the one in which all
announced descriptors have been received; `none` when the descriptor count cannot
be decoded, a receive fails or descriptors are still missing. -/
def virNetClientIOAtDispatch {X : virNetCollab} (client : virNetClient X)
    (hmsg : virNetMessage) : Option (virNetClient X) :=
  if hmsg.header.type = virNetMessageType.VIR_NET_REPLY_WITH_FDS then
    match X.virNetMessageDecodeNumFDs hmsg with
    | none => none
    | some nmsg =>
      if (virNetClientIOHandleInputFDs (nmsg.nfds - nmsg.donefds) client.sock nmsg).1 = true ∨
          (virNetClientIOHandleInputFDs (nmsg.nfds - nmsg.donefds) client.sock nmsg).2.2.donefds <
            (virNetClientIOHandleInputFDs (nmsg.nfds - nmsg.donefds) client.sock nmsg).2.2.nfds
      then none
      else
        some { client with
               sock := (virNetClientIOHandleInputFDs (nmsg.nfds - nmsg.donefds)
                 client.sock nmsg).2.1
               msg := (virNetClientIOHandleInputFDs (nmsg.nfds - nmsg.donefds)
                 client.sock nmsg).2.2 }
  else some { client with msg := hmsg }

/-- The connection after the router has run and the receive buffer has been
reset. -/
def virNetClientIOAfterDispatch {X : virNetCollab} (client : virNetClient X) :
    virNetClient X :=
  { (virNetClientCallDispatch client).2 with
    msg := { (virNetClientCallDispatch client).2.msg with
             bufferOffset := 0, bufferLength := 0, buffer := [] } }

/-- The event is the signal of a call's condition variable. -/
def virNetClientEvent.isCondSignal : virNetClientEvent → Bool
  | virNetClientEvent.condSignal _ => true
  | _ => false

/-- The event is the release of a call object. -/
def virNetClientEvent.isCallFree : virNetClientEvent → Bool
  | virNetClientEvent.callFree _ => true
  | _ => false

/-- The call is complete and is not the own call `thiscall`. -/
def virNetClientCallSwept (thiscall : Option Nat) (call : virNetClientCall) : Bool :=
  decide (some call.addr ≠ thiscall) &&
    decide (call.mode = virNetClientMode.VIR_NET_CLIENT_MODE_COMPLETE)

/-- The call is not the own call `thiscall` and has a thread waiting for it. -/
def virNetClientCallWaiting (thiscall : Option Nat) (call : virNetClientCall) : Bool :=
  decide (some call.addr ≠ thiscall) && call.haveThread

/-- The events of handing the descriptors `fds[start]`, ..., `fds[start + n - 1]`
to the socket, in this order. -/
def virNetMessageSentFDs (fds : List Int) (start n : Nat) : List virNetClientEvent :=
  (List.range' start n).map (fun i => virNetClientEvent.socketSendFD (fds.getD i 0))

/-- The attempts of `virNetClientIOWriteMessage` on one call that successive
output passes make, at most `k` of them: they go on while the call is in the
sending mode and no attempt has failed. -/
def virNetClientIOWriteAttempts : Nat → virNetClientWriteState → virNetClientWriteState
  | 0, st => st
  | k + 1, st =>
    if st.thecall.mode = virNetClientMode.VIR_NET_CLIENT_MODE_WAIT_TX then
      if (virNetClientIOWriteMessage st).1 < 0 then (virNetClientIOWriteMessage st).2
      else virNetClientIOWriteAttempts k (virNetClientIOWriteMessage st).2
    else st

/-- What attempts to send a call have done to the state `st` when they leave the
state `r`: the descriptor array and its length are the same; `donefds` has moved
up by the number of descriptors handed over; after a call has left the sending mode
all descriptors from the old `donefds` on have been handed over, each once, in
order, and while it is still sending those below the new `donefds` have. -/
def virNetClientIOWriteProgress (st r : virNetClientWriteState) : Prop :=
  r.thecall.msg.fds = st.thecall.msg.fds ∧
  r.thecall.msg.nfds = st.thecall.msg.nfds ∧
  (r.thecall.mode = virNetClientMode.VIR_NET_CLIENT_MODE_WAIT_TX →
    st.thecall.msg.donefds ≤ r.thecall.msg.donefds ∧
    r.thecall.msg.donefds ≤ st.thecall.msg.donefds +
      (st.thecall.msg.nfds - st.thecall.msg.donefds) ∧
    r.trace.filter virNetClientEvent.isSendFD =
      st.trace.filter virNetClientEvent.isSendFD ++
        virNetMessageSentFDs st.thecall.msg.fds st.thecall.msg.donefds
          (r.thecall.msg.donefds - st.thecall.msg.donefds)) ∧
  (r.thecall.mode ≠ virNetClientMode.VIR_NET_CLIENT_MODE_WAIT_TX →
    r.trace.filter virNetClientEvent.isSendFD =
      st.trace.filter virNetClientEvent.isSendFD ++
        virNetMessageSentFDs st.thecall.msg.fds st.thecall.msg.donefds
          (st.thecall.msg.nfds - st.thecall.msg.donefds))

/-- The call has nothing left to send and is in the mode a sent call has: no
buffer, offset and length 0, no descriptors, and the mode WAIT_RX if a reply is
expected, COMPLETE otherwise. -/
def virNetClientCallIdle (call : virNetClientCall) : Prop :=
  call.msg.buffer = [] ∧ call.msg.bufferLength = 0 ∧ call.msg.bufferOffset = 0 ∧
  call.msg.nfds = 0 ∧ call.msg.donefds = 0 ∧
  call.mode = if call.expectReply then virNetClientMode.VIR_NET_CLIENT_MODE_WAIT_RX
              else virNetClientMode.VIR_NET_CLIENT_MODE_COMPLETE

/-- The call is in the sending mode. -/
def virNetClientCallSending (call : virNetClientCall) : Bool :=
  decide (call.mode = virNetClientMode.VIR_NET_CLIENT_MODE_WAIT_TX)

/-- A call that was not in the sending mode is the same afterwards. -/
def virNetClientCallKept (before after : virNetClientCall) : Prop :=
  before.mode ≠ virNetClientMode.VIR_NET_CLIENT_MODE_WAIT_TX → after = before

/-- Every index read lies inside the buffer of length `buflen`. -/
def virStorageFileReadsInside (buflen : Nat) (reads : List Nat) : Prop :=
  ∀ i ∈ reads, i < buflen

instance (buflen : Nat) (reads : List Nat) : Decidable (virStorageFileReadsInside buflen reads) := by
  unfold virStorageFileReadsInside
  infer_instance

/-- What identifies a call object and tells how it is waited for: its address and
the flags `expectReply`, `nonBlock` and `haveThread`. -/
def virNetClientCallKey (call : virNetClientCall) : Nat × Bool × Bool × Bool :=
  (call.addr, call.expectReply, call.nonBlock, call.haveThread)

/-- The connection `after` has the queue of `before` with modes and messages
possibly changed, followed by `k` newly allocated calls that are non-blocking,
expect no reply and have no thread. -/
def virNetClientQueueGrows {X : virNetCollab} (before after : virNetClient X) : Prop :=
  ∃ k : Nat, after.nextAddr = before.nextAddr + k ∧
    after.waitDispatch.map virNetClientCallKey =
      before.waitDispatch.map virNetClientCallKey ++
        (List.range' before.nextAddr k).map (fun a => (a, false, true, false))

/-- The flags of a call are as the client sets them: a call without a thread is
non-blocking, and a non-blocking call expects no reply. -/
def virNetClientCallLegal (call : virNetClientCall) : Prop :=
  (call.haveThread = false → call.nonBlock = true) ∧
  (call.nonBlock = true → call.expectReply = false)

/-- The connection a turn of a loop of the client leaves. -/
def virNetClientLoop.client {X : virNetCollab} : virNetClientLoop X → virNetClient X
  | virNetClientLoop.again c => c
  | virNetClientLoop.done _ c => c

/-- The invariant of the wait queue: the queued call objects are distinct and were
allocated before the next address, and the flags of each are legal. -/
def virNetClientQueueLegal {X : virNetCollab} (client : virNetClient X) : Prop :=
  virNetClientQueueDistinct client ∧ ∀ x ∈ client.waitDispatch, virNetClientCallLegal x

/-- The event is the warning of the sweep. -/
def virNetClientEvent.isWarn : virNetClientEvent → Bool
  | virNetClientEvent.warn => true
  | _ => false

/-- The connection a turn of the event loop leaves. -/
def virNetClientIOStep.client {X : virNetCollab} : virNetClientIOStep X → virNetClient X
  | virNetClientIOStep.again c => c
  | virNetClientIOStep.done r => r.client

/-- The connection states that the operations of the client lead to, from a
connection with an empty queue: a send by any thread (while it waits, other
threads bring the connection to a state of this kind); the event loop run by a
thread that was handed the buck; a keepalive message queued by
`virNetClientQueueNonBlocking`; the output pass, the input pass and the sweep of
the completed calls, as the event loop and the socket callback make them; and
`virNetClientIOEventLoopPassTheBuck`, as a close makes it. -/
inductive virNetClientReachable {X : virNetCollab} : virNetClient X → Prop
  | init (c : virNetClient X) (h : c.waitDispatch = []) : virNetClientReachable c
  | send (env : virNetClientIOEnv X) (c : virNetClient X) (msg : virNetMessage)
      (expectReply nonBlock : Bool) (r : virNetClientSendResult X)
      (hc : virNetClientReachable c)
      (hwait : ∀ w o, env.condWait = some (w, o) → virNetClientReachable w)
      (h : virNetClientSendInternal env c msg expectReply nonBlock = some r) :
      virNetClientReachable r.client
  | eventLoop (polls : List virNetClientPoll) (c : virNetClient X)
      (thiscall : virNetClientCall) (r : virNetClientIOResult X)
      (hc : virNetClientReachable c)
      (h : virNetClientIOEventLoop polls c thiscall = some r) : virNetClientReachable r.client
  | queueNonBlocking (c : virNetClient X) (msg : virNetMessage)
      (hc : virNetClientReachable c) :
      virNetClientReachable (virNetClientQueueNonBlocking c msg).2
  | handleOutput (c : virNetClient X) (hc : virNetClientReachable c) :
      virNetClientReachable (virNetClientIOHandleOutput c).2
  | handleInput (fuel : Nat) (c : virNetClient X) (r : Int × virNetClient X)
      (hc : virNetClientReachable c) (h : virNetClientIOHandleInput fuel c = some r) :
      virNetClientReachable r.2
  | sweep (c : virNetClient X) (thiscall : Option Nat) (hc : virNetClientReachable c) :
      virNetClientReachable
        { c with
          waitDispatch := (virNetClientCallRemovePredicate
            (virNetClientIOEventLoopRemoveDone thiscall) c.waitDispatch c.trace).1
          trace := (virNetClientCallRemovePredicate
            (virNetClientIOEventLoopRemoveDone thiscall) c.waitDispatch c.trace).2 }
  | passTheBuck (c : virNetClient X) (thiscall : Option Nat) (hc : virNetClientReachable c) :
      virNetClientReachable (virNetClientIOEventLoopPassTheBuck c thiscall)

/-- Where the loop of `virNetClientIOHandleInput` stands when a turn has done its
reading: another turn is due (a partial read, or the length word just decoded), the
pass has returned `ret`, or a whole frame is in the buffer (`bufferOffset ==
bufferLength`, not the length word) and its header is about to be decoded. -/
inductive virNetClientIOReceived (X : virNetCollab) where
  | again (client : virNetClient X)
  | done (ret : Int) (client : virNetClient X)
  | frame (client : virNetClient X)

/-- The connection of such a point. -/
def virNetClientIOReceived.client {X : virNetCollab} : virNetClientIOReceived X → virNetClient X
  | virNetClientIOReceived.again c => c
  | virNetClientIOReceived.done _ c => c
  | virNetClientIOReceived.frame c => c

/-- The check for completion of `virNetClientIOHandleInputCheck` up to the point
where it would process a whole frame. -/
def virNetClientIOHandleInputCheckFrame {X : virNetCollab} (client : virNetClient X) :
    virNetClientIOReceived X :=
  if client.msg.bufferOffset = client.msg.bufferLength then
    if client.msg.bufferOffset = 4 then
      match X.virNetMessageDecodeLength client.msg with
      | none => virNetClientIOReceived.done (-1) client
      | some lmsg => virNetClientIOReceived.again { client with msg := lmsg }
    else virNetClientIOReceived.frame client
  else virNetClientIOReceived.again client

/-- One turn of the loop of `virNetClientIOHandleInput` up to the point where it
would process a whole frame. -/
def virNetClientIOHandleInputTurnFrame {X : virNetCollab} (client : virNetClient X) :
    virNetClientIOReceived X :=
  if client.msg.nfds = 0 then
    let r := virNetClientIOReadMessage client
    if r.1 < 0 then virNetClientIOReceived.done (-1) r.2
    else if r.1 = 0 then virNetClientIOReceived.done 0 r.2
    else virNetClientIOHandleInputCheckFrame r.2
  else virNetClientIOHandleInputCheckFrame client

/-- The turns of the loop of `virNetClientIOHandleInput` from `client` on, at most
`fuel` of them, up to the first that returns or has a whole frame in the buffer:
the point reached (never `again`) and the turns that are left; `none` when the
turns run out before. -/
def virNetClientIOHandleInputReceive {X : virNetCollab} : Nat → virNetClient X →
    Option (virNetClientIOReceived X × Nat)
  | 0, _ => none
  | fuel + 1, client =>
    match virNetClientIOHandleInputTurnFrame client with
    | virNetClientIOReceived.again c => virNetClientIOHandleInputReceive fuel c
    | virNetClientIOReceived.done ret c => some (virNetClientIOReceived.done ret c, fuel)
    | virNetClientIOReceived.frame c => some (virNetClientIOReceived.frame c, fuel)

/-- The input pass on `client`, with `fuel` turns of its loop, receives a frame
whole, in as many reads as it takes and from whatever the receive buffer holds at
the start, and decodes its header to `hmsg`: `frame` is the connection when the
last byte has been stored and `rest` is the number of turns left. -/
def virNetClientIOReceivesFrame {X : virNetCollab} (fuel : Nat) (client : virNetClient X)
    (frame : virNetClient X) (rest : Nat) (hmsg : virNetMessage) : Prop :=
  virNetClientIOHandleInputReceive fuel client = some (virNetClientIOReceived.frame frame, rest) ∧
  X.virNetMessageDecodeHeader frame.msg = some hmsg

/-- The size of what is left of a script of reads: one for every scripted result
and one more for every byte of a scripted chunk. -/
def virNetSocketScriptSize : List (virNetSocketResult (List Nat)) → Nat
  | [] => 0
  | virNetSocketResult.ok chunk :: rest => chunk.length + 1 + virNetSocketScriptSize rest
  | virNetSocketResult.wouldBlock :: rest => 1 + virNetSocketScriptSize rest
  | virNetSocketResult.error :: rest => 1 + virNetSocketScriptSize rest

/-- What is pending on the socket for `virNetSocketRead`: the size of its script of
reads. Every read that returns bytes makes it smaller. -/
def virNetSocketPending : Option virNetSocket → Nat
  | none => 0
  | some s => virNetSocketScriptSize s.rx

/-- The state of the receive buffer between the turns of the input loop: while
descriptors are pending (`nfds` not 0) a whole frame is in the buffer
(`bufferOffset == bufferLength`, not the length word). It holds for a new
connection (`nfds` is 0) and the input pass keeps it. -/
def virNetClientReceiveState (msg : virNetMessage) : Prop :=
  msg.nfds ≠ 0 → msg.bufferOffset = msg.bufferLength ∧ msg.bufferOffset ≠ 4

/-- What the input pass needs of the codec to keep the state of the receive buffer:
decoding the header and the descriptor count leaves the length of the buffer
alone. -/
def virNetMessageCodecKeepsLength (X : virNetCollab) : Prop :=
  (∀ m h, X.virNetMessageDecodeHeader m = some h → h.bufferLength = m.bufferLength) ∧
  (∀ m n, X.virNetMessageDecodeNumFDs m = some n → n.bufferLength = m.bufferLength)

/-- The loop of `virNetClientIOHandleInput`, started on the first connection with
the first number of turns, stands at the top of its loop on the second connection
with the second number of turns left: at the start, or after turns that went round
again (a read that did not complete the frame, a decoded length word, or a frame
dispatched with result 0 while the socket has cached data). -/
inductive virNetClientIOHandleInputReaches {X : virNetCollab} :
    Nat → virNetClient X → Nat → virNetClient X → Prop where
  | start (fuel : Nat) (client : virNetClient X) :
    virNetClientIOHandleInputReaches fuel client fuel client
  | turn (fuel : Nat) (client next : virNetClient X) (left : Nat) (last : virNetClient X) :
    virNetClientIOHandleInputTurn client = virNetClientLoop.again next →
    virNetClientIOHandleInputReaches fuel next left last →
    virNetClientIOHandleInputReaches (fuel + 1) client left last

/-- The key a reply is matched by: program, version and serial of a header. -/
def virNetMessageTriple (msg : virNetMessage) : Nat × Nat × Nat :=
  (msg.header.prog, msg.header.vers, msg.header.serial)

/-- The calls of a queue have pairwise distinct (program, version, serial). -/
def distinctTriples (queue : List virNetClientCall) : Prop :=
  queue.Pairwise (fun a b => virNetMessageTriple a.msg ≠ virNetMessageTriple b.msg)

instance (queue : List virNetClientCall) : Decidable (distinctTriples queue) := by
  unfold distinctTriples
  infer_instance

/-! ## A concrete instance

Collaborators with one byte per header field, used to run the definitions on
concrete connections. -/

/-- The type code of the one-byte codec. -/
def sampleType (n : Nat) : virNetMessageType :=
  if n = 0 then virNetMessageType.VIR_NET_CALL
  else if n = 1 then virNetMessageType.VIR_NET_REPLY
  else if n = 2 then virNetMessageType.VIR_NET_MESSAGE
  else if n = 3 then virNetMessageType.VIR_NET_STREAM
  else if n = 4 then virNetMessageType.VIR_NET_REPLY_WITH_FDS
  else virNetMessageType.other n

/-- The status code of the one-byte codec. -/
def sampleStatus (n : Nat) : virNetMessageStatus :=
  if n = 0 then virNetMessageStatus.VIR_NET_OK
  else if n = 1 then virNetMessageStatus.VIR_NET_ERROR
  else if n = 2 then virNetMessageStatus.VIR_NET_CONTINUE
  else virNetMessageStatus.other n

/-- Sample collaborators: a stream is its (program, version, serial) and the
payloads queued on it, a program is its (program, version); a frame is the length
word followed by six header bytes and the payload. -/
def sampleCollab : virNetCollab where
  Stream := (Nat × Nat × Nat) × List (List Nat)
  Program := Nat × Nat
  KeepAlive := Unit
  virNetClientStreamMatches := fun st msg => decide (st.1 = virNetMessageTriple msg)
  virNetClientStreamQueuePacket := fun st msg =>
    some (st.1, st.2 ++ [msg.buffer.drop msg.bufferOffset])
  virNetClientStreamSetError := fun st _ => some st
  virNetClientStreamRaiseError := fun _ => true
  virNetClientProgramMatches := fun prog msg =>
    decide (prog.1 = msg.header.prog) && decide (prog.2 = msg.header.vers)
  virKeepAliveCheckMessage := fun _ _ => (false, none)
  virKeepAliveTimeout := fun _ => 5000
  virNetMessageDecodeLength := fun msg =>
    if 4 ≤ msg.buffer.getD 3 0 then
      some { msg with
             bufferLength := msg.buffer.getD 3 0
             buffer := msg.buffer ++ List.replicate (msg.buffer.getD 3 0 - 4) 0 }
    else none
  virNetMessageDecodeHeader := fun msg =>
    if 10 ≤ msg.bufferLength then
      some { msg with
             bufferOffset := 10
             header := { prog := msg.buffer.getD 4 0
                         vers := msg.buffer.getD 5 0
                         proc := msg.buffer.getD 6 0
                         type := sampleType (msg.buffer.getD 7 0)
                         serial := msg.buffer.getD 8 0
                         status := sampleStatus (msg.buffer.getD 9 0) } }
    else none
  virNetMessageDecodeNumFDs := fun msg =>
    if msg.nfds = 0 then
      some { msg with
             nfds := msg.buffer.getD 10 0
             fds := List.replicate (msg.buffer.getD 10 0) (-1)
             bufferOffset := 11 }
    else some { msg with bufferOffset := 11 }

/-- A header with the given serial, type and status, of program 1 version 1. -/
def sampleHeader (serial : Nat) (type : virNetMessageType) (status : virNetMessageStatus) :
    virNetMessageHeader :=
  { prog := 1, vers := 1, proc := 7, type := type, serial := serial, status := status }

/-- A message without buffer and descriptors. -/
def sampleMessage (serial : Nat) (type : virNetMessageType) (status : virNetMessageStatus) :
    virNetMessage :=
  { buffer := [], bufferLength := 0, bufferOffset := 0
    header := sampleHeader serial type status, fds := [], nfds := 0, donefds := 0 }

/-- A blocking call with a waiting thread that has been sent and awaits its
reply. -/
def sampleCall (addr serial : Nat) : virNetClientCall :=
  { addr := addr
    mode := virNetClientMode.VIR_NET_CLIENT_MODE_WAIT_RX
    msg := sampleMessage serial virNetMessageType.VIR_NET_CALL virNetMessageStatus.VIR_NET_OK
    expectReply := true, nonBlock := false, haveThread := true }

/-- An open socket on which nothing has arrived. -/
def sampleSocket : virNetSocket :=
  { rx := [], tx := [], rxfds := [], txfds := [], cachedData := false }

/-- An open connection with one registered program, the given queue and the given
incoming message. -/
def sampleClient (queue : List virNetClientCall) (msg : virNetMessage) :
    virNetClient sampleCollab :=
  { sock := some sampleSocket
    programs := [(1, 1)]
    msg := msg
    waitDispatch := queue
    haveTheBuck := true
    streams := []
    keepalive := none
    wantClose := false
    closeReason := virConnectCloseReason.VIR_CONNECT_CLOSE_REASON_ERROR
    closeCb := true
    trace := []
    nextAddr := 100 }

/-- An answer of the outside world in which `poll` reports nothing. -/
def samplePoll : virNetClientPoll :=
  { ret := 0
    revents0 := { POLLIN := false, POLLOUT := false, POLLERR := false, POLLHUP := false }
    revents1 := false
    keepAliveDead := false
    keepAliveMsg := none
    wakeupRead := true
    inputFuel := 8 }

/-- An incoming reply, fully decoded, for serial 2 of program 1 version 1: a frame
of 12 bytes with a payload of two bytes, and one received descriptor when the type
is a reply with descriptors. -/
def sampleReply (type : virNetMessageType) (fds : List Int) : virNetMessage :=
  { buffer := [0, 0, 0, 12, 1, 1, 7, 1, 2, 0, 170, 187]
    bufferLength := 12
    bufferOffset := 10
    header := sampleHeader 2 type virNetMessageStatus.VIR_NET_OK
    fds := fds, nfds := fds.length, donefds := fds.length }

/-- A connection like `sampleClient` with the stream of serial 2 registered. -/
def sampleStreamClient (queue : List virNetClientCall) (msg : virNetMessage) :
    virNetClient sampleCollab :=
  { sampleClient queue msg with streams := [((1, 1, 2), [])] }

/-- An incoming stream frame, fully decoded, for serial 2 with the given status
and a payload of two bytes. -/
def sampleStreamFrame (status : virNetMessageStatus) : virNetMessage :=
  { buffer := [0, 0, 0, 12, 1, 1, 7, 3, 2, 2, 170, 187]
    bufferLength := 12
    bufferOffset := 10
    header := sampleHeader 2 virNetMessageType.VIR_NET_STREAM status
    fds := [], nfds := 0, donefds := 0 }

/-- A non-blocking call without reply whose 12 bytes are still to be sent, created
by a thread that is about to run the event loop. -/
def sampleNonBlockCall (addr serial : Nat) : virNetClientCall :=
  { addr := addr
    mode := virNetClientMode.VIR_NET_CLIENT_MODE_WAIT_TX
    msg := { buffer := [0, 0, 0, 12, 1, 1, 7, 0, serial, 0, 1, 2]
             bufferLength := 12
             bufferOffset := 0
             header := sampleHeader serial virNetMessageType.VIR_NET_CALL
               virNetMessageStatus.VIR_NET_OK
             fds := [], nfds := 0, donefds := 0 }
    expectReply := false, nonBlock := true, haveThread := true }

/-- An open connection with keepalive enabled and the given queue. -/
def sampleKeepAliveClient (queue : List virNetClientCall) : virNetClient sampleCollab :=
  { sampleClient queue
      (sampleMessage 0 virNetMessageType.VIR_NET_CALL virNetMessageStatus.VIR_NET_OK) with
    keepalive := some () }

/-- An answer of the outside world in which `poll` times out and the keepalive
trigger declares the peer dead. -/
def sampleDeadPoll : virNetClientPoll :=
  { samplePoll with keepAliveDead := true }

/-- A detached non-blocking call of another caller, still to be sent. -/
def sampleDetachedCall (addr serial : Nat) : virNetClientCall :=
  { sampleNonBlockCall addr serial with haveThread := false }

/-- An answer of the outside world in which `poll` reports the socket readable. -/
def sampleReadable : virNetClientPoll :=
  { samplePoll with
    revents0 := { POLLIN := true, POLLOUT := false, POLLERR := false, POLLHUP := false } }

/-- An open connection with the given queue, nothing received yet, on whose socket
a whole frame of program 1 version 1 with the given type and serial 9 has arrived:
12 bytes, two of them payload. -/
def sampleArrival (queue : List virNetClientCall) (type : Nat) : virNetClient sampleCollab :=
  { sampleClient queue
      (sampleMessage 0 virNetMessageType.VIR_NET_CALL virNetMessageStatus.VIR_NET_OK) with
    sock := some { sampleSocket with
                   rx := [virNetSocketResult.ok [0, 0, 0, 12, 1, 1, 7, type, 9, 0, 170, 187]] } }

/-- The header of that frame as `virNetMessageDecodeHeader` of the sample codec
stores it. -/
def sampleArrivalHeader (type : Nat) : virNetMessage :=
  { buffer := [0, 0, 0, 12, 1, 1, 7, type, 9, 0, 170, 187]
    bufferLength := 12
    bufferOffset := 10
    header := { prog := 1, vers := 1, proc := 7, type := sampleType type, serial := 9
                status := virNetMessageStatus.VIR_NET_OK }
    fds := [], nfds := 0, donefds := 0 }

/-- The connection of `sampleArrival` on which an event frame (type MESSAGE) of
program 1 has arrived while only program 5 is registered. -/
def sampleEventArrival (queue : List virNetClientCall) : virNetClient sampleCollab :=
  { sampleArrival queue 2 with programs := [(5, 1)] }

/-- Surroundings of a send in which the wake-up write succeeds, the wait fails and
the outside world gives one answer. -/
def sampleIOEnv : virNetClientIOEnv sampleCollab :=
  { wakeupWrite := true, condWait := none, polls := [samplePoll] }

/-- A connection marked for close whose socket is still there, with one call
queued. -/
def sampleClosingClient : virNetClient sampleCollab :=
  { sampleClient [sampleCall 10 1]
      (sampleMessage 0 virNetMessageType.VIR_NET_CALL virNetMessageStatus.VIR_NET_OK) with
    wantClose := true }

/-- The non-blocking call of `sampleNonBlockCall` in the hands of
`virNetClientIOWriteMessage`, with a socket that takes up to 12 bytes. -/
def sampleWriteState : virNetClientWriteState :=
  { sock := some { sampleSocket with tx := [virNetSocketResult.ok 12] }
    trace := []
    thecall := sampleNonBlockCall 10 1 }

/-- An open connection with two non-blocking calls to send, whose socket takes
five bytes and then would block. -/
def sampleSendingClient : virNetClient sampleCollab :=
  { sampleClient [sampleNonBlockCall 10 1, sampleNonBlockCall 11 2]
      (sampleMessage 0 virNetMessageType.VIR_NET_CALL virNetMessageStatus.VIR_NET_OK) with
    sock := some { sampleSocket with tx := [virNetSocketResult.ok 5] } }

/-- An open connection with program 1 registered, nothing received yet, on whose
socket two whole event frames of program 1 have arrived in one piece; the socket
has no cached data. -/
def sampleTwoFrames : virNetClient sampleCollab :=
  { sampleClient [sampleCall 10 1]
      (sampleMessage 0 virNetMessageType.VIR_NET_CALL virNetMessageStatus.VIR_NET_OK) with
    sock := some { sampleSocket with
                   rx := [virNetSocketResult.ok
                     [0, 0, 0, 12, 1, 1, 7, 2, 8, 0, 170, 187,
                      0, 0, 0, 12, 1, 1, 7, 2, 9, 0, 204, 221]] } }

/-- The first of the two frames as `virNetMessageDecodeHeader` of the sample codec
stores it. -/
def sampleFirstFrame : virNetMessage :=
  { buffer := [0, 0, 0, 12, 1, 1, 7, 2, 8, 0, 170, 187]
    bufferLength := 12
    bufferOffset := 10
    header := { prog := 1, vers := 1, proc := 7, type := virNetMessageType.VIR_NET_MESSAGE
                serial := 8, status := virNetMessageStatus.VIR_NET_OK }
    fds := [], nfds := 0, donefds := 0 }

/-- An open connection with the call of serial 2 waiting, after the length word of
a reply with descriptors for serial 2 has been read and decoded: the rest of the
frame, which announces two descriptors, is on the socket, and the given results of
descriptor receipts are pending. -/
def sampleFDArrivalBody (rxfds : List (virNetSocketResult Int)) : virNetClient sampleCollab :=
  { sampleClient [sampleCall 11 2]
      { buffer := [0, 0, 0, 12, 0, 0, 0, 0, 0, 0, 0, 0]
        bufferLength := 12
        bufferOffset := 4
        header := sampleHeader 0 virNetMessageType.VIR_NET_CALL virNetMessageStatus.VIR_NET_OK
        fds := [], nfds := 0, donefds := 0 } with
    sock := some { sampleSocket with
                   rx := [virNetSocketResult.ok [1, 1, 7, 4, 2, 0, 2, 187]]
                   rxfds := rxfds } }

/-- The header of that frame as the sample codec stores it. -/
def sampleFDHeader : virNetMessage :=
  { buffer := [0, 0, 0, 12, 1, 1, 7, 4, 2, 0, 2, 187]
    bufferLength := 12
    bufferOffset := 10
    header := { prog := 1, vers := 1, proc := 7
                type := virNetMessageType.VIR_NET_REPLY_WITH_FDS
                serial := 2, status := virNetMessageStatus.VIR_NET_OK }
    fds := [], nfds := 0, donefds := 0 }

/-- That message after `virNetMessageDecodeNumFDs` of the sample codec: two
descriptors announced, none received. -/
def sampleFDCount : virNetMessage :=
  { sampleFDHeader with nfds := 2, fds := [-1, -1], bufferOffset := 11 }

/-- A connection marked for close, its socket still there, on which two blocking
calls wait with their threads. -/
def sampleBroadcastClient : virNetClient sampleCollab :=
  { sampleClient [sampleCall 10 1, sampleCall 11 2]
      (sampleMessage 0 virNetMessageType.VIR_NET_CALL virNetMessageStatus.VIR_NET_OK) with
    wantClose := true }

/-- The call of `sampleNonBlockCall` with the two descriptors 7 and 8 to pass, in
the hands of `virNetClientIOWriteMessage`; the socket takes the 12 bytes and the
first descriptor, would block on the second, and takes it on a later attempt. -/
def sampleFDWriteState : virNetClientWriteState :=
  { sock := some { sampleSocket with
                   tx := [virNetSocketResult.ok 12]
                   txfds := [virNetSocketResult.ok (), virNetSocketResult.wouldBlock,
                             virNetSocketResult.ok ()] }
    trace := []
    thecall := { sampleNonBlockCall 10 1 with
                 msg := { (sampleNonBlockCall 10 1).msg with fds := [7, 8], nfds := 2 } } }

/-- The same call once its 12 bytes are written, before any descriptor is passed. -/
def sampleFDWriteWritten : virNetClientWriteState :=
  { sampleFDWriteState with
    thecall := { sampleFDWriteState.thecall with
                 msg := { sampleFDWriteState.thecall.msg with bufferOffset := 12 } } }

/-- The connection of `sampleFDArrivalBody` after its reply with two descriptors
has been dispatched, with the next frame, an event of program 1, arrived on the
socket. -/
def sampleAfterFDReply : virNetClient sampleCollab :=
  { sampleClient [sampleCall 11 2]
      { buffer := [], bufferLength := 0, bufferOffset := 0
        header := sampleFDHeader.header
        fds := [7, 8], nfds := 2, donefds := 2 } with
    sock := some { sampleSocket with
                   rx := [virNetSocketResult.ok [0, 0, 0, 12, 1, 1, 7, 2, 8, 0, 170, 187]] } }

/-- An answer of the outside world in which `poll` times out and the keepalive
trigger hands back a request to send. -/
def sampleKeepAlivePoll : virNetClientPoll :=
  { samplePoll with keepAliveMsg := some (sampleNonBlockCall 0 9).msg }

/-- A lookup of format names that knows "qcow2" (9) and "raw" (1). -/
def sampleFormatFromString (name : List Nat) : Int :=
  if name = [113, 99, 111, 119, 50] then 9
  else if name = [114, 97, 119] then 1
  else -1

/-- A QCOW2 image of 32 bytes: magic and version 2, no backing file, size 1 MiB;
the file ends after the size field. -/
def sampleQcow2Short : List Nat :=
  [81, 70, 73, 251, 0, 0, 0, 2] ++ List.replicate 8 0 ++ [0, 0, 0, 0] ++ [0, 0, 0, 16] ++
    [0, 0, 0, 0, 0, 16, 0, 0]

/-- A QCOW2 image of 100 bytes with the backing file "base" at offset 96 and,
after the header of 72 bytes, a backing-format extension whose length field, 20,
makes it end exactly at the end of the buffer. -/
def sampleQcow2Extension : List Nat :=
  [81, 70, 73, 251, 0, 0, 0, 2] ++ [0, 0, 0, 0, 0, 0, 0, 96] ++ [0, 0, 0, 4] ++ [0, 0, 0, 16] ++
    [0, 0, 0, 0, 0, 16, 0, 0] ++ List.replicate 40 0 ++
    [226, 121, 42, 202, 0, 0, 0, 20] ++ [114, 97, 119, 0] ++ List.replicate 12 0 ++
    [98, 97, 115, 101]

/-- What a non-blocking send of the message of `sampleNonBlockCall` returns on an
open connection with an empty queue whose buck another thread holds: 1, with the
new call queued without a thread. -/
def sampleNonBlockSent : virNetClientSendResult sampleCollab :=
  { ret := 1
    client :=
      { sampleClient [{ sampleNonBlockCall 100 2 with haveThread := false }]
          (sampleMessage 0 virNetMessageType.VIR_NET_CALL virNetMessageStatus.VIR_NET_OK) with
        nextAddr := 101 }
    msg := (sampleNonBlockCall 100 2).msg }

/-- The connection of `sampleArrival` at the point where the whole frame is in the
receive buffer and its header is about to be decoded. -/
def sampleArrivalFrame (queue : List virNetClientCall) (type : Nat) :
    virNetClient sampleCollab :=
  sampleClient queue
    { buffer := [0, 0, 0, 12, 1, 1, 7, type, 9, 0, 170, 187]
      bufferLength := 12
      bufferOffset := 12
      header := sampleHeader 0 virNetMessageType.VIR_NET_CALL virNetMessageStatus.VIR_NET_OK
      fds := [], nfds := 0, donefds := 0 }

/-- The connection of `sampleArrival` when the same frame arrives in three pieces
that split the length word and the body, so that the input pass needs four
reads. -/
def sampleArrivalPieces (queue : List virNetClientCall) (type : Nat) :
    virNetClient sampleCollab :=
  { sampleClient queue
      (sampleMessage 0 virNetMessageType.VIR_NET_CALL virNetMessageStatus.VIR_NET_OK) with
    sock := some { sampleSocket with
                   rx := [virNetSocketResult.ok [0, 0, 0], virNetSocketResult.ok [12, 1, 1, 7],
                          virNetSocketResult.ok [type, 9, 0, 170, 187]] } }

/-- The connection of `sampleEventArrival` at the point where the whole frame is in
the receive buffer and its header is about to be decoded. -/
def sampleEventArrivalFrame (queue : List virNetClientCall) : virNetClient sampleCollab :=
  { sampleArrivalFrame queue 2 with programs := [(5, 1)] }

/-- The connection of `sampleEventArrival` when the frame arrives in three
pieces. -/
def sampleEventArrivalPieces (queue : List virNetClientCall) : virNetClient sampleCollab :=
  { sampleArrivalPieces queue 2 with programs := [(5, 1)] }

/-- The connection of `sampleTwoFrames` at the point where the first frame is whole
in the receive buffer and its header is about to be decoded; the second frame is on
the socket. -/
def sampleTwoFramesFrame : virNetClient sampleCollab :=
  { sampleClient [sampleCall 10 1]
      { buffer := [0, 0, 0, 12, 1, 1, 7, 2, 8, 0, 170, 187]
        bufferLength := 12
        bufferOffset := 12
        header := sampleHeader 0 virNetMessageType.VIR_NET_CALL virNetMessageStatus.VIR_NET_OK
        fds := [], nfds := 0, donefds := 0 } with
    sock := some { sampleSocket with
                   rx := [virNetSocketResult.ok [0, 0, 0, 12, 1, 1, 7, 2, 9, 0, 204, 221]] } }

/-- An open connection with the call of serial 2 waiting and nothing received yet,
on whose socket a whole reply with descriptors for serial 2 has arrived, which
announces two descriptors; the given results of descriptor receipts are pending. -/
def sampleFDArrival (rxfds : List (virNetSocketResult Int)) : virNetClient sampleCollab :=
  { sampleClient [sampleCall 11 2]
      (sampleMessage 0 virNetMessageType.VIR_NET_CALL virNetMessageStatus.VIR_NET_OK) with
    sock := some { sampleSocket with
                   rx := [virNetSocketResult.ok [0, 0, 0, 12, 1, 1, 7, 4, 2, 0, 2, 187]]
                   rxfds := rxfds } }

/-- The connection of `sampleFDArrival` at the point where the whole frame is in
the receive buffer and its header is about to be decoded. -/
def sampleFDArrivalFrame (rxfds : List (virNetSocketResult Int)) : virNetClient sampleCollab :=
  { sampleClient [sampleCall 11 2]
      { buffer := [0, 0, 0, 12, 1, 1, 7, 4, 2, 0, 2, 187]
        bufferLength := 12
        bufferOffset := 12
        header := sampleHeader 0 virNetMessageType.VIR_NET_CALL virNetMessageStatus.VIR_NET_OK
        fds := [], nfds := 0, donefds := 0 } with
    sock := some { sampleSocket with rxfds := rxfds } }

/-- An answer of the outside world in which `poll` reports the socket writable. -/
def sampleWritable : virNetClientPoll :=
  { samplePoll with
    revents0 := { POLLIN := false, POLLOUT := true, POLLERR := false, POLLHUP := false } }

/-- A connection as a caller finds it when no thread is inside the client: open,
nothing queued, nothing received, nobody holds the buck; the socket takes up to 12
bytes in its next write. -/
def sampleIdleClient : virNetClient sampleCollab :=
  { sampleClient []
      (sampleMessage 0 virNetMessageType.VIR_NET_CALL virNetMessageStatus.VIR_NET_OK) with
    haveTheBuck := false
    sock := some { sampleSocket with tx := [virNetSocketResult.ok 12] } }

/-- The connection of `sampleIdleClient` after a non-blocking send of the message
of `sampleNonBlockCall` during which `poll` reported nothing: the call is queued,
all of it still to be sent, without a thread, and nobody holds the buck. -/
def sampleQueuedClient : virNetClient sampleCollab :=
  { sampleIdleClient with
    waitDispatch := [{ sampleNonBlockCall 100 1 with haveThread := false }]
    nextAddr := 101 }

/-- The call that `virNetClientSendNoReply` creates on `sampleQueuedClient` for a
message without payload: it waits for input (not in the sending mode), expects no
reply and has a thread. -/
def sampleEmptyCall : virNetClientCall :=
  { addr := 101
    mode := virNetClientMode.VIR_NET_CLIENT_MODE_WAIT_RX
    msg := sampleMessage 2 virNetMessageType.VIR_NET_CALL virNetMessageStatus.VIR_NET_OK
    expectReply := false, nonBlock := false, haveThread := true }

/-- A blocking call that has been sent together with the descriptors 7 and 8 and
awaits its reply. -/
def sampleSentFDCall (addr serial : Nat) : virNetClientCall :=
  { sampleCall addr serial with
    msg := { (sampleCall addr serial).msg with fds := [7, 8], nfds := 2 } }

/-- An open connection on which a sent call that passed two descriptors stands
before a call to send, and a call made for a message without payload, which waits
for input, stands behind it; the socket takes all it is given. -/
def sampleOutputIdleClient : virNetClient sampleCollab :=
  { sampleClient [sampleSentFDCall 9 0, sampleNonBlockCall 10 1, sampleCall 11 2]
      (sampleMessage 0 virNetMessageType.VIR_NET_CALL virNetMessageStatus.VIR_NET_OK) with
    sock := some { sampleSocket with
                   tx := [virNetSocketResult.ok 12, virNetSocketResult.ok 12] } }

/-- An open connection whose socket has cached data, with the given queue and
nothing received yet, on whose socket an event frame of program `prog` (serial 8)
and then the frame of `sampleArrival` have arrived. -/
def sampleArrivalSecond (queue : List virNetClientCall) (prog type : Nat) :
    virNetClient sampleCollab :=
  { sampleClient queue
      (sampleMessage 0 virNetMessageType.VIR_NET_CALL virNetMessageStatus.VIR_NET_OK) with
    sock := some { sampleSocket with
                   cachedData := true
                   rx := [virNetSocketResult.ok [0, 0, 0, 12, prog, 1, 7, 2, 8, 0, 170, 187],
                          virNetSocketResult.ok [0, 0, 0, 12, 1, 1, 7, type, 9, 0, 170, 187]] } }

/-- The event frame that arrives first on `sampleArrivalSecond`, as the sample codec
stores it. -/
def sampleSecondEvent (prog : Nat) : virNetMessage :=
  { buffer := [0, 0, 0, 12, prog, 1, 7, 2, 8, 0, 170, 187]
    bufferLength := 12
    bufferOffset := 10
    header := { prog := prog, vers := 1, proc := 7, type := virNetMessageType.VIR_NET_MESSAGE
                serial := 8, status := virNetMessageStatus.VIR_NET_OK }
    fds := [], nfds := 0, donefds := 0 }

/-- The connection of `sampleArrivalSecond` at the top of the input loop after the
event frame has been dispatched to the first registered program: the receive buffer
is reset and the second frame is on the socket. -/
def sampleArrivalSecondLast (queue : List virNetClientCall) (prog type : Nat) :
    virNetClient sampleCollab :=
  { sampleClient queue
      { buffer := [], bufferLength := 0, bufferOffset := 0
        header := (sampleSecondEvent prog).header
        fds := [], nfds := 0, donefds := 0 } with
    sock := some { sampleSocket with
                   cachedData := true
                   rx := [virNetSocketResult.ok [0, 0, 0, 12, 1, 1, 7, type, 9, 0, 170, 187]] }
    trace := [virNetClientEvent.programDispatch 0 (sampleSecondEvent prog)] }

/-- The connection of `sampleArrivalSecond` at the point where the second frame is
whole in the receive buffer and its header is about to be decoded. -/
def sampleArrivalSecondFrame (queue : List virNetClientCall) (prog type : Nat) :
    virNetClient sampleCollab :=
  { sampleClient queue
      { buffer := [0, 0, 0, 12, 1, 1, 7, type, 9, 0, 170, 187]
        bufferLength := 12
        bufferOffset := 12
        header := (sampleSecondEvent prog).header
        fds := [], nfds := 0, donefds := 0 } with
    sock := some { sampleSocket with cachedData := true }
    trace := [virNetClientEvent.programDispatch 0 (sampleSecondEvent prog)] }

/-- The connection of `sampleArrivalSecond` with only program 5 registered, on which
an event frame of program 5 and then an event frame of program 1 have arrived. -/
def sampleEventArrivalSecond (queue : List virNetClientCall) : virNetClient sampleCollab :=
  { sampleArrivalSecond queue 5 2 with programs := [(5, 1)] }

/-- The connection of `sampleEventArrivalSecond` at the top of the input loop after
the event of program 5 has been dispatched. -/
def sampleEventArrivalSecondLast (queue : List virNetClientCall) :
    virNetClient sampleCollab :=
  { sampleArrivalSecondLast queue 5 2 with programs := [(5, 1)] }

/-- The connection of `sampleEventArrivalSecond` at the point where the second
frame is whole in the receive buffer. -/
def sampleEventArrivalSecondFrame (queue : List virNetClientCall) :
    virNetClient sampleCollab :=
  { sampleArrivalSecondFrame queue 5 2 with programs := [(5, 1)] }

/-! ## Theorems -/

/-- The search condition is equality of the (program, version, serial) triples. -/
theorem virNetClientCallMatches_iff (msg : virNetMessage) (call : virNetClientCall) :
    virNetClientCallMatches msg call = true ↔
      virNetMessageTriple call.msg = virNetMessageTriple msg := by
  simp [virNetClientCallMatches, virNetMessageTriple, Prod.ext_iff, and_assoc]

/-- When at most one object of a list satisfies `p`, changing the first one that
does changes every one that does. -/
theorem modifyFirst_eq_map {α : Type} (p : α → Bool) (f : α → α) (l : List α)
    (h : l.Pairwise (fun a b => ¬ (p a = true ∧ p b = true))) :
    modifyFirst p f l = l.map (fun a => if p a then f a else a) := by
  induction l with
  | nil => rfl
  | cons a l ih =>
    rw [List.pairwise_cons] at h
    by_cases hp : p a = true
    · have hrest : l.map (fun b => if p b then f b else b) = l := by
        conv_rhs => rw [← List.map_id l]
        apply List.map_congr_left
        intro b hb
        have : p b ≠ true := fun hb2 => h.1 b hb ⟨hp, hb2⟩
        simp [this]
      simp [modifyFirst, hp, hrest]
    · simp [modifyFirst, hp, ih h.2]

/-- In a queue of pairwise distinct triples at most one call matches a message. -/
theorem distinctTriples_matches (msg : virNetMessage) (queue : List virNetClientCall)
    (h : distinctTriples queue) :
    queue.Pairwise (fun a b =>
      ¬ (virNetClientCallMatches msg a = true ∧ virNetClientCallMatches msg b = true)) := by
  unfold distinctTriples at h
  refine h.imp ?_
  intro a b hab hm
  rw [virNetClientCallMatches_iff, virNetClientCallMatches_iff] at hm
  exact hab (hm.1.trans hm.2.symm)

/-- The queue after `virNetClientCallDispatchReply`, in a queue of pairwise
distinct triples: the copy is applied to every matching call. -/
theorem virNetClientCallDispatchReply_queue {X : virNetCollab} (client : virNetClient X)
    (h : distinctTriples client.waitDispatch) :
    (virNetClientCallDispatchReply client).2.waitDispatch =
      client.waitDispatch.map (fun c =>
        if virNetClientCallMatches client.msg c then
          virNetClientCallDispatchReplyCopy client.msg c
        else c) := by
  unfold virNetClientCallDispatchReply
  cases hf : client.waitDispatch.find? (virNetClientCallMatches client.msg) with
  | none =>
    simp only
    rw [List.find?_eq_none] at hf
    conv_lhs => rw [← List.map_id client.waitDispatch]
    apply List.map_congr_left
    intro c hc
    simp [hf c hc]
  | some c =>
    simp only
    exact modifyFirst_eq_map _ _ _ (distinctTriples_matches client.msg _ h)

/-- Claim C1 (reply correlation). In a queue whose calls have pairwise distinct
(program, version, serial) triples, `virNetClientCallDispatchReply` keeps the
length and order of the queue, sets the mode COMPLETE on the call at every
position whose triple equals the triple of the incoming message, and leaves the
call at every other position unchanged (mode and message included). -/
theorem C1_reply_correlation {X : virNetCollab} (client : virNetClient X)
    (h : distinctTriples client.waitDispatch) :
    (virNetClientCallDispatchReply client).2.waitDispatch.length = client.waitDispatch.length ∧
    (∀ (i : Nat) (call : virNetClientCall), client.waitDispatch[i]? = some call →
      virNetMessageTriple call.msg = virNetMessageTriple client.msg →
      ∃ done, (virNetClientCallDispatchReply client).2.waitDispatch[i]? = some done ∧
        done.mode = virNetClientMode.VIR_NET_CLIENT_MODE_COMPLETE ∧ done.addr = call.addr) ∧
    (∀ (i : Nat) (call : virNetClientCall), client.waitDispatch[i]? = some call →
      virNetMessageTriple call.msg ≠ virNetMessageTriple client.msg →
      (virNetClientCallDispatchReply client).2.waitDispatch[i]? = some call) := by
  rw [virNetClientCallDispatchReply_queue client h]
  refine ⟨by simp, ?_, ?_⟩
  · intro i call hi ht
    have hm := (virNetClientCallMatches_iff client.msg call).2 ht
    refine ⟨virNetClientCallDispatchReplyCopy client.msg call, ?_, rfl, rfl⟩
    simp [List.getElem?_map, hi, hm]
  · intro i call hi ht
    have hm : virNetClientCallMatches client.msg call ≠ true :=
      fun hm => ht ((virNetClientCallMatches_iff client.msg call).1 hm)
    simp [List.getElem?_map, hi, hm]

/-- Witness of C1: a queue of two calls with serials 1 and 2 and a reply for
serial 2; the call at position 1 is completed. -/
theorem C1_reply_correlation_witness :
    distinctTriples [sampleCall 10 1, sampleCall 11 2] ∧
    ∃ done, (virNetClientCallDispatchReply
        (sampleClient [sampleCall 10 1, sampleCall 11 2]
          (sampleReply virNetMessageType.VIR_NET_REPLY []))).2.waitDispatch[1]? = some done ∧
      done.mode = virNetClientMode.VIR_NET_CLIENT_MODE_COMPLETE ∧
      done.addr = (sampleCall 11 2).addr :=
  ⟨by decide,
   (C1_reply_correlation
      (sampleClient [sampleCall 10 1, sampleCall 11 2]
        (sampleReply virNetMessageType.VIR_NET_REPLY []))
      (by decide)).2.1 1 (sampleCall 11 2) rfl rfl⟩

/-- Claim C2, evaluated at a reply with one received descriptor for the queued
call with serial 2: `virNetClientCallDispatchReply` returns 0 and the matched call
carries the header, buffer, length and offset of the incoming message, but not its
descriptors: the incoming message has `nfds = 1` and `fds = [7]`, the call's
message still has `nfds = 0` and no descriptor. -/
theorem C2_reply_descriptors_not_copied :
    (virNetClientCallDispatchReply
      (sampleClient [sampleCall 10 1, sampleCall 11 2]
        (sampleReply virNetMessageType.VIR_NET_REPLY_WITH_FDS [7]))).1 = 0 ∧
    ((virNetClientCallDispatchReply
      (sampleClient [sampleCall 10 1, sampleCall 11 2]
        (sampleReply virNetMessageType.VIR_NET_REPLY_WITH_FDS [7]))).2.waitDispatch[1]?).map
      (fun c => (c.mode, c.msg.header, c.msg.buffer, c.msg.bufferLength, c.msg.bufferOffset,
        c.msg.nfds, c.msg.fds)) =
      some (virNetClientMode.VIR_NET_CLIENT_MODE_COMPLETE,
        (sampleReply virNetMessageType.VIR_NET_REPLY_WITH_FDS [7]).header,
        (sampleReply virNetMessageType.VIR_NET_REPLY_WITH_FDS [7]).buffer,
        12, 10, 0, []) ∧
    (sampleReply virNetMessageType.VIR_NET_REPLY_WITH_FDS [7]).nfds = 1 ∧
    (sampleReply virNetMessageType.VIR_NET_REPLY_WITH_FDS [7]).fds = [7] := by
  refine ⟨rfl, rfl, rfl, rfl⟩

/-- Claim C10 (call creation rejects the illegal combination). For every address
and message, `virNetClientCallNew` with `expectReply` and `nonBlock` both true
returns no call; and every call it returns carries the two flags it was given, not
both of them true. -/
theorem C10_callNew_rejects_nonblocking_reply :
    (∀ (addr : Nat) (msg : virNetMessage), virNetClientCallNew addr msg true true = none) ∧
    (∀ (addr : Nat) (msg : virNetMessage) (expectReply nonBlock : Bool)
        (call : virNetClientCall),
      virNetClientCallNew addr msg expectReply nonBlock = some call →
      call.expectReply = expectReply ∧ call.nonBlock = nonBlock ∧
        ¬ (call.expectReply = true ∧ call.nonBlock = true)) := by
  constructor
  · intro addr msg
    unfold virNetClientCallNew
    split <;> simp
  · intro addr msg expectReply nonBlock call h
    unfold virNetClientCallNew at h
    split at h
    · exact absurd h (by simp)
    · split at h
      · exact absurd h (by simp)
      · rename_i h1 h2
        injection h with h
        subst h
        refine ⟨rfl, rfl, ?_⟩
        simpa using h2

/-- Witness of C10: a non-blocking call without reply is created, and does not
have both flags. -/
theorem C10_callNew_rejects_nonblocking_reply_witness :
    virNetClientCallNew 5
        (sampleMessage 1 virNetMessageType.VIR_NET_CALL virNetMessageStatus.VIR_NET_OK)
        false true =
      some { addr := 5
             mode := virNetClientMode.VIR_NET_CLIENT_MODE_WAIT_RX
             msg := sampleMessage 1 virNetMessageType.VIR_NET_CALL
               virNetMessageStatus.VIR_NET_OK
             expectReply := false, nonBlock := true, haveThread := false } ∧
    ¬ ((false : Bool) = true ∧ (true : Bool) = true) :=
  ⟨rfl,
   (C10_callNew_rejects_nonblocking_reply.2 5
      (sampleMessage 1 virNetMessageType.VIR_NET_CALL virNetMessageStatus.VIR_NET_OK)
      false true _ rfl).2.2⟩

/-- Changing the first object that satisfies `p` changes nothing when none
does. -/
theorem modifyFirst_of_forall_not {α : Type} (p : α → Bool) (f : α → α) (l : List α)
    (h : ∀ a ∈ l, p a = false) : modifyFirst p f l = l := by
  induction l with
  | nil => rfl
  | cons a l ih =>
    have ha : p a = false := h a (List.mem_cons_self a l)
    have hl : ∀ b ∈ l, p b = false := fun b hb => h b (List.mem_cons_of_mem a hb)
    simp [modifyFirst, ha, ih hl]

/-- Changing the first object that satisfies `p`, when its position is known. -/
theorem modifyFirst_append {α : Type} (p : α → Bool) (f : α → α) (pre post : List α) (x : α)
    (hpre : ∀ a ∈ pre, p a = false) (hx : p x = true) :
    modifyFirst p f (pre ++ x :: post) = pre ++ f x :: post := by
  induction pre with
  | nil => simp [modifyFirst, hx]
  | cons a pre ih =>
    have ha : p a = false := hpre a (List.mem_cons_self a pre)
    have hl : ∀ b ∈ pre, p b = false := fun b hb => hpre b (List.mem_cons_of_mem a hb)
    simp [modifyFirst, ha, ih hl]

/-- The search loop stops at the first object that satisfies `p`. -/
theorem find?_append_first {α : Type} (p : α → Bool) (pre post : List α) (x : α)
    (hpre : ∀ a ∈ pre, p a = false) (hx : p x = true) :
    (pre ++ x :: post).find? p = some x := by
  induction pre with
  | nil => simp [hx]
  | cons a pre ih =>
    have ha : p a = false := hpre a (List.mem_cons_self a pre)
    have hl : ∀ b ∈ pre, p b = false := fun b hb => hpre b (List.mem_cons_of_mem a hb)
    simp [List.find?, ha, ih hl]

/-- The search loop finds nothing when no object satisfies `p`. -/
theorem find?_of_forall_not {α : Type} (p : α → Bool) (l : List α)
    (h : ∀ a ∈ l, p a = false) : l.find? p = none := by
  rw [List.find?_eq_none]
  intro a ha
  simp [h a ha]

/-- What `virNetClientCallDispatchReply` does to the call it finds: the function
returns 0, the first call with the triple of the incoming message gets its buffer,
header, length and offset and the mode COMPLETE, and keeps the descriptor fields
its own message had; the rest of the queue is unchanged. -/
theorem virNetClientCallDispatchReply_found {X : virNetCollab} (client : virNetClient X)
    (pre post : List virNetClientCall) (thecall : virNetClientCall)
    (hqueue : client.waitDispatch = pre ++ thecall :: post)
    (hpre : ∀ c ∈ pre, virNetClientCallMatches client.msg c = false)
    (hcall : virNetClientCallMatches client.msg thecall = true) :
    virNetClientCallDispatchReply client =
      (0, { client with
            waitDispatch := pre ++
              { thecall with
                mode := virNetClientMode.VIR_NET_CLIENT_MODE_COMPLETE
                msg := { buffer := client.msg.buffer.take client.msg.bufferLength
                         bufferLength := client.msg.bufferLength
                         bufferOffset := client.msg.bufferOffset
                         header := client.msg.header
                         fds := thecall.msg.fds
                         nfds := thecall.msg.nfds
                         donefds := thecall.msg.donefds } } :: post }) := by
  unfold virNetClientCallDispatchReply
  rw [hqueue, find?_append_first _ pre post thecall hpre hcall,
    modifyFirst_append _ _ pre post thecall hpre hcall]
  rfl

/-- Claim C9 (a stream frame for no registered stream). When no registered stream
matches the incoming message, `virNetClientCallDispatchStream` returns 0 and the
connection is exactly as before: every queued call (also one with the serial of
the frame), every stream, the close flag and reason, and the trace. -/
theorem C9_stream_frame_without_stream {X : virNetCollab} (client : virNetClient X)
    (h : ∀ st ∈ client.streams, X.virNetClientStreamMatches st client.msg = false) :
    virNetClientCallDispatchStream client = (0, client) := by
  unfold virNetClientCallDispatchStream
  rw [find?_of_forall_not _ _ h]

/-- Witness of C9: a stream frame for serial 2 on a connection without streams,
with a call of serial 2 queued. -/
theorem C9_stream_frame_without_stream_witness :
    (∀ st ∈ (sampleClient [sampleCall 11 2]
        (sampleStreamFrame virNetMessageStatus.VIR_NET_OK)).streams,
      sampleCollab.virNetClientStreamMatches st
        (sampleStreamFrame virNetMessageStatus.VIR_NET_OK) = false) ∧
    virNetClientCallDispatchStream
        (sampleClient [sampleCall 11 2] (sampleStreamFrame virNetMessageStatus.VIR_NET_OK)) =
      (0, sampleClient [sampleCall 11 2] (sampleStreamFrame virNetMessageStatus.VIR_NET_OK)) :=
  ⟨fun _ h => absurd h (List.not_mem_nil _),
   C9_stream_frame_without_stream _ (fun _ h => absurd h (List.not_mem_nil _))⟩

/-- Claim C8 (stream data with no call waiting). For a frame with status CONTINUE
whose first matching stream in registration order is `st`, while no queued call
has the frame's (program, version, serial): `virNetClientCallDispatchStream` hands
the frame to `virNetClientStreamQueuePacket` on `st`; when the stream accepts the
packet it returns 0 and only that stream has changed, and when the stream refuses
it returns -1 and nothing has changed. The queue is the same in both cases. -/
theorem C8_stream_continue_without_call {X : virNetCollab} (client : virNetClient X)
    (pre post : List X.Stream) (st : X.Stream)
    (hstatus : client.msg.header.status = virNetMessageStatus.VIR_NET_CONTINUE)
    (hstreams : client.streams = pre ++ st :: post)
    (hpre : ∀ s ∈ pre, X.virNetClientStreamMatches s client.msg = false)
    (hst : X.virNetClientStreamMatches st client.msg = true)
    (hcalls : ∀ c ∈ client.waitDispatch,
      virNetMessageTriple c.msg ≠ virNetMessageTriple client.msg) :
    (∀ st1, X.virNetClientStreamQueuePacket st client.msg = some st1 →
      virNetClientCallDispatchStream client =
        (0, { client with streams := pre ++ st1 :: post })) ∧
    (X.virNetClientStreamQueuePacket st client.msg = none →
      virNetClientCallDispatchStream client = (-1, client)) ∧
    (virNetClientCallDispatchStream client).2.waitDispatch = client.waitDispatch := by
  have hfind : client.streams.find? (fun s => X.virNetClientStreamMatches s client.msg) =
      some st := by
    rw [hstreams]
    exact find?_append_first _ pre post st hpre hst
  have hnone : ∀ c ∈ client.waitDispatch, virNetClientCallMatches client.msg c = false := by
    intro c hc
    cases hm : virNetClientCallMatches client.msg c with
    | false => rfl
    | true => exact absurd ((virNetClientCallMatches_iff _ _).1 hm) (hcalls c hc)
  have hyes : ∀ st1, X.virNetClientStreamQueuePacket st client.msg = some st1 →
      virNetClientCallDispatchStream client =
        (0, { client with streams := pre ++ st1 :: post }) := by
    intro st1 hq
    unfold virNetClientCallDispatchStream
    rw [hfind]
    simp only [hstatus, hq]
    rw [modifyFirst_of_forall_not _ _ _ hnone, hstreams,
      modifyFirst_append _ _ pre post st hpre hst]
  have hno : X.virNetClientStreamQueuePacket st client.msg = none →
      virNetClientCallDispatchStream client = (-1, client) := by
    intro hq
    unfold virNetClientCallDispatchStream
    rw [hfind]
    simp only [hstatus, hq]
  refine ⟨hyes, hno, ?_⟩
  cases hq : X.virNetClientStreamQueuePacket st client.msg with
  | none => rw [hno hq]
  | some st1 => rw [hyes st1 hq]

/-- Witness of C8: a CONTINUE frame for the registered stream of serial 2 while
only a call of serial 1 is queued; the payload is queued on the stream. -/
theorem C8_stream_continue_without_call_witness :
    virNetClientCallDispatchStream
        (sampleStreamClient [sampleCall 10 1]
          (sampleStreamFrame virNetMessageStatus.VIR_NET_CONTINUE)) =
      (0, { sampleStreamClient [sampleCall 10 1]
              (sampleStreamFrame virNetMessageStatus.VIR_NET_CONTINUE) with
            streams := [] ++ ((1, 1, 2), [[170, 187]]) :: [] }) :=
  (C8_stream_continue_without_call
    (sampleStreamClient [sampleCall 10 1]
      (sampleStreamFrame virNetMessageStatus.VIR_NET_CONTINUE))
    [] [] ((1, 1, 2), []) rfl rfl (fun _ h => absurd h (List.not_mem_nil _)) rfl
    (by decide)).1 ((1, 1, 2), [[170, 187]]) rfl

/-- Claim C7 as stated fails: a CONTINUE frame for the registered stream of serial
2 arrives while the call of serial 2, which expects a reply and whose own message
has status OK, is queued. The dispatch returns 0, the payload is queued on the
stream, and the call stays in the mode it had, waiting for its reply. -/
theorem C7_continue_leaves_finish_call_waiting :
    (sampleCall 11 2).expectReply = true ∧
    virNetMessageTriple (sampleCall 11 2).msg =
      virNetMessageTriple (sampleStreamFrame virNetMessageStatus.VIR_NET_CONTINUE) ∧
    (virNetClientCallDispatchStream
      (sampleStreamClient [sampleCall 11 2]
        (sampleStreamFrame virNetMessageStatus.VIR_NET_CONTINUE))).1 = 0 ∧
    (virNetClientCallDispatchStream
      (sampleStreamClient [sampleCall 11 2]
        (sampleStreamFrame virNetMessageStatus.VIR_NET_CONTINUE))).2.streams =
      [((1, 1, 2), [[170, 187]])] ∧
    ((virNetClientCallDispatchStream
      (sampleStreamClient [sampleCall 11 2]
        (sampleStreamFrame virNetMessageStatus.VIR_NET_CONTINUE))).2.waitDispatch.map
      (fun c => c.mode)) = [virNetClientMode.VIR_NET_CLIENT_MODE_WAIT_RX] := by
  refine ⟨rfl, rfl, rfl, rfl, rfl⟩

/-- Claim C7, amended. Let a stream frame match a registered stream, `st` being
the first such stream, and let `thecall` be the first queued call with the frame's
(program, version, serial), expecting a reply. After
`virNetClientCallDispatchStream` that call is COMPLETE, the rest of the queue
unchanged, and the function returns 0: when the status of the frame is OK; when it
is ERROR and the stream records the error; and when it is CONTINUE, the stream
accepts the packet and the call's own message has status CONTINUE. After a
CONTINUE frame that the stream accepts, a call whose own message has another
status is left as it was. -/
theorem C7_stream_frame_completes_call {X : virNetCollab} (client : virNetClient X)
    (st : X.Stream) (pre post : List virNetClientCall) (thecall : virNetClientCall)
    (hst : client.streams.find? (fun s => X.virNetClientStreamMatches s client.msg) = some st)
    (hqueue : client.waitDispatch = pre ++ thecall :: post)
    (hpre : ∀ c ∈ pre, virNetMessageTriple c.msg ≠ virNetMessageTriple client.msg)
    (hcall : virNetMessageTriple thecall.msg = virNetMessageTriple client.msg)
    (hreply : thecall.expectReply = true) :
    (client.msg.header.status = virNetMessageStatus.VIR_NET_OK →
      (virNetClientCallDispatchStream client).1 = 0 ∧
      (virNetClientCallDispatchStream client).2.waitDispatch =
        pre ++ { thecall with mode := virNetClientMode.VIR_NET_CLIENT_MODE_COMPLETE } :: post) ∧
    (client.msg.header.status = virNetMessageStatus.VIR_NET_ERROR →
      (X.virNetClientStreamSetError st client.msg).isSome = true →
      (virNetClientCallDispatchStream client).1 = 0 ∧
      (virNetClientCallDispatchStream client).2.waitDispatch =
        pre ++ { thecall with mode := virNetClientMode.VIR_NET_CLIENT_MODE_COMPLETE } :: post) ∧
    (client.msg.header.status = virNetMessageStatus.VIR_NET_CONTINUE →
      (X.virNetClientStreamQueuePacket st client.msg).isSome = true →
      thecall.msg.header.status = virNetMessageStatus.VIR_NET_CONTINUE →
      (virNetClientCallDispatchStream client).1 = 0 ∧
      (virNetClientCallDispatchStream client).2.waitDispatch =
        pre ++ { thecall with mode := virNetClientMode.VIR_NET_CLIENT_MODE_COMPLETE } :: post) ∧
    (client.msg.header.status = virNetMessageStatus.VIR_NET_CONTINUE →
      (X.virNetClientStreamQueuePacket st client.msg).isSome = true →
      thecall.msg.header.status ≠ virNetMessageStatus.VIR_NET_CONTINUE →
      (virNetClientCallDispatchStream client).1 = 0 ∧
      (virNetClientCallDispatchStream client).2.waitDispatch = client.waitDispatch) := by
  have hpre2 : ∀ c ∈ pre, virNetClientCallMatches client.msg c = false := by
    intro c hc
    cases hm : virNetClientCallMatches client.msg c with
    | false => rfl
    | true => exact absurd ((virNetClientCallMatches_iff _ _).1 hm) (hpre c hc)
  have hcall2 : virNetClientCallMatches client.msg thecall = true :=
    (virNetClientCallMatches_iff _ _).2 hcall
  have hfind : client.waitDispatch.find? (virNetClientCallMatches client.msg) = some thecall := by
    rw [hqueue]
    exact find?_append_first _ pre post thecall hpre2 hcall2
  refine ⟨?_, ?_, ?_, ?_⟩
  · intro hs
    unfold virNetClientCallDispatchStream
    rw [hst]
    simp only [hs, hfind, hreply, if_true]
    rw [hqueue, modifyFirst_append _ _ pre post thecall hpre2 hcall2]
    simp [hreply]
  · intro hs hset
    obtain ⟨st1, hst1⟩ := Option.isSome_iff_exists.1 hset
    unfold virNetClientCallDispatchStream
    rw [hst]
    simp only [hs, hst1, hfind, hreply, if_true]
    rw [hqueue, modifyFirst_append _ _ pre post thecall hpre2 hcall2]
    simp [hreply]
  · intro hs hq hown
    obtain ⟨st1, hst1⟩ := Option.isSome_iff_exists.1 hq
    unfold virNetClientCallDispatchStream
    rw [hst]
    simp only [hs, hst1]
    rw [hqueue, modifyFirst_append _ _ pre post thecall hpre2 hcall2]
    simp [hreply, hown]
  · intro hs hq hown
    obtain ⟨st1, hst1⟩ := Option.isSome_iff_exists.1 hq
    unfold virNetClientCallDispatchStream
    rw [hst]
    simp only [hs, hst1]
    rw [hqueue, modifyFirst_append _ _ pre post thecall hpre2 hcall2]
    simp [hreply, hown]

/-- Witness of the amended C7: an OK frame for the registered stream of serial 2
completes the queued call of serial 2. -/
theorem C7_stream_frame_completes_call_witness :
    (virNetClientCallDispatchStream
      (sampleStreamClient [sampleCall 10 1, sampleCall 11 2]
        (sampleStreamFrame virNetMessageStatus.VIR_NET_OK))).1 = 0 ∧
    (virNetClientCallDispatchStream
      (sampleStreamClient [sampleCall 10 1, sampleCall 11 2]
        (sampleStreamFrame virNetMessageStatus.VIR_NET_OK))).2.waitDispatch =
      [sampleCall 10 1] ++
        { sampleCall 11 2 with mode := virNetClientMode.VIR_NET_CLIENT_MODE_COMPLETE } :: [] :=
  (C7_stream_frame_completes_call
    (sampleStreamClient [sampleCall 10 1, sampleCall 11 2]
      (sampleStreamFrame virNetMessageStatus.VIR_NET_OK))
    ((1, 1, 2), []) [sampleCall 10 1] [] (sampleCall 11 2) rfl rfl (by decide) rfl rfl).1 rfl

/-- Claim C5, evaluated at a blocking buck holder: the thread of a blocking call
that awaits its reply runs the event loop on an open connection with keepalive, and
in that turn the keepalive trigger declares the peer dead. The trigger marks the
connection for close with reason KEEPALIVE, but the loop returns -1 with the close
reason EOF stored on the connection, and EOF is the reason the close callback
receives at the final close. -/
theorem C5_keepalive_reason_overwritten :
    (virNetClientIOEventLoopTrigger sampleDeadPoll
        (sampleKeepAliveClient [sampleCall 10 1])).wantClose = true ∧
    (virNetClientIOEventLoopTrigger sampleDeadPoll
        (sampleKeepAliveClient [sampleCall 10 1])).closeReason =
      virConnectCloseReason.VIR_CONNECT_CLOSE_REASON_KEEPALIVE ∧
    (virNetClientIOEventLoop [sampleDeadPoll] (sampleKeepAliveClient [sampleCall 10 1])
        (sampleCall 10 1)).map
      (fun r => (r.ret, r.client.sock, r.client.closeReason, r.client.trace)) =
      some (-1, none, virConnectCloseReason.VIR_CONNECT_CLOSE_REASON_EOF,
        [virNetClientEvent.reportError, virNetClientEvent.keepAliveStop,
         virNetClientEvent.closeCb virConnectCloseReason.VIR_CONNECT_CLOSE_REASON_EOF]) := by
  refine ⟨rfl, rfl, rfl⟩

/-- Claim C6, evaluated on the non-blocking detach path: the thread of a
non-blocking call that is still to be sent runs the event loop, the only queued
call being its own, and in that turn the keepalive trigger marks the connection
for close. The loop detaches the call and reaches
`virNetClientIOEventLoopPassTheBuck` with `wantClose` set and no other call with a
thread; it returns 1 with the socket closed and `haveTheBuck` false, and the
detached call is still queued on the closed connection. The same holds for
`virNetClientIOEventLoopPassTheBuck` called directly on that state. -/
theorem C6_detached_call_survives_final_close :
    (virNetClientIOEventLoop [sampleDeadPoll] (sampleKeepAliveClient [sampleNonBlockCall 10 1])
        (sampleNonBlockCall 10 1)).map
      (fun r => (r.ret, r.client.sock, r.client.haveTheBuck, r.client.wantClose,
        r.client.waitDispatch)) =
      some (1, none, false, false, [sampleDetachedCall 10 1]) ∧
    (virNetClientIOEventLoopPassTheBuck
        (virNetClientMarkClose (sampleKeepAliveClient [sampleDetachedCall 10 1])
          virConnectCloseReason.VIR_CONNECT_CLOSE_REASON_KEEPALIVE)
        (some 10)).waitDispatch = [sampleDetachedCall 10 1] ∧
    (virNetClientIOEventLoopPassTheBuck
        (virNetClientMarkClose (sampleKeepAliveClient [sampleDetachedCall 10 1])
          virConnectCloseReason.VIR_CONNECT_CLOSE_REASON_KEEPALIVE)
        (some 10)).sock = none := by
  refine ⟨rfl, rfl, rfl⟩

/-- A turn of the event loop that gets as far as the input step is the input step
on the connection at that point. -/
theorem virNetClientIOEventLoopTurn_of_runsInput {X : virNetCollab} (env : virNetClientPoll)
    (client : virNetClient X) (thiscall : virNetClientCall)
    (h : virNetClientIOEventLoopRunsInput env client = true) :
    virNetClientIOEventLoopTurn env client thiscall =
      match virNetClientIOHandleInput env.inputFuel (virNetClientIOEventLoopAtInput env client) with
      | none => none
      | some (ret, c) =>
        if ret < 0 then
          some (virNetClientIOStep.done
            (virNetClientIOEventLoopError
              (virNetClientMarkClose c virConnectCloseReason.VIR_CONNECT_CLOSE_REASON_ERROR)
              thiscall))
        else
          some (virNetClientIOEventLoopSweep
            (virNetClientIOEventLoopRevents env (virNetClientIOEventLoopEvents client)
              (virNetClientIOEventLoopTrigger env client)) c thiscall) := by
  unfold virNetClientIOEventLoopRunsInput at h
  simp only [Bool.and_eq_true, decide_eq_true_eq, Bool.not_eq_true', Bool.or_eq_true] at h
  obtain ⟨⟨⟨hpoll, hwake⟩, hout⟩, hin⟩ := h
  have hpoll2 : ¬ env.ret < 0 := not_lt.mpr hpoll
  unfold virNetClientIOEventLoopTurn virNetClientIOEventLoopAtInput
  simp only [hpoll2, if_false, hwake, Bool.false_eq_true]
  unfold virNetClientIOEventLoopOutput
  by_cases hpo : (virNetClientIOEventLoopRevents env (virNetClientIOEventLoopEvents client)
      (virNetClientIOEventLoopTrigger env client)).POLLOUT = true
  · have hok : ¬ (virNetClientIOHandleOutput (virNetClientIOEventLoopTrigger env client)).1 < 0 := by
      rcases hout with hout | hout
      · rw [hpo] at hout
        exact absurd hout (by simp)
      · exact not_lt.mpr hout
    simp only [hpo, if_true, hok, if_false]
    unfold virNetClientIOEventLoopInput
    simp only [hin, if_true]
  · simp only [hpo, if_false, Bool.false_eq_true]
    unfold virNetClientIOEventLoopInput
    simp only [hin, if_true]

/-- The router on a reply that no queued call matches and the keepalive object
does not claim: an error is reported, -1 is returned, nothing else changes. -/
theorem virNetClientCallDispatch_unmatched_reply {X : virNetCollab} (client : virNetClient X)
    (htype : client.msg.header.type = virNetMessageType.VIR_NET_REPLY)
    (hka : virNetClientNotKeepAlive client client.msg)
    (hnone : ∀ c ∈ client.waitDispatch,
      virNetMessageTriple c.msg ≠ virNetMessageTriple client.msg) :
    virNetClientCallDispatch client =
      (-1, { client with trace := client.trace ++ [virNetClientEvent.reportError] }) := by
  have hfind : client.waitDispatch.find? (virNetClientCallMatches client.msg) = none := by
    apply find?_of_forall_not
    intro c hc
    cases hm : virNetClientCallMatches client.msg c with
    | false => rfl
    | true => exact absurd ((virNetClientCallMatches_iff _ _).1 hm) (hnone c hc)
  have hreply : virNetClientCallDispatchReply client =
      (-1, { client with trace := client.trace ++ [virNetClientEvent.reportError] }) := by
    unfold virNetClientCallDispatchReply
    rw [hfind]
  unfold virNetClientCallDispatch
  cases hk : client.keepalive with
  | none =>
    simp only [htype, hreply]
    rw [hk]
  | some ka =>
    have hfalse := hka ka hk
    simp only
    cases hc : X.virKeepAliveCheckMessage ka client.msg with
    | mk b r =>
      rw [hc] at hfalse
      simp only at hfalse
      subst hfalse
      simp only [htype, hreply]
      rw [hk]

/-- The router on an event that no registered program matches and the keepalive
object does not claim: -1 is returned and nothing changes. -/
theorem virNetClientCallDispatch_unmatched_message {X : virNetCollab} (client : virNetClient X)
    (htype : client.msg.header.type = virNetMessageType.VIR_NET_MESSAGE)
    (hka : virNetClientNotKeepAlive client client.msg)
    (hnone : ∀ prog ∈ client.programs, X.virNetClientProgramMatches prog client.msg = false) :
    virNetClientCallDispatch client = (-1, client) := by
  have hfind : ∀ (l : List X.Program),
      (∀ prog ∈ l, X.virNetClientProgramMatches prog client.msg = false) →
      findFirst (fun prog => X.virNetClientProgramMatches prog client.msg) l = none := by
    intro l
    induction l with
    | nil => intro _; rfl
    | cons a l ih =>
      intro hl
      have ha := hl a (List.mem_cons_self a l)
      have hrest := ih (fun b hb => hl b (List.mem_cons_of_mem a hb))
      simp [findFirst, ha, hrest]
  have hmsg : virNetClientCallDispatchMessage client = (-1, client) := by
    unfold virNetClientCallDispatchMessage
    rw [hfind client.programs hnone]
  unfold virNetClientCallDispatch
  cases hk : client.keepalive with
  | none => simp only [htype, hmsg]
  | some ka =>
    have hfalse := hka ka hk
    simp only
    cases hc : X.virKeepAliveCheckMessage ka client.msg with
    | mk b r =>
      rw [hc] at hfalse
      simp only at hfalse
      subst hfalse
      simp only [htype, hmsg]

/-- The purge of the final close leaves only calls with the address `thiscall`. -/
theorem virNetClientCallRemovePredicate_removeAll (thiscall : Option Nat)
    (queue : List virNetClientCall) (trace : List virNetClientEvent) :
    ∀ call ∈ (virNetClientCallRemovePredicate (virNetClientIOEventLoopRemoveAll thiscall)
      queue trace).1, some call.addr = thiscall := by
  induction queue generalizing trace with
  | nil => intro call hc; simp [virNetClientCallRemovePredicate] at hc
  | cons a queue ih =>
    intro call hc
    unfold virNetClientCallRemovePredicate at hc
    by_cases ha : some a.addr = thiscall
    · simp only [virNetClientIOEventLoopRemoveAll, ha, if_true, Bool.false_eq_true,
        if_false, List.mem_cons] at hc
      rcases hc with hc | hc
      · rw [hc]; exact ha
      · exact ih trace call hc
    · simp only [virNetClientIOEventLoopRemoveAll, ha, if_false, if_true] at hc
      exact ih _ call hc

/-- A call other than the removed one is still queued after
`virNetClientCallRemove`. -/
theorem mem_virNetClientCallRemove (queue : List virNetClientCall) (addr : Nat)
    (call : virNetClientCall) (hc : call ∈ queue) (hne : call.addr ≠ addr) :
    call ∈ virNetClientCallRemove queue addr := by
  induction queue with
  | nil => simp at hc
  | cons a queue ih =>
    unfold virNetClientCallRemove
    by_cases ha : a.addr = addr
    · simp only [ha, if_true]
      rcases List.mem_cons.1 hc with h | h
      · exact absurd (h ▸ ha) hne
      · exact h
    · simp only [ha, if_false]
      rcases List.mem_cons.1 hc with h | h
      · rw [h]; exact List.mem_cons_self _ _
      · exact List.mem_cons_of_mem _ (ih h)

/-- The function `virNetClientCallRemove` adds no call to the queue. -/
theorem virNetClientCallRemove_subset (queue : List virNetClientCall) (addr : Nat)
    (call : virNetClientCall) (hc : call ∈ virNetClientCallRemove queue addr) :
    call ∈ queue := by
  induction queue with
  | nil => simp [virNetClientCallRemove] at hc
  | cons a queue ih =>
    unfold virNetClientCallRemove at hc
    by_cases ha : a.addr = addr
    · simp only [ha, if_true] at hc
      exact List.mem_cons_of_mem _ hc
    · simp only [ha, if_false] at hc
      rcases List.mem_cons.1 hc with h | h
      · rw [h]; exact List.mem_cons_self _ _
      · exact List.mem_cons_of_mem _ (ih h)

/-- The exit through the label `error` after the connection was marked for close
with `reason`: the loop returns -1 and the reason is stored; when another queued
call has a thread the connection stays marked for close and only the own call
leaves the queue; when none has, the connection is closed and every call that
remains has the address of the own call. -/
theorem virNetClientIOEventLoopError_markClose {X : virNetCollab} (c : virNetClient X)
    (thiscall : virNetClientCall) (reason : virConnectCloseReason) :
    (virNetClientIOEventLoopError (virNetClientMarkClose c reason) thiscall).ret = -1 ∧
    (virNetClientIOEventLoopError (virNetClientMarkClose c reason) thiscall).client.closeReason =
      reason ∧
    ((∃ other ∈ c.waitDispatch, other.addr ≠ thiscall.addr ∧ other.haveThread = true) →
      (virNetClientIOEventLoopError (virNetClientMarkClose c reason) thiscall).client.wantClose =
        true ∧
      (virNetClientIOEventLoopError (virNetClientMarkClose c reason) thiscall).client.sock =
        c.sock ∧
      (virNetClientIOEventLoopError (virNetClientMarkClose c reason)
        thiscall).client.waitDispatch = virNetClientCallRemove c.waitDispatch thiscall.addr) ∧
    ((∀ other ∈ c.waitDispatch, other.addr ≠ thiscall.addr → other.haveThread = false) →
      (virNetClientIOEventLoopError (virNetClientMarkClose c reason) thiscall).client.sock =
        none ∧
      (virNetClientIOEventLoopError (virNetClientMarkClose c reason)
        thiscall).client.haveTheBuck = false ∧
      ∀ call ∈ (virNetClientIOEventLoopError (virNetClientMarkClose c reason)
        thiscall).client.waitDispatch, call.addr = thiscall.addr) := by
  refine ⟨rfl, ?_, ?_, ?_⟩
  · simp only [virNetClientIOEventLoopError, virNetClientIOEventLoopPassTheBuck,
      virNetClientMarkClose, virNetClientCloseLocked]
    split
    · rfl
    · simp only [if_true]
      cases c.sock <;> rfl
  · rintro ⟨other, hmem, hne, hthread⟩
    have hfind : ((virNetClientCallRemove c.waitDispatch thiscall.addr).find?
        (fun tmp => decide (some tmp.addr ≠ some thiscall.addr) && tmp.haveThread)).isSome =
          true := by
      rw [List.find?_isSome]
      refine ⟨other, mem_virNetClientCallRemove _ _ _ hmem hne, ?_⟩
      simp [hne, hthread]
    obtain ⟨tmp, htmp⟩ := Option.isSome_iff_exists.1 hfind
    simp only [virNetClientIOEventLoopError, virNetClientIOEventLoopPassTheBuck,
      virNetClientMarkClose, htmp]
    exact ⟨trivial, trivial, trivial⟩
  · intro hall
    have hfind : (virNetClientCallRemove c.waitDispatch thiscall.addr).find?
        (fun tmp => decide (some tmp.addr ≠ some thiscall.addr) && tmp.haveThread) = none := by
      apply find?_of_forall_not
      intro a ha
      by_cases hne : a.addr = thiscall.addr
      · simp [hne]
      · simp [hall a (virNetClientCallRemove_subset _ _ _ ha) hne]
    simp only [virNetClientIOEventLoopError, virNetClientIOEventLoopPassTheBuck,
      virNetClientMarkClose, hfind, if_true]
    refine ⟨?_, ?_, ?_⟩
    · unfold virNetClientCloseLocked
      cases c.sock <;> rfl
    · unfold virNetClientCloseLocked
      cases c.sock <;> rfl
    · intro call hcall
      have := virNetClientCallRemovePredicate_removeAll (some thiscall.addr) _ _ call hcall
      exact Option.some.inj this

/-- Reading does not touch the queue, the trace, the keepalive object, the
programs, the close flag or the close reason. -/
theorem virNetClientIOReadMessage_frame {X : virNetCollab} (client : virNetClient X) :
    (virNetClientIOReadMessage client).2.waitDispatch = client.waitDispatch ∧
    (virNetClientIOReadMessage client).2.trace = client.trace ∧
    (virNetClientIOReadMessage client).2.keepalive = client.keepalive ∧
    (virNetClientIOReadMessage client).2.programs = client.programs ∧
    (virNetClientIOReadMessage client).2.wantClose = client.wantClose ∧
    (virNetClientIOReadMessage client).2.closeReason = client.closeReason := by
  unfold virNetClientIOReadMessage
  dsimp only
  split_ifs <;> exact ⟨rfl, rfl, rfl, rfl, rfl, rfl⟩

/-- A turn of the event loop that runs the input step finds the connection not
marked for close. -/
theorem virNetClientIOEventLoopAtInput_wantClose {X : virNetCollab} (env : virNetClientPoll)
    (client : virNetClient X) (h : virNetClientIOEventLoopRunsInput env client = true) :
    (virNetClientIOEventLoopAtInput env client).wantClose = false := by
  unfold virNetClientIOEventLoopRunsInput at h
  simp only [Bool.and_eq_true] at h
  have hin := h.2
  have hc1 : (virNetClientIOEventLoopTrigger env client).wantClose = false := by
    cases hw : (virNetClientIOEventLoopTrigger env client).wantClose with
    | false => rfl
    | true =>
      unfold virNetClientIOEventLoopRevents at hin
      simp [hw] at hin
  unfold virNetClientIOEventLoopAtInput
  split
  · exact hc1
  · exact hc1

/-- Claim C3, as stated, fails. A whole REPLY frame for serial 9 arrives while the
calls of serials 1 and 2 wait, both with threads: the turn of the event loop that
reads and dispatches it returns -1 to the buck holder and leaves the connection
marked for close. When the other queued call is a detached non-blocking call of
another caller, still unsent, the same turn closes the socket and frees that
call. -/
theorem C3_unmatched_reply_marks_close :
    (virNetClientIOEventLoop [sampleReadable] (sampleArrival [sampleCall 10 1, sampleCall 11 2] 1)
        (sampleCall 10 1)).map
      (fun r => (r.ret, r.client.wantClose, r.client.closeReason,
        r.client.waitDispatch.map (fun c => c.addr))) =
      some (-1, true, virConnectCloseReason.VIR_CONNECT_CLOSE_REASON_ERROR, [11]) ∧
    (virNetClientIOEventLoop [sampleReadable]
        (sampleArrival [sampleCall 10 1, sampleDetachedCall 12 3] 1) (sampleCall 10 1)).map
      (fun r => (r.ret, r.client.sock, r.client.waitDispatch, r.client.trace)) =
      some (-1, none, [],
        [virNetClientEvent.reportError,
         virNetClientEvent.closeCb virConnectCloseReason.VIR_CONNECT_CLOSE_REASON_ERROR,
         virNetClientEvent.callFree 12]) := by
  refine ⟨rfl, rfl⟩

/-- Claim C4, as stated, fails. A whole MESSAGE frame of program 1 arrives on a
connection where only program 5 is registered, while the calls of serials 1 and 2
wait, both with threads: the turn of the event loop that reads and dispatches it
invokes no callback, returns -1 to the buck holder and leaves the connection
marked for close. When the other queued call is a detached non-blocking call,
still unsent, the same turn closes the socket and frees that call. -/
theorem C4_unmatched_event_marks_close :
    (virNetClientIOEventLoop [sampleReadable]
        (sampleEventArrival [sampleCall 10 1, sampleCall 11 2]) (sampleCall 10 1)).map
      (fun r => (r.ret, r.client.wantClose, r.client.closeReason,
        r.client.waitDispatch.map (fun c => c.addr), r.client.trace)) =
      some (-1, true, virConnectCloseReason.VIR_CONNECT_CLOSE_REASON_ERROR, [11],
        [virNetClientEvent.condSignal 11]) ∧
    (virNetClientIOEventLoop [sampleReadable]
        (sampleEventArrival [sampleCall 10 1, sampleDetachedCall 12 3]) (sampleCall 10 1)).map
      (fun r => (r.ret, r.client.sock, r.client.waitDispatch, r.client.trace)) =
      some (-1, none, [],
        [virNetClientEvent.closeCb virConnectCloseReason.VIR_CONNECT_CLOSE_REASON_ERROR,
         virNetClientEvent.callFree 12]) := by
  refine ⟨rfl, rfl⟩

/-- The list and the state that `virNetClientCallRemovePredicate` returns do not
depend on the log, and the log grows by one entry per call, in queue order; the
list returned holds the calls whose entry says false. -/
theorem virNetClientCallRemovePredicate_logged {σ : Type}
    (pred : virNetClientCall → σ → Bool × σ) (queue : List virNetClientCall) (s : σ)
    (log : List (virNetClientCall × Bool)) :
    ∃ entries : List (virNetClientCall × Bool),
      (virNetClientCallRemovePredicate (virNetClientCallPredicateLogged pred) queue
        (s, log)).2.2 = log ++ entries ∧
      entries.map (fun e => e.1) = queue ∧
      (virNetClientCallRemovePredicate (virNetClientCallPredicateLogged pred) queue
        (s, log)).1 = (entries.filter (fun e => !e.2)).map (fun e => e.1) ∧
      (virNetClientCallRemovePredicate (virNetClientCallPredicateLogged pred) queue
        (s, log)).1 = (virNetClientCallRemovePredicate pred queue s).1 ∧
      (virNetClientCallRemovePredicate (virNetClientCallPredicateLogged pred) queue
        (s, log)).2.1 = (virNetClientCallRemovePredicate pred queue s).2 := by
  induction queue generalizing s log with
  | nil => exact ⟨[], by simp [virNetClientCallRemovePredicate]⟩
  | cons tmp next ih =>
    obtain ⟨entries, h1, h2, h3, h4, h5⟩ :=
      ih (pred tmp s).2 (log ++ [(tmp, (pred tmp s).1)])
    refine ⟨(tmp, (pred tmp s).1) :: entries, ?_⟩
    cases hp : (pred tmp s).1 with
    | true =>
      rw [hp] at h1 h3 h4 h5
      simp only [virNetClientCallRemovePredicate, virNetClientCallPredicateLogged, hp, if_true]
      refine ⟨?_, ?_, ?_, h4, h5⟩
      · rw [show (virNetClientCallRemovePredicate (virNetClientCallPredicateLogged pred) next
            ((pred tmp s).2, log ++ [(tmp, true)])).2.2 = _ from h1]
        simp
      · simp [h2]
      · rw [show (virNetClientCallRemovePredicate (virNetClientCallPredicateLogged pred) next
            ((pred tmp s).2, log ++ [(tmp, true)])).1 = _ from h3]
        simp
    | false =>
      rw [hp] at h1 h3 h4 h5
      simp only [virNetClientCallRemovePredicate, virNetClientCallPredicateLogged, hp,
        Bool.false_eq_true, if_false]
      refine ⟨?_, ?_, ?_, ?_, h5⟩
      · rw [show (virNetClientCallRemovePredicate (virNetClientCallPredicateLogged pred) next
            ((pred tmp s).2, log ++ [(tmp, false)])).2.2 = _ from h1]
        simp
      · simp [h2]
      · rw [show (virNetClientCallRemovePredicate (virNetClientCallPredicateLogged pred) next
            ((pred tmp s).2, log ++ [(tmp, false)])).1 = _ from h3]
        simp
      · rw [show (virNetClientCallRemovePredicate (virNetClientCallPredicateLogged pred) next
            ((pred tmp s).2, log ++ [(tmp, false)])).1 = _ from h4]

/-- With a predicate whose answer does not depend on its state the list returned
is the filter of the queue. -/
theorem virNetClientCallRemovePredicate_filter {σ : Type} (p : virNetClientCall → Bool)
    (f : virNetClientCall → σ → σ) (queue : List virNetClientCall) (s : σ) :
    (virNetClientCallRemovePredicate (fun call st => (p call, f call st)) queue s).1 =
      queue.filter (fun call => !p call) := by
  induction queue generalizing s with
  | nil => rfl
  | cons tmp next ih =>
    cases hp : p tmp with
    | true => simp [virNetClientCallRemovePredicate, hp, ih]
    | false => simp [virNetClientCallRemovePredicate, hp, ih]

/-- Claim C11 (removal by predicate is a stable filter). For every queue, every
predicate and every state of its `opaque`: the predicate is evaluated exactly once
on each call, in queue order (the log of its evaluations lists the queue); the
queue afterwards holds exactly the calls for which that evaluation returned false,
in their original order; and recording the evaluations changes neither the queue
nor the state returned. For a predicate whose answer depends on the call alone the
result is the filter of the queue by the negated predicate. -/
theorem C11_remove_predicate_stable_filter :
    (∀ (σ : Type) (pred : virNetClientCall → σ → Bool × σ) (queue : List virNetClientCall)
        (s : σ),
      ∃ entries : List (virNetClientCall × Bool),
        (virNetClientCallRemovePredicate (virNetClientCallPredicateLogged pred) queue
          (s, [])).2.2 = entries ∧
        entries.map (fun e => e.1) = queue ∧
        (virNetClientCallRemovePredicate pred queue s).1 =
          (entries.filter (fun e => !e.2)).map (fun e => e.1) ∧
        (virNetClientCallRemovePredicate (virNetClientCallPredicateLogged pred) queue
          (s, [])).2.1 = (virNetClientCallRemovePredicate pred queue s).2) ∧
    (∀ (σ : Type) (p : virNetClientCall → Bool) (f : virNetClientCall → σ → σ)
        (queue : List virNetClientCall) (s : σ),
      (virNetClientCallRemovePredicate (fun call st => (p call, f call st)) queue s).1 =
        queue.filter (fun call => !p call)) := by
  constructor
  · intro σ pred queue s
    obtain ⟨entries, h1, h2, h3, h4, h5⟩ :=
      virNetClientCallRemovePredicate_logged pred queue s []
    exact ⟨entries, by simpa using h1, h2, by rw [← h4, h3], h5⟩
  · intro σ p f queue s
    exact virNetClientCallRemovePredicate_filter p f queue s

/-- The function `virNetClientCallQueue` puts the call behind the last one. -/
theorem virNetClientCallQueue_eq_append (queue : List virNetClientCall)
    (call : virNetClientCall) : virNetClientCallQueue queue call = queue ++ [call] := by
  induction queue with
  | nil => rfl
  | cons tmp next ih => simp [virNetClientCallQueue, ih]

/-- The function `virNetClientCallRemove` takes out the first call with the given
address. -/
theorem virNetClientCallRemove_append (pre post : List virNetClientCall)
    (call : virNetClientCall) (hpre : ∀ x ∈ pre, x.addr ≠ call.addr) :
    virNetClientCallRemove (pre ++ call :: post) call.addr = pre ++ post := by
  induction pre with
  | nil => simp [virNetClientCallRemove]
  | cons a pre ih =>
    have ha : a.addr ≠ call.addr := hpre a (List.mem_cons_self a pre)
    have hrest : ∀ x ∈ pre, x.addr ≠ call.addr :=
      fun x hx => hpre x (List.mem_cons_of_mem a hx)
    simp [virNetClientCallRemove, ha, ih hrest]

/-- The function `virNetClientCallRemove` leaves a queue without the call as it
is. -/
theorem virNetClientCallRemove_absent (queue : List virNetClientCall) (addr : Nat)
    (h : ∀ x ∈ queue, x.addr ≠ addr) : virNetClientCallRemove queue addr = queue := by
  induction queue with
  | nil => rfl
  | cons a queue ih =>
    have ha : a.addr ≠ addr := h a (List.mem_cons_self a queue)
    have hrest : ∀ x ∈ queue, x.addr ≠ addr :=
      fun x hx => h x (List.mem_cons_of_mem a hx)
    simp [virNetClientCallRemove, ha, ih hrest]

/-- Claim C12 (enqueue appends, removal deletes one call). For every queue and
every call that is not in it, `virNetClientCallQueue` yields the queue followed by
the call. `virNetClientCallRemove` of a call that stands between `pre` and `post`
yields `pre` followed by `post`, and leaves a queue that does not hold the call
unchanged. -/
theorem C12_queue_appends_remove_deletes :
    (∀ (queue : List virNetClientCall) (call : virNetClientCall),
      (∀ x ∈ queue, x.addr ≠ call.addr) →
      virNetClientCallQueue queue call = queue ++ [call]) ∧
    (∀ (pre post : List virNetClientCall) (call : virNetClientCall),
      (∀ x ∈ pre, x.addr ≠ call.addr) →
      virNetClientCallRemove (pre ++ call :: post) call.addr = pre ++ post) ∧
    (∀ (queue : List virNetClientCall) (addr : Nat),
      (∀ x ∈ queue, x.addr ≠ addr) →
      virNetClientCallRemove queue addr = queue) :=
  ⟨fun queue call _ => virNetClientCallQueue_eq_append queue call,
   fun pre post call hpre => virNetClientCallRemove_append pre post call hpre,
   fun queue addr h => virNetClientCallRemove_absent queue addr h⟩

/-- Witness of C12: a third call is appended to a queue of two, and the middle one
of three calls is removed. -/
theorem C12_queue_appends_remove_deletes_witness :
    virNetClientCallQueue [sampleCall 10 1, sampleCall 11 2] (sampleCall 12 3) =
      [sampleCall 10 1, sampleCall 11 2] ++ [sampleCall 12 3] ∧
    virNetClientCallRemove ([sampleCall 10 1] ++ sampleCall 11 2 :: [sampleCall 12 3])
      (sampleCall 11 2).addr = [sampleCall 10 1] ++ [sampleCall 12 3] ∧
    virNetClientCallRemove [sampleCall 10 1, sampleCall 11 2] 12 =
      [sampleCall 10 1, sampleCall 11 2] :=
  ⟨C12_queue_appends_remove_deletes.1 _ _ (by decide),
   C12_queue_appends_remove_deletes.2.1 _ _ _ (by decide),
   C12_queue_appends_remove_deletes.2.2 _ _ (by decide)⟩

/-- The function `virNetClientCallRemove` yields a sublist of the queue. -/
theorem virNetClientCallRemove_sublist (queue : List virNetClientCall) (addr : Nat) :
    (virNetClientCallRemove queue addr).Sublist queue := by
  induction queue with
  | nil => exact List.Sublist.refl _
  | cons a queue ih =>
    unfold virNetClientCallRemove
    split
    · exact List.sublist_cons_self a queue
    · exact List.Sublist.cons₂ a ih

/-- The function `virNetClientCallRemovePredicate` yields a sublist of the
queue. -/
theorem virNetClientCallRemovePredicate_sublist {σ : Type}
    (pred : virNetClientCall → σ → Bool × σ) (queue : List virNetClientCall) (s : σ) :
    (virNetClientCallRemovePredicate pred queue s).1.Sublist queue := by
  induction queue generalizing s with
  | nil => exact List.Sublist.refl _
  | cons a queue ih =>
    unfold virNetClientCallRemovePredicate
    split
    · exact List.Sublist.cons a (ih _)
    · exact List.Sublist.cons₂ a (ih _)

/-- A call that `virNetClientCallNew` returns has the address it was given. -/
theorem virNetClientCallNew_addr (addr : Nat) (msg : virNetMessage) (expectReply nonBlock : Bool)
    (call : virNetClientCall)
    (h : virNetClientCallNew addr msg expectReply nonBlock = some call) : call.addr = addr := by
  unfold virNetClientCallNew at h
  split at h
  · exact absurd h (by simp)
  · split at h
    · exact absurd h (by simp)
    · injection h with h
      rw [← h]

/-- Queues without repeated call stay so when a sublist is taken. -/
theorem virNetClientQueueDistinct_sublist {X : virNetCollab} (client : virNetClient X)
    (queue : List virNetClientCall) (trace : List virNetClientEvent)
    (h : virNetClientQueueDistinct client) (hsub : queue.Sublist client.waitDispatch) :
    virNetClientQueueDistinct { client with waitDispatch := queue, trace := trace } :=
  ⟨(hsub.map (fun c => c.addr)).nodup h.1, fun c hc => h.2 c (hsub.subset hc)⟩

/-- Queues without repeated call stay so when a newly allocated call is put
behind. -/
theorem virNetClientQueueDistinct_enqueue {X : virNetCollab} (client : virNetClient X)
    (call : virNetClientCall) (h : virNetClientQueueDistinct client)
    (hnew : call.addr = client.nextAddr) :
    virNetClientQueueDistinct
      { client with
        waitDispatch := virNetClientCallQueue client.waitDispatch call
        nextAddr := client.nextAddr + 1 } := by
  constructor
  · show ((virNetClientCallQueue client.waitDispatch call).map (fun c => c.addr)).Nodup
    rw [virNetClientCallQueue_eq_append, List.map_append, List.nodup_append]
    refine ⟨h.1, by simp, ?_⟩
    intro a ha hb
    rw [List.mem_map] at ha
    obtain ⟨c, hc, rfl⟩ := ha
    simp only [List.map_cons, List.map_nil, List.mem_singleton] at hb
    have := h.2 c hc
    omega
  · intro c hc
    show c.addr < client.nextAddr + 1
    rw [virNetClientCallQueue_eq_append, List.mem_append, List.mem_singleton] at hc
    rcases hc with hc | hc
    · have := h.2 c hc
      omega
    · rw [hc, hnew]
      omega

/-- Every operation on the queue keeps it free of repeated calls. -/
theorem virNetClientQueueOp_apply_distinct {X : virNetCollab} (client : virNetClient X)
    (op : virNetClientQueueOp) (h : virNetClientQueueDistinct client) :
    virNetClientQueueDistinct (virNetClientQueueOp.apply client op) := by
  cases op with
  | send msg expectReply nonBlock =>
    cases hnew : virNetClientCallNew client.nextAddr msg expectReply nonBlock with
    | none =>
      simp only [virNetClientQueueOp.apply, hnew]
      exact h
    | some call =>
      simp only [virNetClientQueueOp.apply, hnew]
      exact virNetClientQueueDistinct_enqueue client { call with haveThread := true } h
        (virNetClientCallNew_addr _ _ _ _ call hnew)
  | queueNonBlocking msg =>
    cases hnew : virNetClientCallNew client.nextAddr msg false true with
    | none =>
      simp only [virNetClientQueueOp.apply, virNetClientQueueNonBlocking, hnew]
      exact virNetClientQueueDistinct_sublist client _ _ h (List.Sublist.refl _)
    | some call =>
      simp only [virNetClientQueueOp.apply, virNetClientQueueNonBlocking, hnew]
      exact virNetClientQueueDistinct_enqueue client call h
        (virNetClientCallNew_addr _ _ _ _ call hnew)
  | remove call =>
    simp only [virNetClientQueueOp.apply]
    exact virNetClientQueueDistinct_sublist client _ client.trace h
      (virNetClientCallRemove_sublist _ _)
  | removePredicate pred =>
    simp only [virNetClientQueueOp.apply]
    exact virNetClientQueueDistinct_sublist client _ _ h
      (virNetClientCallRemovePredicate_sublist _ _ _)

/-- Every sequence of operations on the queue keeps it free of repeated calls. -/
theorem virNetClientQueueOp_foldl_distinct {X : virNetCollab} (ops : List virNetClientQueueOp)
    (client : virNetClient X) (h : virNetClientQueueDistinct client) :
    virNetClientQueueDistinct (ops.foldl virNetClientQueueOp.apply client) := by
  induction ops generalizing client with
  | nil => exact h
  | cons op ops ih => exact ih _ (virNetClientQueueOp_apply_distinct client op h)

/-- Claim C13 (no call is queued twice). Starting from a connection with an empty
queue, after every sequence of the client's queue operations (a send that creates
a call and queues it, `virNetClientQueueNonBlocking`, `virNetClientCallRemove`,
`virNetClientCallRemovePredicate`) no call object occurs twice in the queue. -/
theorem C13_no_call_queued_twice {X : virNetCollab} (ops : List virNetClientQueueOp)
    (client : virNetClient X) (hempty : client.waitDispatch = []) :
    ((ops.foldl virNetClientQueueOp.apply client).waitDispatch.map (fun c => c.addr)).Nodup :=
  (virNetClientQueueOp_foldl_distinct ops client
    ⟨by rw [hempty]; exact List.nodup_nil, by rw [hempty]; intro c hc; simp at hc⟩).1

/-- Witness of C13: two sends, a keepalive message, the removal of the first call
and a sweep of the completed calls, from the empty queue. -/
theorem C13_no_call_queued_twice_witness :
    (sampleClient []
      (sampleMessage 0 virNetMessageType.VIR_NET_CALL
        virNetMessageStatus.VIR_NET_OK)).waitDispatch = [] ∧
    (([virNetClientQueueOp.send
          (sampleMessage 1 virNetMessageType.VIR_NET_CALL virNetMessageStatus.VIR_NET_OK)
          true false,
        virNetClientQueueOp.send
          (sampleMessage 2 virNetMessageType.VIR_NET_CALL virNetMessageStatus.VIR_NET_OK)
          false true,
        virNetClientQueueOp.queueNonBlocking
          (sampleMessage 3 virNetMessageType.VIR_NET_CALL virNetMessageStatus.VIR_NET_OK),
        virNetClientQueueOp.remove 100,
        virNetClientQueueOp.removePredicate (virNetClientIOEventLoopRemoveDone none)].foldl
      virNetClientQueueOp.apply
      (sampleClient []
        (sampleMessage 0 virNetMessageType.VIR_NET_CALL
          virNetMessageStatus.VIR_NET_OK))).waitDispatch.map (fun c => c.addr)).Nodup :=
  ⟨rfl, C13_no_call_queued_twice _ _ rfl⟩

/-- The walk of `virNetClientIOEventLoopPollEvents` over the queue adds POLLIN for
a call that awaits its reply and POLLOUT for a call that is being sent. -/
theorem virNetClientCallMatchPredicate_pollEvents (queue : List virNetClientCall)
    (fd : pollEvents) :
    (virNetClientCallMatchPredicate virNetClientIOEventLoopPollEvents queue fd).2 =
      { POLLIN := fd.POLLIN || queue.any
          (fun c => decide (c.mode = virNetClientMode.VIR_NET_CLIENT_MODE_WAIT_RX))
        POLLOUT := fd.POLLOUT || queue.any
          (fun c => decide (c.mode = virNetClientMode.VIR_NET_CLIENT_MODE_WAIT_TX))
        POLLERR := fd.POLLERR
        POLLHUP := fd.POLLHUP } := by
  induction queue generalizing fd with
  | nil => simp [virNetClientCallMatchPredicate]
  | cons a queue ih =>
    simp only [virNetClientCallMatchPredicate, virNetClientIOEventLoopPollEvents,
      Bool.false_eq_true, if_false]
    rw [ih]
    simp [Bool.or_assoc]

/-- Claim C20, as stated, fails: with no stream registered and the only queued call
still being sent, the event mask for the socket has POLLOUT but not POLLIN. -/
theorem C20_sending_only_mask_lacks_pollin :
    (sampleClient [sampleNonBlockCall 10 1]
      (sampleMessage 0 virNetMessageType.VIR_NET_CALL virNetMessageStatus.VIR_NET_OK)).streams =
      [] ∧
    virNetClientIOEventLoopEvents
      (sampleClient [sampleNonBlockCall 10 1]
        (sampleMessage 0 virNetMessageType.VIR_NET_CALL virNetMessageStatus.VIR_NET_OK)) =
      { POLLIN := false, POLLOUT := true, POLLERR := false, POLLHUP := false } := by
  refine ⟨rfl, rfl⟩

/-- Claim C20, amended. For every connection state, the event mask the event loop
computes for the socket includes POLLIN exactly when some queued call awaits its
reply or at least one stream is registered, and includes POLLOUT exactly when some
queued call is in the sending mode; it includes neither POLLERR nor POLLHUP. -/
theorem C20_poll_mask {X : virNetCollab} (client : virNetClient X) :
    ((virNetClientIOEventLoopEvents client).POLLIN = true ↔
      (∃ c ∈ client.waitDispatch, c.mode = virNetClientMode.VIR_NET_CLIENT_MODE_WAIT_RX) ∨
      client.streams ≠ []) ∧
    ((virNetClientIOEventLoopEvents client).POLLOUT = true ↔
      ∃ c ∈ client.waitDispatch, c.mode = virNetClientMode.VIR_NET_CLIENT_MODE_WAIT_TX) ∧
    (virNetClientIOEventLoopEvents client).POLLERR = false ∧
    (virNetClientIOEventLoopEvents client).POLLHUP = false := by
  unfold virNetClientIOEventLoopEvents
  simp only [virNetClientCallMatchPredicate_pollEvents]
  by_cases hs : client.streams = []
  · simp [hs]
  · have hlen : client.streams.length ≠ 0 := by
      intro h
      exact hs (List.length_eq_zero.1 h)
    simp [hs, hlen]

/-- On a connection without socket or marked for close
`virNetClientSendInternal` reports an error and returns -1 before it creates a
call. -/
theorem virNetClientSendInternal_closed {X : virNetCollab} (env : virNetClientIOEnv X)
    (client : virNetClient X) (msg : virNetMessage) (expectReply nonBlock : Bool)
    (h : client.sock = none ∨ client.wantClose = true) :
    virNetClientSendInternal env client msg expectReply nonBlock =
      some { ret := -1
             client := { client with trace := client.trace ++ [virNetClientEvent.reportError] }
             msg := msg } := by
  have hguard : (client.sock.isNone || client.wantClose) = true := by
    rcases h with h | h
    · simp [h]
    · simp [h]
  unfold virNetClientSendInternal
  simp only [hguard, if_true]

/-- Claim C17 (sending on a closed connection fails atomically). For every
connection whose socket is gone or whose `wantClose` flag is set, and whatever the
surroundings, `virNetClientSendWithReply`, `virNetClientSendNoReply` and
`virNetClientSendNonBlock` return -1; the message is as it was, and so is the
connection apart from the reported error: the queue, `haveTheBuck` and the
allocator are unchanged, so no call was created or queued. -/
theorem C17_send_on_closed_connection {X : virNetCollab} (env : virNetClientIOEnv X)
    (client : virNetClient X) (msg : virNetMessage)
    (h : client.sock = none ∨ client.wantClose = true) :
    virNetClientSendWithReply env client msg =
      some { ret := -1
             client := { client with trace := client.trace ++ [virNetClientEvent.reportError] }
             msg := msg } ∧
    virNetClientSendNoReply env client msg =
      some { ret := -1
             client := { client with trace := client.trace ++ [virNetClientEvent.reportError] }
             msg := msg } ∧
    virNetClientSendNonBlock env client msg =
      some { ret := -1
             client := { client with trace := client.trace ++ [virNetClientEvent.reportError] }
             msg := msg } := by
  refine ⟨?_, ?_, ?_⟩
  · unfold virNetClientSendWithReply
    rw [virNetClientSendInternal_closed env client msg true false h]
    rfl
  · unfold virNetClientSendNoReply
    rw [virNetClientSendInternal_closed env client msg false false h]
    rfl
  · unfold virNetClientSendNonBlock
    exact virNetClientSendInternal_closed env client msg false true h

/-- Witness of C17: a send with reply on a connection marked for close. -/
theorem C17_send_on_closed_connection_witness :
    (sampleClosingClient.sock = none ∨ sampleClosingClient.wantClose = true) ∧
    (virNetClientSendWithReply sampleIOEnv sampleClosingClient
        (sampleMessage 5 virNetMessageType.VIR_NET_CALL virNetMessageStatus.VIR_NET_OK)).map
      (fun r => (r.ret, r.client.waitDispatch, r.client.haveTheBuck, r.client.nextAddr, r.msg)) =
      some (-1, [sampleCall 10 1], true, 100,
        sampleMessage 5 virNetMessageType.VIR_NET_CALL virNetMessageStatus.VIR_NET_OK) :=
  ⟨Or.inr rfl,
   by rw [(C17_send_on_closed_connection sampleIOEnv sampleClosingClient
        (sampleMessage 5 virNetMessageType.VIR_NET_CALL virNetMessageStatus.VIR_NET_OK)
        (Or.inr rfl)).1]; rfl⟩

/-- The descriptor loop of `virNetClientIOWriteMessage` runs to its end exactly
when the next sends all succeed; it never changes the mode or the flags of the
call. -/
theorem virNetClientIOWriteMessageFDs_spec (n : Nat) (st : virNetClientWriteState) :
    ((virNetClientIOWriteMessageFDs n st).1 = none ↔ virNetSocketSendsAll st.sock n = true) ∧
    (virNetClientIOWriteMessageFDs n st).2.thecall.mode = st.thecall.mode ∧
    (virNetClientIOWriteMessageFDs n st).2.thecall.expectReply = st.thecall.expectReply := by
  induction n generalizing st with
  | zero => simp [virNetClientIOWriteMessageFDs, virNetSocketSendsAll]
  | succ n ih =>
    cases hs : st.sock with
    | none =>
      simp [virNetClientIOWriteMessageFDs, virNetSocketSendFD, virNetSocketSendsAll, hs]
    | some sock =>
      cases ht : sock.txfds with
      | nil =>
        simp [virNetClientIOWriteMessageFDs, virNetSocketSendFD, virNetSocketSendsAll, hs, ht]
      | cons r rest =>
        cases r with
        | error =>
          simp [virNetClientIOWriteMessageFDs, virNetSocketSendFD, virNetSocketSendsAll, hs, ht]
        | wouldBlock =>
          simp [virNetClientIOWriteMessageFDs, virNetSocketSendFD, virNetSocketSendsAll, hs, ht]
        | ok u =>
          have h := ih
            { sock := some { sock with txfds := rest }
              trace := st.trace ++
                [virNetClientEvent.socketSendFD (st.thecall.msg.fds.getD st.thecall.msg.donefds 0)]
              thecall := { st.thecall with
                           msg := { st.thecall.msg with
                                    donefds := st.thecall.msg.donefds + 1 } } }
          simpa [virNetClientIOWriteMessageFDs, virNetSocketSendFD, virNetSocketSendsAll, hs, ht]
            using h

/-- The second half of `virNetClientIOWriteMessage`: the call leaves the sending
mode exactly when the buffer is written out and the remaining descriptors are all
sent, and then for the mode its `expectReply` flag asks for; while bytes remain no
descriptor is sent. -/
theorem virNetClientIOWriteMessageFinish_spec (ret : Int) (st : virNetClientWriteState)
    (hmode : st.thecall.mode = virNetClientMode.VIR_NET_CLIENT_MODE_WAIT_TX) :
    (((virNetClientIOWriteMessageFinish ret st).2.thecall.mode ≠
        virNetClientMode.VIR_NET_CLIENT_MODE_WAIT_TX) ↔
      (st.thecall.msg.bufferOffset = st.thecall.msg.bufferLength ∧
       virNetSocketSendsAll st.sock (st.thecall.msg.nfds - st.thecall.msg.donefds) = true)) ∧
    ((virNetClientIOWriteMessageFinish ret st).2.thecall.mode ≠
        virNetClientMode.VIR_NET_CLIENT_MODE_WAIT_TX →
      (virNetClientIOWriteMessageFinish ret st).2.thecall.mode =
        if st.thecall.expectReply then virNetClientMode.VIR_NET_CLIENT_MODE_WAIT_RX
        else virNetClientMode.VIR_NET_CLIENT_MODE_COMPLETE) ∧
    (st.thecall.msg.bufferOffset ≠ st.thecall.msg.bufferLength →
      virNetClientIOWriteMessageFinish ret st = (ret, st)) := by
  obtain ⟨hnone, hkeep, hflag⟩ := virNetClientIOWriteMessageFDs_spec
    (st.thecall.msg.nfds - st.thecall.msg.donefds) st
  unfold virNetClientIOWriteMessageFinish
  by_cases hoff : st.thecall.msg.bufferOffset = st.thecall.msg.bufferLength
  · simp only [hoff, if_true, true_and]
    cases hfds : virNetClientIOWriteMessageFDs
        (st.thecall.msg.nfds - st.thecall.msg.donefds) st with
    | mk rv st1 =>
      rw [hfds] at hnone hkeep hflag
      simp only at hnone hkeep hflag
      cases rv with
      | some v =>
        have hno : virNetSocketSendsAll st.sock
            (st.thecall.msg.nfds - st.thecall.msg.donefds) ≠ true := by
          intro h
          exact absurd (hnone.2 h) (by simp)
        simp [hkeep, hmode, hno]
      | none =>
        have hyes := hnone.1 rfl
        simp only [hyes, hflag]
        cases st.thecall.expectReply <;> simp
  · simp [hoff, hmode]

/-- Claim C15 (send completion). For every call in the sending mode and every
outcome of the socket write and of the descriptor sends: after
`virNetClientIOWriteMessage` the call has left the sending mode if and only if, with
the bytes this attempt wrote, the whole buffer is written and the sends of all its
descriptors from `donefds` up to `nfds` succeed; its mode is then the one awaiting
the reply when `expectReply` is true and COMPLETE when it is false. When bytes of
the buffer remain unwritten after the attempt, the socket is as the write left it
and the trace has no new descriptor. -/
theorem C15_send_completion (st : virNetClientWriteState)
    (hmode : st.thecall.mode = virNetClientMode.VIR_NET_CLIENT_MODE_WAIT_TX) :
    (((virNetClientIOWriteMessage st).2.thecall.mode ≠
        virNetClientMode.VIR_NET_CLIENT_MODE_WAIT_TX) ↔
      (st.thecall.msg.bufferOffset + virNetClientIOWriteCount st = st.thecall.msg.bufferLength ∧
       virNetSocketSendsAll (virNetClientIOSocketAfterWrite st)
         (st.thecall.msg.nfds - st.thecall.msg.donefds) = true)) ∧
    ((virNetClientIOWriteMessage st).2.thecall.mode ≠
        virNetClientMode.VIR_NET_CLIENT_MODE_WAIT_TX →
      (virNetClientIOWriteMessage st).2.thecall.mode =
        if st.thecall.expectReply then virNetClientMode.VIR_NET_CLIENT_MODE_WAIT_RX
        else virNetClientMode.VIR_NET_CLIENT_MODE_COMPLETE) ∧
    (st.thecall.msg.bufferOffset + virNetClientIOWriteCount st ≠ st.thecall.msg.bufferLength →
      (virNetClientIOWriteMessage st).2.sock = virNetClientIOSocketAfterWrite st ∧
      (virNetClientIOWriteMessage st).2.trace.filter virNetClientEvent.isSendFD =
        st.trace.filter virNetClientEvent.isSendFD) := by
  unfold virNetClientIOWriteMessage virNetClientIOWriteCount virNetClientIOSocketAfterWrite
  by_cases hlt : st.thecall.msg.bufferOffset < st.thecall.msg.bufferLength
  · simp only [hlt, if_true]
    generalize virNetSocketWrite st.sock
      ((st.thecall.msg.buffer.drop st.thecall.msg.bufferOffset).take
        (st.thecall.msg.bufferLength - st.thecall.msg.bufferOffset)) = w
    by_cases hw : w.1 ≤ 0
    · have hzero : w.1.toNat = 0 := Int.toNat_eq_zero.2 hw
      have hne : st.thecall.msg.bufferOffset + 0 ≠ st.thecall.msg.bufferLength := by omega
      have hne2 : st.thecall.msg.bufferOffset ≠ st.thecall.msg.bufferLength := by omega
      simp only [hw, if_true, hzero, hmode]
      simp [hne2]
    · simp only [hw, if_false]
      obtain ⟨h1, h2, h3⟩ := virNetClientIOWriteMessageFinish_spec w.1
        { sock := w.2.1
          trace := st.trace ++ [virNetClientEvent.socketWrite w.2.2]
          thecall := { st.thecall with
                       msg := { st.thecall.msg with
                                bufferOffset := st.thecall.msg.bufferOffset + w.1.toNat } } }
        hmode
      refine ⟨h1, h2, ?_⟩
      intro hrest
      rw [h3 hrest]
      simp [virNetClientEvent.isSendFD]
  · simp only [hlt, if_false, Nat.add_zero]
    obtain ⟨h1, h2, h3⟩ := virNetClientIOWriteMessageFinish_spec 0 st hmode
    refine ⟨h1, h2, ?_⟩
    intro hrest
    rw [h3 hrest]
    exact ⟨rfl, rfl⟩

/-- Witness of C15: the socket takes all 12 bytes of a call without descriptors
and without reply, and the call is COMPLETE. -/
theorem C15_send_completion_witness :
    sampleWriteState.thecall.mode = virNetClientMode.VIR_NET_CLIENT_MODE_WAIT_TX ∧
    (virNetClientIOWriteMessage sampleWriteState).2.thecall.mode =
      virNetClientMode.VIR_NET_CLIENT_MODE_COMPLETE :=
  ⟨rfl,
   (C15_send_completion sampleWriteState rfl).2.1
     ((C15_send_completion sampleWriteState rfl).1.2 ⟨rfl, rfl⟩)⟩

/-- The result of an output pass with the untouched rest of the queue put back
behind the calls it worked on. -/
theorem virNetClientIOHandleOutputLoop_stops (queue : List virNetClientCall)
    (sock : Option virNetSocket) (trace : List virNetClientEvent) (i : Nat)
    (hstill : ((virNetClientIOHandleOutputLoop queue sock trace).2.2.2[i]?).map
      (fun c => c.mode) = some virNetClientMode.VIR_NET_CLIENT_MODE_WAIT_TX) :
    virNetClientIOHandleOutputLoop queue sock trace =
      ((virNetClientIOHandleOutputLoop (queue.take (i + 1)) sock trace).1,
       (virNetClientIOHandleOutputLoop (queue.take (i + 1)) sock trace).2.1,
       (virNetClientIOHandleOutputLoop (queue.take (i + 1)) sock trace).2.2.1,
       (virNetClientIOHandleOutputLoop (queue.take (i + 1)) sock trace).2.2.2 ++
         queue.drop (i + 1)) := by
  induction queue generalizing sock trace i with
  | nil => simp [virNetClientIOHandleOutputLoop] at hstill
  | cons c next ih =>
    rw [List.take_succ_cons, List.drop_succ_cons]
    rw [virNetClientIOHandleOutputLoop] at hstill ⊢
    rw [virNetClientIOHandleOutputLoop]
    dsimp only at hstill ⊢
    by_cases hneg : (virNetClientIOWriteMessage
        { sock := sock, trace := trace, thecall := c }).1 < 0
    · simp only [hneg, if_true, List.cons_append, List.take_append_drop]
    · by_cases htx : (virNetClientIOWriteMessage
          { sock := sock, trace := trace, thecall := c }).2.thecall.mode =
            virNetClientMode.VIR_NET_CLIENT_MODE_WAIT_TX
      · simp only [hneg, if_false, htx, if_true, List.cons_append, List.take_append_drop]
      · simp only [hneg, if_false, htx] at hstill ⊢
        cases i with
        | zero =>
          simp only [List.getElem?_cons_zero, Option.map_some', Option.some.injEq] at hstill
          exact absurd hstill htx
        | succ k =>
          simp only [List.getElem?_cons_succ] at hstill
          have h := ih _ _ k hstill
          rw [h]
          simp only [List.cons_append]

/-- The same for the whole of `virNetClientIOHandleOutput`, which first skips the
calls that are not being sent. -/
theorem virNetClientIOHandleOutputFrom_stops (queue : List virNetClientCall)
    (sock : Option virNetSocket) (trace : List virNetClientEvent) (i : Nat)
    (hstill : ((virNetClientIOHandleOutputFrom queue sock trace).2.2.2[i]?).map
      (fun c => c.mode) = some virNetClientMode.VIR_NET_CLIENT_MODE_WAIT_TX) :
    virNetClientIOHandleOutputFrom queue sock trace =
      ((virNetClientIOHandleOutputFrom (queue.take (i + 1)) sock trace).1,
       (virNetClientIOHandleOutputFrom (queue.take (i + 1)) sock trace).2.1,
       (virNetClientIOHandleOutputFrom (queue.take (i + 1)) sock trace).2.2.1,
       (virNetClientIOHandleOutputFrom (queue.take (i + 1)) sock trace).2.2.2 ++
         queue.drop (i + 1)) := by
  induction queue generalizing i with
  | nil => simp [virNetClientIOHandleOutputFrom] at hstill
  | cons c next ih =>
    rw [List.take_succ_cons, List.drop_succ_cons]
    by_cases htx : c.mode = virNetClientMode.VIR_NET_CLIENT_MODE_WAIT_TX
    · have hfrom : ∀ l, virNetClientIOHandleOutputFrom (c :: l) sock trace =
          virNetClientIOHandleOutputLoop (c :: l) sock trace := by
        intro l
        rw [virNetClientIOHandleOutputFrom]
        simp [htx]
      rw [hfrom] at hstill ⊢
      rw [hfrom]
      have h := virNetClientIOHandleOutputLoop_stops (c :: next) sock trace i hstill
      rw [List.take_succ_cons, List.drop_succ_cons] at h
      exact h
    · have hfrom : ∀ l, virNetClientIOHandleOutputFrom (c :: l) sock trace =
          ((virNetClientIOHandleOutputFrom l sock trace).1,
           (virNetClientIOHandleOutputFrom l sock trace).2.1,
           (virNetClientIOHandleOutputFrom l sock trace).2.2.1,
           c :: (virNetClientIOHandleOutputFrom l sock trace).2.2.2) := by
        intro l
        rw [virNetClientIOHandleOutputFrom]
        simp [htx]
      rw [hfrom] at hstill ⊢
      rw [hfrom]
      cases i with
      | zero =>
        simp only [List.getElem?_cons_zero, Option.map_some', Option.some.injEq] at hstill
        exact absurd hstill htx
      | succ k =>
        simp only [List.getElem?_cons_succ] at hstill
        have h := ih k hstill
        rw [h]
        simp only [List.cons_append]

/-- An output pass keeps the number of queued calls. -/
theorem virNetClientIOHandleOutputLoop_length (queue : List virNetClientCall)
    (sock : Option virNetSocket) (trace : List virNetClientEvent) :
    (virNetClientIOHandleOutputLoop queue sock trace).2.2.2.length = queue.length := by
  induction queue generalizing sock trace with
  | nil => rfl
  | cons c next ih =>
    rw [virNetClientIOHandleOutputLoop]
    dsimp only
    split_ifs <;> simp [ih]

/-- An output pass keeps the number of queued calls. -/
theorem virNetClientIOHandleOutputFrom_length (queue : List virNetClientCall)
    (sock : Option virNetSocket) (trace : List virNetClientEvent) :
    (virNetClientIOHandleOutputFrom queue sock trace).2.2.2.length = queue.length := by
  induction queue with
  | nil => rfl
  | cons c next ih =>
    rw [virNetClientIOHandleOutputFrom]
    dsimp only
    split_ifs
    · simp [ih]
    · exact virNetClientIOHandleOutputLoop_length _ _ _

/-- Claim C14 (FIFO send order). Whenever the call at position `i` of the queue is
in the sending mode after a pass of `virNetClientIOHandleOutput`, the pass has
stopped there: its return value, the socket, the trace and the calls up to `i` are
those of the pass over the first `i + 1` calls alone, and every call behind
position `i` is exactly as it was, with nothing written for it. So for calls A
before B that are both being sent, bytes or descriptors of B go out only in a pass
in which A has left the sending mode, that is, has been sent completely. -/
theorem C14_fifo_send_order {X : virNetCollab} (client : virNetClient X) (i : Nat)
    (hstill : ((virNetClientIOHandleOutput client).2.waitDispatch[i]?).map (fun c => c.mode) =
      some virNetClientMode.VIR_NET_CLIENT_MODE_WAIT_TX) :
    virNetClientIOHandleOutput client =
      ((virNetClientIOHandleOutput
          { client with waitDispatch := client.waitDispatch.take (i + 1) }).1,
       { (virNetClientIOHandleOutput
            { client with waitDispatch := client.waitDispatch.take (i + 1) }).2 with
         waitDispatch :=
           (virNetClientIOHandleOutput
             { client with waitDispatch := client.waitDispatch.take (i + 1) }).2.waitDispatch ++
           client.waitDispatch.drop (i + 1) }) ∧
    ∀ j, i < j →
      (virNetClientIOHandleOutput client).2.waitDispatch[j]? = client.waitDispatch[j]? := by
  have hstop := virNetClientIOHandleOutputFrom_stops client.waitDispatch client.sock
    client.trace i hstill
  have hlen := virNetClientIOHandleOutputFrom_length (client.waitDispatch.take (i + 1))
    client.sock client.trace
  have hsome : i < client.waitDispatch.length := by
    have h1 := virNetClientIOHandleOutputFrom_length client.waitDispatch client.sock client.trace
    by_contra hge
    have hnone : (virNetClientIOHandleOutput client).2.waitDispatch[i]? = none := by
      apply List.getElem?_eq_none
      show (virNetClientIOHandleOutputFrom client.waitDispatch client.sock
        client.trace).2.2.2.length ≤ i
      omega
    rw [hnone] at hstill
    simp at hstill
  constructor
  · show (_, _) = (_, _)
    unfold virNetClientIOHandleOutput
    dsimp only
    rw [hstop]
  · intro j hj
    show (virNetClientIOHandleOutputFrom client.waitDispatch client.sock
      client.trace).2.2.2[j]? = _
    rw [hstop]
    dsimp only
    rw [List.length_take, Nat.min_eq_left (by omega)] at hlen
    rw [List.getElem?_append_right (by omega), hlen, List.getElem?_drop]
    congr 1
    omega

/-- Witness of C14: the socket takes five of the twelve bytes of the first call;
the first call stays in the sending mode and the second call is untouched. -/
theorem C14_fifo_send_order_witness :
    ((virNetClientIOHandleOutput sampleSendingClient).2.waitDispatch[0]?).map
        (fun c => c.mode) = some virNetClientMode.VIR_NET_CLIENT_MODE_WAIT_TX ∧
    (virNetClientIOHandleOutput sampleSendingClient).2.waitDispatch[1]? =
      sampleSendingClient.waitDispatch[1]? :=
  ⟨rfl, (C14_fifo_send_order sampleSendingClient 0 rfl).2 1 (by decide)⟩

/-- Claim C18, as stated, fails: two whole event frames of a registered program
are available on a socket without cached data. One invocation of
`virNetClientIOHandleInput` dispatches the first frame only and returns 0; the
second frame is still on the socket, unread, although no read would have
blocked. -/
theorem C18_input_returns_after_first_frame :
    (virNetClientIOHandleInput 8 sampleTwoFrames).map
      (fun r => (r.1, r.2.trace, r.2.sock.map (fun s => s.rx))) =
      some (0,
        [virNetClientEvent.programDispatch 0 sampleFirstFrame],
        some [virNetSocketResult.ok [0, 0, 0, 12, 1, 1, 7, 2, 9, 0, 204, 221]]) := by
  rfl

/-- The router does not touch the socket. -/
theorem virNetClientCallDispatch_sock {X : virNetCollab} (client : virNetClient X) :
    (virNetClientCallDispatch client).2.sock = client.sock := by
  have hreply : (virNetClientCallDispatchReply client).2.sock = client.sock := by
    unfold virNetClientCallDispatchReply
    split <;> rfl
  have hmessage : (virNetClientCallDispatchMessage client).2.sock = client.sock := by
    unfold virNetClientCallDispatchMessage
    split <;> rfl
  have hstream : (virNetClientCallDispatchStream client).2.sock = client.sock := by
    unfold virNetClientCallDispatchStream
    repeat' split
    all_goals rfl
  have hqueue : ∀ msg, (virNetClientQueueNonBlocking client msg).2.sock = client.sock := by
    intro msg
    unfold virNetClientQueueNonBlocking
    split <;> rfl
  unfold virNetClientCallDispatch
  split
  · rfl
  · split
    · rfl
    · exact hqueue _
  · split
    · exact hreply
    · exact hreply
    · exact hmessage
    · exact hstream
    · rfl

/-- The part of the input loop that follows a complete frame is the dispatch on the
connection that `virNetClientIOAtDispatch` describes. -/
theorem virNetClientIOHandleInputFrame_atDispatch {X : virNetCollab} (client : virNetClient X)
    (hmsg : virNetMessage) (c1 : virNetClient X)
    (hdec : X.virNetMessageDecodeHeader client.msg = some hmsg)
    (hready : virNetClientIOAtDispatch client hmsg = some c1) :
    virNetClientIOHandleInputFrame client = virNetClientIOHandleInputDispatch c1 := by
  unfold virNetClientIOHandleInputFrame
  unfold virNetClientIOAtDispatch at hready
  simp only [hdec]
  by_cases htype : hmsg.header.type = virNetMessageType.VIR_NET_REPLY_WITH_FDS
  · simp only [htype, if_true] at hready ⊢
    cases hnum : X.virNetMessageDecodeNumFDs hmsg with
    | none => simp [hnum] at hready
    | some nmsg =>
      simp only [hnum] at hready ⊢
      by_cases hbad : (virNetClientIOHandleInputFDs (nmsg.nfds - nmsg.donefds)
            client.sock nmsg).1 = true ∨
          (virNetClientIOHandleInputFDs (nmsg.nfds - nmsg.donefds) client.sock nmsg).2.2.donefds <
            (virNetClientIOHandleInputFDs (nmsg.nfds - nmsg.donefds) client.sock nmsg).2.2.nfds
      · simp [hbad] at hready
      · simp only [hbad, if_false, Option.some.injEq] at hready
        rw [not_or] at hbad
        simp only [hbad.1, hbad.2, if_false, Bool.false_eq_true]
        rw [hready]
  · simp only [htype, if_false, Option.some.injEq] at hready ⊢
    rw [hready]

/-- Storing descriptors advances `donefds` by their number and leaves the other
fields of the message alone. -/
theorem virNetMessageStoreFDs_spec (msg : virNetMessage) (got : List Int) :
    (virNetMessageStoreFDs msg got).donefds = msg.donefds + got.length ∧
    (virNetMessageStoreFDs msg got).nfds = msg.nfds ∧
    (virNetMessageStoreFDs msg got).bufferLength = msg.bufferLength ∧
    (virNetMessageStoreFDs msg got).bufferOffset = msg.bufferOffset ∧
    (virNetMessageStoreFDs msg got).header = msg.header ∧
    (virNetMessageStoreFDs msg got).buffer = msg.buffer := by
  induction got generalizing msg with
  | nil => exact ⟨rfl, rfl, rfl, rfl, rfl, rfl⟩
  | cons fd got ih =>
    obtain ⟨h1, h2, h3, h4, h5, h6⟩ :=
      ih { msg with fds := msg.fds.set msg.donefds fd, donefds := msg.donefds + 1 }
    refine ⟨?_, h2, h3, h4, h5, h6⟩
    show (virNetMessageStoreFDs
      { msg with fds := msg.fds.set msg.donefds fd, donefds := msg.donefds + 1 } got).donefds = _
    rw [h1]
    simp only [List.length_cons]
    omega

/-- The descriptor loop of the input pass stores the descriptors that arrive. -/
theorem virNetClientIOHandleInputFDs_receives (got : List Int)
    (rest : List (virNetSocketResult Int)) (n : Nat) (sk : virNetSocket) (msg : virNetMessage)
    (hscript : sk.rxfds = got.map virNetSocketResult.ok ++ rest) (hle : got.length ≤ n) :
    virNetClientIOHandleInputFDs n (some sk) msg =
      virNetClientIOHandleInputFDs (n - got.length) (some { sk with rxfds := rest })
        (virNetMessageStoreFDs msg got) := by
  induction got generalizing n sk msg with
  | nil =>
    simp only [List.map_nil, List.nil_append] at hscript
    simp only [List.length_nil, Nat.sub_zero]
    rw [← hscript]
    rfl
  | cons fd got ih =>
    obtain ⟨m, rfl⟩ : ∃ m, n = m + 1 := ⟨n - 1, by simp only [List.length_cons] at hle; omega⟩
    simp only [List.map_cons, List.cons_append] at hscript
    simp only [List.length_cons] at hle
    have hrecv : virNetSocketRecvFD (some sk) =
        (1, some { sk with rxfds := got.map virNetSocketResult.ok ++ rest }, some fd) := by
      simp only [virNetSocketRecvFD, hscript]
    rw [virNetClientIOHandleInputFDs, hrecv]
    simp only [show ¬ ((1 : Int) < 0) from by decide, show ¬ ((1 : Int) = 0) from by decide,
      if_false, Option.getD_some]
    rw [ih m { sk with rxfds := got.map virNetSocketResult.ok ++ rest } _ rfl (by omega)]
    simp only [List.length_cons, Nat.add_sub_add_right]
    rfl

/-- The descriptor loop of the input pass breaks when a receipt would block. -/
theorem virNetClientIOHandleInputFDs_blocks (rest : List (virNetSocketResult Int)) (n : Nat)
    (sk : virNetSocket) (msg : virNetMessage) (hn : 0 < n)
    (hblock : rest = [] ∨ ∃ r, rest = virNetSocketResult.wouldBlock :: r) :
    virNetClientIOHandleInputFDs n (some { sk with rxfds := rest }) msg =
      (false, some { sk with rxfds := rest.tail }, msg) := by
  obtain ⟨m, rfl⟩ : ∃ m, n = m + 1 := ⟨n - 1, by omega⟩
  rcases hblock with h | ⟨r, h⟩
  · subst h
    simp [virNetClientIOHandleInputFDs, virNetSocketRecvFD]
  · subst h
    simp [virNetClientIOHandleInputFDs, virNetSocketRecvFD]

/-- The frame step of the input pass for a reply with descriptors of which some
arrive and the next would block: it returns 0 without dispatching, with the
descriptors stored and `bufferOffset` put back to `bufferLength`. -/
theorem virNetClientIOHandleInputFrame_blocks {X : virNetCollab} (c : virNetClient X)
    (hmsg nmsg : virNetMessage) (sk : virNetSocket) (got : List Int)
    (rest : List (virNetSocketResult Int))
    (hdec : X.virNetMessageDecodeHeader c.msg = some hmsg)
    (htype : hmsg.header.type = virNetMessageType.VIR_NET_REPLY_WITH_FDS)
    (hnum : X.virNetMessageDecodeNumFDs hmsg = some nmsg)
    (hsock : c.sock = some sk)
    (hscript : sk.rxfds = got.map virNetSocketResult.ok ++ rest)
    (hless : got.length < nmsg.nfds - nmsg.donefds)
    (hblock : rest = [] ∨ ∃ r, rest = virNetSocketResult.wouldBlock :: r) :
    virNetClientIOHandleInputFrame c =
      virNetClientLoop.done 0
        { c with
          sock := some { sk with rxfds := rest.tail }
          msg := { virNetMessageStoreFDs nmsg got with bufferOffset := nmsg.bufferLength } } := by
  obtain ⟨hdone, hnfds, hlen, _, _, _⟩ := virNetMessageStoreFDs_spec nmsg got
  have hloop : virNetClientIOHandleInputFDs (nmsg.nfds - nmsg.donefds) c.sock nmsg =
      (false, some { sk with rxfds := rest.tail }, virNetMessageStoreFDs nmsg got) := by
    rw [hsock, virNetClientIOHandleInputFDs_receives got rest _ sk nmsg hscript (le_of_lt hless),
      virNetClientIOHandleInputFDs_blocks rest _ sk _ (by omega) hblock]
  have hmissing : (virNetMessageStoreFDs nmsg got).donefds <
      (virNetMessageStoreFDs nmsg got).nfds := by
    rw [hdone, hnfds]
    omega
  unfold virNetClientIOHandleInputFrame
  simp only [hdec, htype, if_true, hnum, hloop, Bool.false_eq_true, if_false, hmissing, hlen]

/-- The frame step of the input pass for a reply with descriptors of which all
that were missing arrive: the frame is dispatched with the descriptors stored. -/
theorem virNetClientIOHandleInputFrame_complete {X : virNetCollab} (c : virNetClient X)
    (hmsg nmsg : virNetMessage) (sk : virNetSocket) (got : List Int)
    (rest : List (virNetSocketResult Int))
    (hdec : X.virNetMessageDecodeHeader c.msg = some hmsg)
    (htype : hmsg.header.type = virNetMessageType.VIR_NET_REPLY_WITH_FDS)
    (hnum : X.virNetMessageDecodeNumFDs hmsg = some nmsg)
    (hsock : c.sock = some sk)
    (hscript : sk.rxfds = got.map virNetSocketResult.ok ++ rest)
    (hall : got.length = nmsg.nfds - nmsg.donefds) :
    virNetClientIOHandleInputFrame c =
      virNetClientIOHandleInputDispatch
        { c with
          sock := some { sk with rxfds := rest }
          msg := virNetMessageStoreFDs nmsg got } := by
  obtain ⟨hdone, hnfds, _, _, _, _⟩ := virNetMessageStoreFDs_spec nmsg got
  have hloop : virNetClientIOHandleInputFDs (nmsg.nfds - nmsg.donefds) c.sock nmsg =
      (false, some { sk with rxfds := rest }, virNetMessageStoreFDs nmsg got) := by
    rw [hsock, virNetClientIOHandleInputFDs_receives got rest _ sk nmsg hscript (le_of_eq hall),
      hall, Nat.sub_self]
    rfl
  have hnone : ¬ (virNetMessageStoreFDs nmsg got).donefds <
      (virNetMessageStoreFDs nmsg got).nfds := by
    rw [hdone, hnfds]
    omega
  unfold virNetClientIOHandleInputFrame
  simp only [hdec, htype, if_true, hnum, hloop, Bool.false_eq_true, if_false, hnone]

/-- The function `virNetClientCloseLocked` leaves no socket, and leaves the queue
and the buck as they are. -/
theorem virNetClientCloseLocked_fields {X : virNetCollab} (client : virNetClient X) :
    (virNetClientCloseLocked client).sock = none ∧
    (virNetClientCloseLocked client).waitDispatch = client.waitDispatch ∧
    (virNetClientCloseLocked client).haveTheBuck = client.haveTheBuck := by
  unfold virNetClientCloseLocked
  split
  · rename_i h
    exact ⟨h, rfl, rfl⟩
  · exact ⟨rfl, rfl, rfl⟩

/-- The sweep of the completed calls as a filter: the calls kept, and the events
raised for the calls removed. -/
theorem virNetClientCallRemovePredicate_removeDone (thiscall : Option Nat) :
    ∀ (queue : List virNetClientCall) (trace : List virNetClientEvent),
      (virNetClientCallRemovePredicate (virNetClientIOEventLoopRemoveDone thiscall)
          queue trace).1 = queue.filter (fun call => !virNetClientCallSwept thiscall call) ∧
      ∃ events : List virNetClientEvent,
        (virNetClientCallRemovePredicate (virNetClientIOEventLoopRemoveDone thiscall)
          queue trace).2 = trace ++ events ∧
        events.filter virNetClientEvent.isCondSignal =
          ((queue.filter (virNetClientCallSwept thiscall)).filter
            (fun call => call.haveThread)).map (fun call => virNetClientEvent.condSignal call.addr) ∧
        events.filter virNetClientEvent.isCallFree =
          ((queue.filter (virNetClientCallSwept thiscall)).filter
            (fun call => !call.haveThread)).map (fun call => virNetClientEvent.callFree call.addr)
  | [], trace => ⟨rfl, [], by simp [virNetClientCallRemovePredicate], rfl, rfl⟩
  | c :: next, trace => by
    by_cases hs : virNetClientCallSwept thiscall c = true
    · have hs2 := hs
      unfold virNetClientCallSwept at hs2
      simp only [Bool.and_eq_true, decide_eq_true_eq] at hs2
      by_cases ht : c.haveThread = true
      · have hp : virNetClientIOEventLoopRemoveDone thiscall c trace =
            (true, trace ++ [virNetClientEvent.condSignal c.addr]) := by
          unfold virNetClientIOEventLoopRemoveDone
          simp [hs2.1, hs2.2, ht]
        obtain ⟨hq, events, he, h1, h2⟩ :=
          virNetClientCallRemovePredicate_removeDone thiscall next
            (trace ++ [virNetClientEvent.condSignal c.addr])
        unfold virNetClientCallRemovePredicate
        simp only [hp, if_true]
        refine ⟨by simp [hq, hs], virNetClientEvent.condSignal c.addr :: events,
          by simp [he], ?_, ?_⟩
        · simp [hs, ht, h1, virNetClientEvent.isCondSignal]
        · simp [hs, ht, h2, virNetClientEvent.isCallFree]
      · have ht2 : c.haveThread = false := by simpa using ht
        by_cases hr : c.expectReply = true
        · have hp : virNetClientIOEventLoopRemoveDone thiscall c trace =
              (true, trace ++ [virNetClientEvent.warn, virNetClientEvent.callFree c.addr]) := by
            unfold virNetClientIOEventLoopRemoveDone
            simp [hs2.1, hs2.2, ht2, hr]
          obtain ⟨hq, events, he, h1, h2⟩ :=
            virNetClientCallRemovePredicate_removeDone thiscall next
              (trace ++ [virNetClientEvent.warn, virNetClientEvent.callFree c.addr])
          unfold virNetClientCallRemovePredicate
          simp only [hp, if_true]
          refine ⟨by simp [hq, hs],
            virNetClientEvent.warn :: virNetClientEvent.callFree c.addr :: events,
            by simp [he], ?_, ?_⟩
          · simp [hs, ht2, h1, virNetClientEvent.isCondSignal]
          · simp [hs, ht2, h2, virNetClientEvent.isCallFree]
        · have hr2 : c.expectReply = false := by simpa using hr
          have hp : virNetClientIOEventLoopRemoveDone thiscall c trace =
              (true, trace ++ [virNetClientEvent.callFree c.addr]) := by
            unfold virNetClientIOEventLoopRemoveDone
            simp [hs2.1, hs2.2, ht2, hr2]
          obtain ⟨hq, events, he, h1, h2⟩ :=
            virNetClientCallRemovePredicate_removeDone thiscall next
              (trace ++ [virNetClientEvent.callFree c.addr])
          unfold virNetClientCallRemovePredicate
          simp only [hp, if_true]
          refine ⟨by simp [hq, hs], virNetClientEvent.callFree c.addr :: events,
            by simp [he], ?_, ?_⟩
          · simp [hs, ht2, h1, virNetClientEvent.isCondSignal]
          · simp [hs, ht2, h2, virNetClientEvent.isCallFree]
    · have hs3 : virNetClientCallSwept thiscall c = false := by simpa using hs
      have hp : virNetClientIOEventLoopRemoveDone thiscall c trace = (false, trace) := by
        unfold virNetClientIOEventLoopRemoveDone
        unfold virNetClientCallSwept at hs3
        by_cases ha : some c.addr = thiscall
        · simp [ha]
        · have hm : c.mode ≠ virNetClientMode.VIR_NET_CLIENT_MODE_COMPLETE := by
            simpa [ha] using hs3
          simp [ha, hm]
      obtain ⟨hq, events, he, h1, h2⟩ :=
        virNetClientCallRemovePredicate_removeDone thiscall next trace
      unfold virNetClientCallRemovePredicate
      simp only [hp, Bool.false_eq_true, if_false]
      exact ⟨by simp [hq, hs3], events, he, by simp [hs3, h1], by simp [hs3, h2]⟩

/-- Claim C24 (completed-call sweep). For every queue and every own call (a
pointer, possibly NULL): after `virNetClientCallRemovePredicate` with
`virNetClientIOEventLoopRemoveDone` the queue consists, in the original order, of
exactly the calls that are the own call or are not COMPLETE; the events raised are
appended to the trace, and among them the completion signals are those of the
removed calls with a thread, in queue order, and the calls freed are the removed
calls without a thread, in queue order. -/
theorem C24_completed_call_sweep (thiscall : Option Nat) (queue : List virNetClientCall)
    (trace : List virNetClientEvent) :
    (virNetClientCallRemovePredicate (virNetClientIOEventLoopRemoveDone thiscall)
        queue trace).1 =
      queue.filter (fun call => decide (some call.addr = thiscall) ||
        decide (call.mode ≠ virNetClientMode.VIR_NET_CLIENT_MODE_COMPLETE)) ∧
    ∃ events : List virNetClientEvent,
      (virNetClientCallRemovePredicate (virNetClientIOEventLoopRemoveDone thiscall)
        queue trace).2 = trace ++ events ∧
      events.filter virNetClientEvent.isCondSignal =
        ((queue.filter (fun call => decide (some call.addr ≠ thiscall) &&
            decide (call.mode = virNetClientMode.VIR_NET_CLIENT_MODE_COMPLETE))).filter
          (fun call => call.haveThread)).map (fun call => virNetClientEvent.condSignal call.addr) ∧
      events.filter virNetClientEvent.isCallFree =
        ((queue.filter (fun call => decide (some call.addr ≠ thiscall) &&
            decide (call.mode = virNetClientMode.VIR_NET_CLIENT_MODE_COMPLETE))).filter
          (fun call => !call.haveThread)).map (fun call => virNetClientEvent.callFree call.addr) := by
  obtain ⟨hq, events, he, h1, h2⟩ :=
    virNetClientCallRemovePredicate_removeDone thiscall queue trace
  refine ⟨?_, events, he, h1, h2⟩
  rw [hq]
  apply List.filter_congr
  intro call _
  unfold virNetClientCallSwept
  by_cases ha : some call.addr = thiscall <;>
    by_cases hm : call.mode = virNetClientMode.VIR_NET_CLIENT_MODE_COMPLETE <;> simp [ha, hm]

/-- The purge of the final close appends its events to the trace and signals
nobody. -/
theorem virNetClientCallRemovePredicate_removeAll_trace (thiscall : Option Nat) :
    ∀ (queue : List virNetClientCall) (trace : List virNetClientEvent),
      ∃ events : List virNetClientEvent,
        (virNetClientCallRemovePredicate (virNetClientIOEventLoopRemoveAll thiscall)
          queue trace).2 = trace ++ events ∧
        events.filter virNetClientEvent.isCondSignal = []
  | [], trace => ⟨[], by simp [virNetClientCallRemovePredicate], rfl⟩
  | c :: next, trace => by
    unfold virNetClientCallRemovePredicate
    by_cases ha : some c.addr = thiscall
    · obtain ⟨events, he, h1⟩ :=
        virNetClientCallRemovePredicate_removeAll_trace thiscall next trace
      simp only [virNetClientIOEventLoopRemoveAll, ha, if_true, Bool.false_eq_true, if_false]
      exact ⟨events, he, h1⟩
    · obtain ⟨events, he, h1⟩ :=
        virNetClientCallRemovePredicate_removeAll_trace thiscall next
          (trace ++ [virNetClientEvent.callFree c.addr])
      simp only [virNetClientIOEventLoopRemoveAll, ha, if_false, if_true]
      exact ⟨virNetClientEvent.callFree c.addr :: events, by simp [he],
        by simp [h1, virNetClientEvent.isCondSignal]⟩

/-- The function `virNetClientCloseLocked` appends its events to the trace and
signals nobody. -/
theorem virNetClientCloseLocked_trace {X : virNetCollab} (client : virNetClient X) :
    ∃ events : List virNetClientEvent,
      (virNetClientCloseLocked client).trace = client.trace ++ events ∧
      events.filter virNetClientEvent.isCondSignal = [] := by
  unfold virNetClientCloseLocked
  split
  · exact ⟨[], by simp, rfl⟩
  · refine ⟨(if client.keepalive.isSome then [virNetClientEvent.keepAliveStop] else []) ++
      (if client.closeCb then [virNetClientEvent.closeCb client.closeReason] else []),
      by simp, ?_⟩
    cases client.keepalive.isSome <;> cases client.closeCb <;>
      simp [virNetClientEvent.isCondSignal]

/-- Claim C25 (passing the buck). For every connection and own call (a pointer,
possibly NULL): if the queue holds a call other than the own call with a thread
waiting, `virNetClientIOEventLoopPassTheBuck` signals the first such call in queue
order and nothing else happens: `haveTheBuck` stays as it is, the queue and the
socket are untouched, even when `wantClose` is set. If the queue holds no such
call, `haveTheBuck` becomes false and nobody is signalled. -/
theorem C25_passing_the_buck {X : virNetCollab} (client : virNetClient X)
    (thiscall : Option Nat) :
    (∀ (before after : List virNetClientCall) (tmp : virNetClientCall),
      client.waitDispatch = before ++ tmp :: after →
      (∀ call ∈ before, virNetClientCallWaiting thiscall call = false) →
      virNetClientCallWaiting thiscall tmp = true →
      virNetClientIOEventLoopPassTheBuck client thiscall =
        { client with trace := client.trace ++ [virNetClientEvent.condSignal tmp.addr] }) ∧
    ((∀ call ∈ client.waitDispatch, virNetClientCallWaiting thiscall call = false) →
      (virNetClientIOEventLoopPassTheBuck client thiscall).haveTheBuck = false ∧
      ∃ events : List virNetClientEvent,
        (virNetClientIOEventLoopPassTheBuck client thiscall).trace = client.trace ++ events ∧
        events.filter virNetClientEvent.isCondSignal = []) := by
  constructor
  · intro before after tmp hq hbefore htmp
    have hfind : client.waitDispatch.find?
        (fun tmp => decide (some tmp.addr ≠ thiscall) && tmp.haveThread) = some tmp := by
      rw [hq]
      exact find?_append_first _ before after tmp hbefore htmp
    unfold virNetClientIOEventLoopPassTheBuck
    rw [hfind]
  · intro hnone
    have hfind : client.waitDispatch.find?
        (fun tmp => decide (some tmp.addr ≠ thiscall) && tmp.haveThread) = none :=
      find?_of_forall_not _ _ hnone
    unfold virNetClientIOEventLoopPassTheBuck
    rw [hfind]
    by_cases hw : client.wantClose = true
    · rw [if_pos hw]
      obtain ⟨e1, h1, hn1⟩ := virNetClientCloseLocked_trace { client with haveTheBuck := false }
      obtain ⟨e2, h2, hn2⟩ := virNetClientCallRemovePredicate_removeAll_trace thiscall
        (virNetClientCloseLocked { client with haveTheBuck := false }).waitDispatch
        (virNetClientCloseLocked { client with haveTheBuck := false }).trace
      refine ⟨(virNetClientCloseLocked_fields { client with haveTheBuck := false }).2.2, e1 ++ e2,
        ?_, by simp [hn1, hn2]⟩
      show (virNetClientCallRemovePredicate (virNetClientIOEventLoopRemoveAll thiscall)
        (virNetClientCloseLocked { client with haveTheBuck := false }).waitDispatch
        (virNetClientCloseLocked { client with haveTheBuck := false }).trace).2 = _
      rw [h2, h1, List.append_assoc]
    · rw [if_neg hw]
      exact ⟨rfl, [], by simp, rfl⟩

/-- Witness of C25: on a connection marked for close with the calls 10 and 11
queued, the thread of call 10 passes the buck to call 11 and nothing else changes;
with call 10 alone in the queue the buck is released. -/
theorem C25_passing_the_buck_witness :
    virNetClientIOEventLoopPassTheBuck sampleBroadcastClient (some 10) =
      { sampleBroadcastClient with trace := [virNetClientEvent.condSignal 11] } ∧
    (virNetClientIOEventLoopPassTheBuck sampleClosingClient (some 10)).haveTheBuck = false :=
  ⟨(C25_passing_the_buck sampleBroadcastClient (some 10)).1 [sampleCall 10 1] []
      (sampleCall 11 2) rfl (by decide) (by decide),
   ((C25_passing_the_buck sampleClosingClient (some 10)).2 (by decide)).1⟩

/-- The events of handing descriptors over are all of that kind. -/
theorem virNetMessageSentFDs_filter (fds : List Int) (start n : Nat) :
    (virNetMessageSentFDs fds start n).filter virNetClientEvent.isSendFD =
      virNetMessageSentFDs fds start n := by
  unfold virNetMessageSentFDs
  rw [List.filter_eq_self]
  intro e he
  rw [List.mem_map] at he
  obtain ⟨i, _, hi⟩ := he
  rw [← hi]
  rfl

/-- Handing over one descriptor and then the next `n`. -/
theorem virNetMessageSentFDs_cons (fds : List Int) (start n : Nat) :
    virNetClientEvent.socketSendFD (fds.getD start 0) :: virNetMessageSentFDs fds (start + 1) n =
      virNetMessageSentFDs fds start (n + 1) := by
  simp [virNetMessageSentFDs, List.range'_succ]

/-- Handing over `m` descriptors and then the next `n`. -/
theorem virNetMessageSentFDs_append (fds : List Int) (start m n : Nat) :
    virNetMessageSentFDs fds start m ++ virNetMessageSentFDs fds (start + m) n =
      virNetMessageSentFDs fds start (m + n) := by
  unfold virNetMessageSentFDs
  rw [← List.map_append, List.range'_append_1, Nat.add_comm n m]

/-- The descriptor loop of `virNetClientIOWriteMessage`: it hands over the
descriptors from `donefds` on, in order, and counts each one it has handed over in
`donefds`; at its normal end all `n` of them are done. -/
theorem virNetClientIOWriteMessageFDs_sent (n : Nat) (st : virNetClientWriteState) :
    (virNetClientIOWriteMessageFDs n st).2.thecall.msg.fds = st.thecall.msg.fds ∧
    (virNetClientIOWriteMessageFDs n st).2.thecall.msg.nfds = st.thecall.msg.nfds ∧
    st.thecall.msg.donefds ≤ (virNetClientIOWriteMessageFDs n st).2.thecall.msg.donefds ∧
    (virNetClientIOWriteMessageFDs n st).2.thecall.msg.donefds ≤ st.thecall.msg.donefds + n ∧
    ((virNetClientIOWriteMessageFDs n st).1 = none →
      (virNetClientIOWriteMessageFDs n st).2.thecall.msg.donefds = st.thecall.msg.donefds + n) ∧
    (virNetClientIOWriteMessageFDs n st).2.trace =
      st.trace ++ virNetMessageSentFDs st.thecall.msg.fds st.thecall.msg.donefds
        ((virNetClientIOWriteMessageFDs n st).2.thecall.msg.donefds - st.thecall.msg.donefds) := by
  induction n generalizing st with
  | zero => simp [virNetClientIOWriteMessageFDs, virNetMessageSentFDs]
  | succ n ih =>
    unfold virNetClientIOWriteMessageFDs
    split_ifs with h1 h2
    · simp [virNetMessageSentFDs]
    · simp [virNetMessageSentFDs]
    · obtain ⟨hf, hn, hle, hub, hnone, htr⟩ := ih
        { sock := (virNetSocketSendFD st.sock).2
          trace := st.trace ++
            [virNetClientEvent.socketSendFD (st.thecall.msg.fds.getD st.thecall.msg.donefds 0)]
          thecall := { st.thecall with
                       msg := { st.thecall.msg with donefds := st.thecall.msg.donefds + 1 } } }
      simp only at hf hn hle hub hnone htr
      dsimp only
      refine ⟨hf, hn, by omega, by omega, fun h => by rw [hnone h]; omega, ?_⟩
      rw [htr, List.append_assoc]
      congr 1
      have hcount : (virNetClientIOWriteMessageFDs n
            { sock := (virNetSocketSendFD st.sock).2
              trace := st.trace ++
                [virNetClientEvent.socketSendFD
                  (st.thecall.msg.fds.getD st.thecall.msg.donefds 0)]
              thecall := { st.thecall with
                           msg := { st.thecall.msg with
                                    donefds := st.thecall.msg.donefds + 1 } } }).2.thecall.msg.donefds -
          st.thecall.msg.donefds =
          ((virNetClientIOWriteMessageFDs n
            { sock := (virNetSocketSendFD st.sock).2
              trace := st.trace ++
                [virNetClientEvent.socketSendFD
                  (st.thecall.msg.fds.getD st.thecall.msg.donefds 0)]
              thecall := { st.thecall with
                           msg := { st.thecall.msg with
                                    donefds := st.thecall.msg.donefds + 1 } } }).2.thecall.msg.donefds -
            (st.thecall.msg.donefds + 1)) + 1 := by
        dsimp only
        omega
      rw [hcount, ← virNetMessageSentFDs_cons]
      rfl

/-- Attempts that have done nothing have made the progress of no descriptor. -/
theorem virNetClientIOWriteProgress_refl (st r : virNetClientWriteState)
    (hmode : r.thecall.mode = virNetClientMode.VIR_NET_CLIENT_MODE_WAIT_TX)
    (hfds : r.thecall.msg.fds = st.thecall.msg.fds)
    (hnfds : r.thecall.msg.nfds = st.thecall.msg.nfds)
    (hdone : r.thecall.msg.donefds = st.thecall.msg.donefds)
    (htrace : r.trace.filter virNetClientEvent.isSendFD =
      st.trace.filter virNetClientEvent.isSendFD) :
    virNetClientIOWriteProgress st r := by
  refine ⟨hfds, hnfds, fun _ => ⟨by omega, by omega, ?_⟩, fun h => absurd hmode h⟩
  rw [htrace, hdone, Nat.sub_self]
  simp [virNetMessageSentFDs]

/-- Progress is measured from the descriptor fields and the descriptors sent
before. -/
theorem virNetClientIOWriteProgress_congr (st st1 r : virNetClientWriteState)
    (hfds : st1.thecall.msg.fds = st.thecall.msg.fds)
    (hnfds : st1.thecall.msg.nfds = st.thecall.msg.nfds)
    (hdone : st1.thecall.msg.donefds = st.thecall.msg.donefds)
    (htrace : st1.trace.filter virNetClientEvent.isSendFD =
      st.trace.filter virNetClientEvent.isSendFD)
    (h : virNetClientIOWriteProgress st1 r) : virNetClientIOWriteProgress st r := by
  unfold virNetClientIOWriteProgress at h ⊢
  rw [hfds, hnfds, hdone, htrace] at h
  exact h

/-- Progress adds up over successive attempts. -/
theorem virNetClientIOWriteProgress_trans (st r1 r : virNetClientWriteState)
    (h1 : virNetClientIOWriteProgress st r1)
    (hmode : r1.thecall.mode = virNetClientMode.VIR_NET_CLIENT_MODE_WAIT_TX)
    (h2 : virNetClientIOWriteProgress r1 r) : virNetClientIOWriteProgress st r := by
  obtain ⟨hf1, hn1, ht1, _⟩ := h1
  obtain ⟨hle1, hub1, htr1⟩ := ht1 hmode
  obtain ⟨hf2, hn2, ht2, hd2⟩ := h2
  refine ⟨hf2.trans hf1, hn2.trans hn1, fun hm => ?_, fun hm => ?_⟩
  · obtain ⟨hle2, hub2, htr2⟩ := ht2 hm
    refine ⟨by omega, by omega, ?_⟩
    rw [htr2, htr1, hf1, List.append_assoc]
    congr 1
    have hstart : r1.thecall.msg.donefds =
        st.thecall.msg.donefds + (r1.thecall.msg.donefds - st.thecall.msg.donefds) := by omega
    have hsum : r.thecall.msg.donefds - st.thecall.msg.donefds =
        (r1.thecall.msg.donefds - st.thecall.msg.donefds) +
          (r.thecall.msg.donefds - r1.thecall.msg.donefds) := by omega
    rw [hsum, ← virNetMessageSentFDs_append, ← hstart]
  · rw [hd2 hm, htr1, hf1, hn1, List.append_assoc]
    congr 1
    have hstart : r1.thecall.msg.donefds =
        st.thecall.msg.donefds + (r1.thecall.msg.donefds - st.thecall.msg.donefds) := by omega
    have hsum : st.thecall.msg.nfds - st.thecall.msg.donefds =
        (r1.thecall.msg.donefds - st.thecall.msg.donefds) +
          (st.thecall.msg.nfds - r1.thecall.msg.donefds) := by omega
    rw [hsum, ← virNetMessageSentFDs_append, ← hstart]

/-- The progress of the second half of one attempt. -/
theorem virNetClientIOWriteMessageFinish_progress (ret : Int) (st : virNetClientWriteState)
    (hmode : st.thecall.mode = virNetClientMode.VIR_NET_CLIENT_MODE_WAIT_TX) :
    virNetClientIOWriteProgress st (virNetClientIOWriteMessageFinish ret st).2 := by
  obtain ⟨hf, hn, hle, hub, hnone, htr⟩ :=
    virNetClientIOWriteMessageFDs_sent (st.thecall.msg.nfds - st.thecall.msg.donefds) st
  obtain ⟨_, hm, _⟩ :=
    virNetClientIOWriteMessageFDs_spec (st.thecall.msg.nfds - st.thecall.msg.donefds) st
  unfold virNetClientIOWriteMessageFinish
  by_cases heq : st.thecall.msg.bufferOffset = st.thecall.msg.bufferLength
  · rw [if_pos heq]
    cases hr : virNetClientIOWriteMessageFDs (st.thecall.msg.nfds - st.thecall.msg.donefds) st with
    | mk rv st1 =>
      rw [hr] at hf hn hle hub hnone htr hm
      simp only at hf hn hle hub hnone htr hm
      cases rv with
      | some v =>
        refine ⟨hf, hn, fun _ => ⟨hle, hub, ?_⟩, fun h => absurd (hm.trans hmode) h⟩
        show st1.trace.filter virNetClientEvent.isSendFD = _
        rw [htr, List.filter_append, virNetMessageSentFDs_filter]
      | none =>
        have hd := hnone rfl
        refine ⟨hf, hn, fun h => ?_, fun _ => ?_⟩
        · exfalso
          revert h
          show (if st1.thecall.expectReply = true then
            virNetClientMode.VIR_NET_CLIENT_MODE_WAIT_RX
            else virNetClientMode.VIR_NET_CLIENT_MODE_COMPLETE) ≠ _
          split <;> simp
        · show st1.trace.filter virNetClientEvent.isSendFD = _
          rw [htr, List.filter_append, virNetMessageSentFDs_filter, hd, Nat.add_sub_cancel_left]
  · rw [if_neg heq]
    exact virNetClientIOWriteProgress_refl st st hmode rfl rfl rfl rfl

/-- The progress of one attempt. -/
theorem virNetClientIOWriteMessage_progress (st : virNetClientWriteState)
    (hmode : st.thecall.mode = virNetClientMode.VIR_NET_CLIENT_MODE_WAIT_TX) :
    virNetClientIOWriteProgress st (virNetClientIOWriteMessage st).2 := by
  unfold virNetClientIOWriteMessage
  dsimp only
  split_ifs with h1 h2
  · exact virNetClientIOWriteProgress_refl st _ hmode rfl rfl rfl rfl
  · exact virNetClientIOWriteProgress_congr st
      { sock := (virNetSocketWrite st.sock
          ((st.thecall.msg.buffer.drop st.thecall.msg.bufferOffset).take
            (st.thecall.msg.bufferLength - st.thecall.msg.bufferOffset))).2.1
        trace := st.trace ++ [virNetClientEvent.socketWrite (virNetSocketWrite st.sock
          ((st.thecall.msg.buffer.drop st.thecall.msg.bufferOffset).take
            (st.thecall.msg.bufferLength - st.thecall.msg.bufferOffset))).2.2]
        thecall := { st.thecall with
                     msg := { st.thecall.msg with
                              bufferOffset := st.thecall.msg.bufferOffset +
                                (virNetSocketWrite st.sock
                                  ((st.thecall.msg.buffer.drop st.thecall.msg.bufferOffset).take
                                    (st.thecall.msg.bufferLength -
                                      st.thecall.msg.bufferOffset))).1.toNat } } }
      _ rfl rfl rfl (by simp [List.filter_append, virNetClientEvent.isSendFD])
      (virNetClientIOWriteMessageFinish_progress _ _ hmode)
  · exact virNetClientIOWriteMessageFinish_progress 0 st hmode

/-- No attempt is made on a call that is not in the sending mode. -/
theorem virNetClientIOWriteAttempts_done (k : Nat) (st : virNetClientWriteState)
    (hmode : st.thecall.mode ≠ virNetClientMode.VIR_NET_CLIENT_MODE_WAIT_TX) :
    virNetClientIOWriteAttempts k st = st := by
  cases k with
  | zero => rfl
  | succ k => simp [virNetClientIOWriteAttempts, hmode]

/-- The progress of any number of attempts on a call in the sending mode. -/
theorem virNetClientIOWriteAttempts_progress (k : Nat) (st : virNetClientWriteState)
    (hmode : st.thecall.mode = virNetClientMode.VIR_NET_CLIENT_MODE_WAIT_TX) :
    virNetClientIOWriteProgress st (virNetClientIOWriteAttempts k st) := by
  induction k generalizing st with
  | zero => exact virNetClientIOWriteProgress_refl st st hmode rfl rfl rfl rfl
  | succ k ih =>
    have h1 := virNetClientIOWriteMessage_progress st hmode
    unfold virNetClientIOWriteAttempts
    rw [if_pos hmode]
    split_ifs with hneg
    · exact h1
    · by_cases hm : (virNetClientIOWriteMessage st).2.thecall.mode =
          virNetClientMode.VIR_NET_CLIENT_MODE_WAIT_TX
      · exact virNetClientIOWriteProgress_trans st _ _ h1 hm (ih _ hm)
      · rw [virNetClientIOWriteAttempts_done k _ hm]
        exact h1

/-- The descriptor loop of `virNetClientIOWriteMessage` on a socket that takes
`j` descriptors and then would block, with more than `j` descriptors to send: the
loop returns 0 with `donefds` moved up by `j`. -/
theorem virNetClientIOWriteMessageFDs_blocks (j : Nat) :
    ∀ (n : Nat) (st : virNetClientWriteState) (sock : virNetSocket)
      (rest : List (virNetSocketResult Unit)),
      st.sock = some sock →
      sock.txfds = List.replicate j (virNetSocketResult.ok ()) ++
        virNetSocketResult.wouldBlock :: rest →
      j < n →
      (virNetClientIOWriteMessageFDs n st).1 = some 0 ∧
      (virNetClientIOWriteMessageFDs n st).2.thecall.msg.donefds =
        st.thecall.msg.donefds + j := by
  induction j with
  | zero =>
    intro n st sock rest hs ht hn
    obtain ⟨m, rfl⟩ : ∃ m, n = m + 1 := ⟨n - 1, by omega⟩
    simp only [List.replicate_zero, List.nil_append] at ht
    simp [virNetClientIOWriteMessageFDs, virNetSocketSendFD, hs, ht]
  | succ j ih =>
    intro n st sock rest hs ht hn
    obtain ⟨m, rfl⟩ : ∃ m, n = m + 1 := ⟨n - 1, by omega⟩
    rw [List.replicate_succ, List.cons_append] at ht
    have hstep := ih m
      { sock := some { sock with
                       txfds := List.replicate j (virNetSocketResult.ok ()) ++
                         virNetSocketResult.wouldBlock :: rest }
        trace := st.trace ++
          [virNetClientEvent.socketSendFD (st.thecall.msg.fds.getD st.thecall.msg.donefds 0)]
        thecall := { st.thecall with
                     msg := { st.thecall.msg with donefds := st.thecall.msg.donefds + 1 } } }
      { sock with
        txfds := List.replicate j (virNetSocketResult.ok ()) ++
          virNetSocketResult.wouldBlock :: rest }
      rest rfl rfl (by omega)
    simp only [virNetClientIOWriteMessageFDs, virNetSocketSendFD, hs, ht]
    simp only [show ¬ ((1 : Int) < 0) from by decide, show ¬ ((1 : Int) = 0) from by decide,
      if_false]
    refine ⟨hstep.1, ?_⟩
    rw [hstep.2]
    dsimp only
    omega

/-- Claim C26 (outgoing descriptors are sent once each, in order). For every call
in the sending mode, every socket and any number of successive attempts of
`virNetClientIOWriteMessage` on the call: once the attempts have brought the call
out of the sending mode, the descriptors handed to the socket since the start are
`fds[donefds]`, ..., `fds[nfds - 1]` of the start (for a new call `donefds` is 0),
each once, in this order; while the call is still in the sending mode they are
those below the current `donefds`. An attempt that finds the buffer written, `j`
descriptors accepted and the next one blocked returns 0 with `donefds` moved up by
`j` and the call still in the sending mode. -/
theorem C26_descriptors_sent_once_in_order (st : virNetClientWriteState)
    (hmode : st.thecall.mode = virNetClientMode.VIR_NET_CLIENT_MODE_WAIT_TX) :
    (∀ k : Nat,
      (virNetClientIOWriteAttempts k st).thecall.mode ≠
        virNetClientMode.VIR_NET_CLIENT_MODE_WAIT_TX →
      (virNetClientIOWriteAttempts k st).trace.filter virNetClientEvent.isSendFD =
        st.trace.filter virNetClientEvent.isSendFD ++
          virNetMessageSentFDs st.thecall.msg.fds st.thecall.msg.donefds
            (st.thecall.msg.nfds - st.thecall.msg.donefds)) ∧
    (∀ k : Nat,
      (virNetClientIOWriteAttempts k st).thecall.mode =
        virNetClientMode.VIR_NET_CLIENT_MODE_WAIT_TX →
      st.thecall.msg.donefds ≤ (virNetClientIOWriteAttempts k st).thecall.msg.donefds ∧
      (virNetClientIOWriteAttempts k st).trace.filter virNetClientEvent.isSendFD =
        st.trace.filter virNetClientEvent.isSendFD ++
          virNetMessageSentFDs st.thecall.msg.fds st.thecall.msg.donefds
            ((virNetClientIOWriteAttempts k st).thecall.msg.donefds -
              st.thecall.msg.donefds)) ∧
    (∀ (sock : virNetSocket) (j : Nat) (rest : List (virNetSocketResult Unit)),
      st.sock = some sock →
      sock.txfds = List.replicate j (virNetSocketResult.ok ()) ++
        virNetSocketResult.wouldBlock :: rest →
      st.thecall.msg.bufferOffset = st.thecall.msg.bufferLength →
      st.thecall.msg.donefds + j < st.thecall.msg.nfds →
      (virNetClientIOWriteMessage st).1 = 0 ∧
      (virNetClientIOWriteMessage st).2.thecall.msg.donefds = st.thecall.msg.donefds + j ∧
      (virNetClientIOWriteMessage st).2.thecall.mode =
        virNetClientMode.VIR_NET_CLIENT_MODE_WAIT_TX) := by
  refine ⟨fun k hk => (virNetClientIOWriteAttempts_progress k st hmode).2.2.2 hk,
    fun k hk => ?_, ?_⟩
  · obtain ⟨hle, _, htr⟩ := (virNetClientIOWriteAttempts_progress k st hmode).2.2.1 hk
    exact ⟨hle, htr⟩
  · intro sock j rest hs ht heq hlt
    obtain ⟨hret, hdone⟩ := virNetClientIOWriteMessageFDs_blocks j
      (st.thecall.msg.nfds - st.thecall.msg.donefds) st sock rest hs ht (by omega)
    obtain ⟨_, hm, _⟩ :=
      virNetClientIOWriteMessageFDs_spec (st.thecall.msg.nfds - st.thecall.msg.donefds) st
    have hnot : ¬ st.thecall.msg.bufferOffset < st.thecall.msg.bufferLength := by omega
    unfold virNetClientIOWriteMessage
    rw [if_neg hnot]
    unfold virNetClientIOWriteMessageFinish
    rw [if_pos heq]
    cases hr : virNetClientIOWriteMessageFDs (st.thecall.msg.nfds - st.thecall.msg.donefds) st with
    | mk rv st1 =>
      rw [hr] at hret hdone hm
      simp only at hret hdone hm
      subst hret
      exact ⟨rfl, hdone, hm.trans hmode⟩

/-- Witness of C26: the call with the descriptors 7 and 8; the first attempt
writes the buffer, hands over 7 and blocks on 8, the second hands over 8 and the
call leaves the sending mode. An attempt after the buffer is written hands over 7,
blocks on 8 and leaves `donefds` at 1. -/
theorem C26_descriptors_sent_once_in_order_witness :
    sampleFDWriteState.thecall.mode = virNetClientMode.VIR_NET_CLIENT_MODE_WAIT_TX ∧
    (virNetClientIOWriteAttempts 1 sampleFDWriteState).thecall.msg.donefds = 1 ∧
    (virNetClientIOWriteAttempts 2 sampleFDWriteState).thecall.mode =
      virNetClientMode.VIR_NET_CLIENT_MODE_COMPLETE ∧
    (virNetClientIOWriteAttempts 2 sampleFDWriteState).trace.filter virNetClientEvent.isSendFD =
      [virNetClientEvent.socketSendFD 7, virNetClientEvent.socketSendFD 8] ∧
    (virNetClientIOWriteMessage sampleFDWriteWritten).2.thecall.msg.donefds = 1 :=
  ⟨rfl, rfl, rfl, (C26_descriptors_sent_once_in_order sampleFDWriteState rfl).1 2 (by decide),
   ((C26_descriptors_sent_once_in_order sampleFDWriteWritten rfl).2.2
      { sampleSocket with
        tx := [virNetSocketResult.ok 12]
        txfds := [virNetSocketResult.ok (), virNetSocketResult.wouldBlock,
                  virNetSocketResult.ok ()] }
      1 [virNetSocketResult.ok ()] rfl rfl rfl (by decide)).2.1⟩

/-- An attempt of `virNetClientIOWriteMessage` on a call with nothing left to send
changes nothing and writes nothing. -/
theorem virNetClientIOWriteMessage_idle (sock : Option virNetSocket)
    (trace : List virNetClientEvent) (call : virNetClientCall)
    (h : virNetClientCallIdle call) :
    virNetClientIOWriteMessage { sock := sock, trace := trace, thecall := call } =
      (0, { sock := sock, trace := trace, thecall := call }) := by
  obtain ⟨hb, hl, ho, hn, hd, hm⟩ := h
  cases call with
  | mk addr mode msg expectReply nonBlock haveThread =>
    cases msg with
    | mk buffer bufferLength bufferOffset header fds nfds donefds =>
      simp only at hb hl ho hn hd hm
      subst hb hl ho hn hd
      simp [virNetClientIOWriteMessage, virNetClientIOWriteMessageFinish,
        virNetClientIOWriteMessageFDs, ← hm]

/-- Every call is kept by a pass that does not touch it. -/
theorem virNetClientCallKept_refl (queue : List virNetClientCall) :
    List.Forall₂ virNetClientCallKept queue queue := by
  induction queue with
  | nil => exact List.Forall₂.nil
  | cons c next ih => exact List.Forall₂.cons (fun _ => rfl) ih

/-- The second loop of the output pass on a queue whose calls outside the sending
mode have nothing left to send: those calls are the same afterwards, and the
return value, the socket and the trace are those of the loop over the sending
calls alone. -/
theorem virNetClientIOHandleOutputLoop_idle (queue : List virNetClientCall) :
    ∀ (sock : Option virNetSocket) (trace : List virNetClientEvent),
      (∀ c ∈ queue, c.mode ≠ virNetClientMode.VIR_NET_CLIENT_MODE_WAIT_TX →
        virNetClientCallIdle c) →
      List.Forall₂ virNetClientCallKept queue
        (virNetClientIOHandleOutputLoop queue sock trace).2.2.2 ∧
      (virNetClientIOHandleOutputLoop queue sock trace).1 =
        (virNetClientIOHandleOutputLoop (queue.filter virNetClientCallSending) sock trace).1 ∧
      (virNetClientIOHandleOutputLoop queue sock trace).2.1 =
        (virNetClientIOHandleOutputLoop (queue.filter virNetClientCallSending) sock trace).2.1 ∧
      (virNetClientIOHandleOutputLoop queue sock trace).2.2.1 =
        (virNetClientIOHandleOutputLoop (queue.filter virNetClientCallSending) sock
          trace).2.2.1 := by
  induction queue with
  | nil => intro sock trace _; exact ⟨List.Forall₂.nil, rfl, rfl, rfl⟩
  | cons c next ih =>
    intro sock trace h
    have hnext : ∀ x ∈ next, x.mode ≠ virNetClientMode.VIR_NET_CLIENT_MODE_WAIT_TX →
        virNetClientCallIdle x := fun x hx => h x (List.mem_cons_of_mem c hx)
    by_cases hc : c.mode = virNetClientMode.VIR_NET_CLIENT_MODE_WAIT_TX
    · have hf : (c :: next).filter virNetClientCallSending =
          c :: next.filter virNetClientCallSending := by
        simp [virNetClientCallSending, hc]
      rw [hf]
      unfold virNetClientIOHandleOutputLoop
      dsimp only
      split_ifs with h1 h2
      · exact ⟨List.Forall₂.cons (fun hne => absurd hc hne) (virNetClientCallKept_refl next),
          rfl, rfl, rfl⟩
      · exact ⟨List.Forall₂.cons (fun hne => absurd hc hne) (virNetClientCallKept_refl next),
          rfl, rfl, rfl⟩
      · obtain ⟨hq, hr, hs, ht⟩ := ih
          (virNetClientIOWriteMessage { sock := sock, trace := trace, thecall := c }).2.sock
          (virNetClientIOWriteMessage { sock := sock, trace := trace, thecall := c }).2.trace
          hnext
        exact ⟨List.Forall₂.cons (fun hne => absurd hc hne) hq, hr, hs, ht⟩
    · have hf : (c :: next).filter virNetClientCallSending =
          next.filter virNetClientCallSending := by
        simp [virNetClientCallSending, hc]
      rw [hf]
      have hw := virNetClientIOWriteMessage_idle sock trace c (h c (List.mem_cons_self c next) hc)
      obtain ⟨hq, hr, hs, ht⟩ := ih sock trace hnext
      rw [virNetClientIOHandleOutputLoop]
      simp only [hw, hc, if_false, show ¬ ((0 : Int) < 0) from by decide]
      exact ⟨List.Forall₂.cons (fun _ => rfl) hq, hr, hs, ht⟩

/-- The same for the whole pass, which first skips the calls outside the sending
mode at the head of the queue, whatever they hold. -/
theorem virNetClientIOHandleOutputFrom_idle (pre rest : List virNetClientCall)
    (sock : Option virNetSocket) (trace : List virNetClientEvent)
    (hpre : ∀ c ∈ pre, c.mode ≠ virNetClientMode.VIR_NET_CLIENT_MODE_WAIT_TX)
    (hrest : ∀ c ∈ rest, c.mode ≠ virNetClientMode.VIR_NET_CLIENT_MODE_WAIT_TX →
      virNetClientCallIdle c) :
    List.Forall₂ virNetClientCallKept (pre ++ rest)
      (virNetClientIOHandleOutputFrom (pre ++ rest) sock trace).2.2.2 ∧
    (virNetClientIOHandleOutputFrom (pre ++ rest) sock trace).1 =
      (virNetClientIOHandleOutputLoop (rest.filter virNetClientCallSending) sock trace).1 ∧
    (virNetClientIOHandleOutputFrom (pre ++ rest) sock trace).2.1 =
      (virNetClientIOHandleOutputLoop (rest.filter virNetClientCallSending) sock trace).2.1 ∧
    (virNetClientIOHandleOutputFrom (pre ++ rest) sock trace).2.2.1 =
      (virNetClientIOHandleOutputLoop (rest.filter virNetClientCallSending) sock
        trace).2.2.1 := by
  induction pre with
  | nil =>
    rw [List.nil_append]
    clear hpre
    induction rest with
    | nil => exact ⟨List.Forall₂.nil, rfl, rfl, rfl⟩
    | cons c next ih =>
      have hnext : ∀ x ∈ next, x.mode ≠ virNetClientMode.VIR_NET_CLIENT_MODE_WAIT_TX →
          virNetClientCallIdle x := fun x hx => hrest x (List.mem_cons_of_mem c hx)
      by_cases hc : c.mode = virNetClientMode.VIR_NET_CLIENT_MODE_WAIT_TX
      · have hfrom : virNetClientIOHandleOutputFrom (c :: next) sock trace =
            virNetClientIOHandleOutputLoop (c :: next) sock trace := by
          rw [virNetClientIOHandleOutputFrom]
          simp [hc]
        rw [hfrom]
        exact virNetClientIOHandleOutputLoop_idle (c :: next) sock trace hrest
      · have hf : (c :: next).filter virNetClientCallSending =
            next.filter virNetClientCallSending := by
          simp [virNetClientCallSending, hc]
        rw [hf]
        obtain ⟨hq, hr, hs, ht⟩ := ih hnext
        rw [virNetClientIOHandleOutputFrom]
        simp only [hc, ne_eq, not_false_eq_true, if_true]
        exact ⟨List.Forall₂.cons (fun _ => rfl) hq, hr, hs, ht⟩
  | cons c pre ih =>
    have hc : c.mode ≠ virNetClientMode.VIR_NET_CLIENT_MODE_WAIT_TX :=
      hpre c (List.mem_cons_self c pre)
    obtain ⟨hq, hr, hs, ht⟩ := ih (fun x hx => hpre x (List.mem_cons_of_mem c hx))
    rw [List.cons_append, virNetClientIOHandleOutputFrom]
    simp only [hc, ne_eq, not_false_eq_true, if_true]
    exact ⟨List.Forall₂.cons (fun _ => rfl) hq, hr, hs, ht⟩

/-- Claim C23, amended (the output pass and the calls outside the sending mode).
For every queue that consists of calls outside the sending mode (`pre`, whatever
they hold) followed by calls (`rest`) of which those outside the sending mode have
nothing left to send, and every outcome of the socket writes:
`virNetClientIOHandleOutput` leaves every call that was not in the sending mode as
it was, and its return value, the socket and the trace afterwards are those of the
loop over the sending calls alone. -/
theorem C23_output_pass_keeps_idle_calls {X : virNetCollab} (client : virNetClient X)
    (pre rest : List virNetClientCall)
    (hqueue : client.waitDispatch = pre ++ rest)
    (hpre : ∀ c ∈ pre, c.mode ≠ virNetClientMode.VIR_NET_CLIENT_MODE_WAIT_TX)
    (hrest : ∀ c ∈ rest, c.mode ≠ virNetClientMode.VIR_NET_CLIENT_MODE_WAIT_TX →
      virNetClientCallIdle c) :
    List.Forall₂ virNetClientCallKept client.waitDispatch
      (virNetClientIOHandleOutput client).2.waitDispatch ∧
    (virNetClientIOHandleOutput client).1 =
      (virNetClientIOHandleOutputLoop (rest.filter virNetClientCallSending)
        client.sock client.trace).1 ∧
    (virNetClientIOHandleOutput client).2.sock =
      (virNetClientIOHandleOutputLoop (rest.filter virNetClientCallSending)
        client.sock client.trace).2.1 ∧
    (virNetClientIOHandleOutput client).2.trace =
      (virNetClientIOHandleOutputLoop (rest.filter virNetClientCallSending)
        client.sock client.trace).2.2.1 := by
  have h := virNetClientIOHandleOutputFrom_idle pre rest client.sock client.trace hpre hrest
  unfold virNetClientIOHandleOutput
  rw [hqueue]
  exact h

/-- Claim C29, evaluated at a reply with two descriptors for the waiting call of
serial 2. `virNetClientIOHandleInput` reads the frame, receives the descriptors 7
and 8, dispatches the reply (the call is complete) and returns 0; the incoming
message then has `bufferLength = 0` and `bufferOffset = 0` but still `nfds = 2`,
`donefds = 2` and the two descriptors. The next input pass, with a new frame
waiting on the socket, therefore skips the read: it returns -1 and the frame is
still on the socket. -/
theorem C29_descriptor_state_survives_dispatch :
    (virNetClientIOHandleInput 8
        (sampleFDArrivalBody [virNetSocketResult.ok 7, virNetSocketResult.ok 8])).map
      (fun r => (r.1, r.2.waitDispatch.map (fun call => call.mode), r.2.msg)) =
      some (0, [virNetClientMode.VIR_NET_CLIENT_MODE_COMPLETE], sampleAfterFDReply.msg) ∧
    (sampleAfterFDReply.msg.bufferLength, sampleAfterFDReply.msg.bufferOffset,
      sampleAfterFDReply.msg.nfds, sampleAfterFDReply.msg.donefds) = (0, 0, 2, 2) ∧
    (virNetClientIOHandleInput 8 sampleAfterFDReply).map (fun r => (r.1, r.2.sock, r.2.msg)) =
      some (-1, sampleAfterFDReply.sock, sampleAfterFDReply.msg) := by
  refine ⟨rfl, rfl, rfl⟩

/-- Claim C27, evaluated at a connection on which the blocking call 10 waits with
its thread, which holds the buck. A non-blocking send by another thread returns 1
and leaves its call queued behind call 10 without a thread; and a keepalive
request handed back during a turn of the event loop of call 10 is queued behind it
without a thread. In both queues the second call has `haveThread = false`. -/
theorem C27_threadless_call_behind_head :
    (virNetClientSendNonBlock sampleIOEnv
        (sampleClient [sampleCall 10 1]
          (sampleMessage 0 virNetMessageType.VIR_NET_CALL virNetMessageStatus.VIR_NET_OK))
        (sampleNonBlockCall 0 2).msg).map
      (fun r => (r.ret, r.client.waitDispatch.map (fun call => (call.addr, call.haveThread)))) =
      some (1, [(10, true), (100, false)]) ∧
    (match virNetClientIOEventLoopTurn sampleKeepAlivePoll
        (sampleKeepAliveClient [sampleCall 10 1]) (sampleCall 10 1) with
     | some (virNetClientIOStep.again c) =>
       c.waitDispatch.map (fun call => (call.addr, call.haveThread))
     | _ => []) = [(10, true), (100, false)] := by
  refine ⟨rfl, rfl⟩

/-- Claim C30, evaluated at headers the parser reads past. For a QCOW2 image of
32 bytes (`buflen = 32`) `virStorageFileGetMetadataFromBuf` returns 0 after
loading the encryption mode from `buf[32..35]`, and as QCOW from `buf[34..37]`:
the capacity field is checked against `buflen`, the encryption mode is not. For a
QCOW2 image of 100 bytes whose backing-format extension ends exactly at the end of
the buffer, `qcow2GetBackingStoreFormat` loads the terminator `buf[offset + len]`
from `buf[100]`. -/
theorem C30_header_read_past_buffer :
    sampleQcow2Short.length = 32 ∧
    (virStorageFileGetMetadataFromBuf sampleFormatFromString
        virStorageFileFormat.VIR_STORAGE_FILE_QCOW2 sampleQcow2Short 32).map
      (fun m => (m.ret, m.reads)) =
      some (0, [24, 25, 26, 27, 28, 29, 30, 31, 32, 33, 34, 35,
                8, 9, 10, 11, 12, 13, 14, 15, 16, 17, 18, 19]) ∧
    (virStorageFileGetMetadataFromBuf sampleFormatFromString
        virStorageFileFormat.VIR_STORAGE_FILE_QCOW sampleQcow2Short 32).map
      (fun m => (m.ret, m.reads)) =
      some (0, [24, 25, 26, 27, 28, 29, 30, 31, 34, 35, 36, 37,
                8, 9, 10, 11, 12, 13, 14, 15, 16, 17, 18, 19, 0]) ∧
    sampleQcow2Extension.length = 100 ∧
    (virStorageFileGetMetadataFromBuf sampleFormatFromString
        virStorageFileFormat.VIR_STORAGE_FILE_QCOW2 sampleQcow2Extension 100).map
      (fun m => (m.ret, m.backingStoreFormat, m.reads)) =
      some (0, 1, [24, 25, 26, 27, 28, 29, 30, 31, 32, 33, 34, 35,
                   8, 9, 10, 11, 12, 13, 14, 15, 16, 17, 18, 19, 96, 97, 98, 99,
                   72, 73, 74, 75, 76, 77, 78, 79, 100, 80, 81, 82, 83]) ∧
    ¬ virStorageFileReadsInside 32
      [24, 25, 26, 27, 28, 29, 30, 31, 32, 33, 34, 35,
       8, 9, 10, 11, 12, 13, 14, 15, 16, 17, 18, 19] ∧
    ¬ virStorageFileReadsInside 100
      [24, 25, 26, 27, 28, 29, 30, 31, 32, 33, 34, 35,
       8, 9, 10, 11, 12, 13, 14, 15, 16, 17, 18, 19, 96, 97, 98, 99,
       72, 73, 74, 75, 76, 77, 78, 79, 100, 80, 81, 82, 83] := by
  refine ⟨rfl, ?_, ?_, rfl, ?_, ?_, ?_⟩
  · decide
  · decide
  · decide
  · decide
  · decide

/-- A queue with the same call objects and flags has grown by nothing. -/
theorem virNetClientQueueGrows_of_keys {X : virNetCollab} (c c1 : virNetClient X)
    (hnext : c1.nextAddr = c.nextAddr)
    (hkeys : c1.waitDispatch.map virNetClientCallKey =
      c.waitDispatch.map virNetClientCallKey) : virNetClientQueueGrows c c1 :=
  ⟨0, by rw [hnext]; rfl, by simp [hkeys]⟩

/-- Growth is reflexive. -/
theorem virNetClientQueueGrows_refl {X : virNetCollab} (c : virNetClient X) :
    virNetClientQueueGrows c c :=
  virNetClientQueueGrows_of_keys c c rfl rfl

/-- Growth is transitive. -/
theorem virNetClientQueueGrows_trans {X : virNetCollab} (c c1 c2 : virNetClient X)
    (h1 : virNetClientQueueGrows c c1) (h2 : virNetClientQueueGrows c1 c2) :
    virNetClientQueueGrows c c2 := by
  obtain ⟨k1, hn1, hk1⟩ := h1
  obtain ⟨k2, hn2, hk2⟩ := h2
  refine ⟨k1 + k2, by omega, ?_⟩
  rw [hk2, hk1, hn1, List.append_assoc, ← List.map_append, List.range'_append_1,
    Nat.add_comm k2 k1]

/-- Growth only looks at the queue and the next address. -/
theorem virNetClientQueueGrows_congr {X : virNetCollab} (c c1 c2 : virNetClient X)
    (h : virNetClientQueueGrows c c1) (hq : c2.waitDispatch = c1.waitDispatch)
    (hn : c2.nextAddr = c1.nextAddr) : virNetClientQueueGrows c c2 := by
  obtain ⟨k, hn1, hk1⟩ := h
  exact ⟨k, by rw [hn, hn1], by rw [hq, hk1]⟩

/-- A write through a found pointer that keeps address and flags keeps the keys of
the queue. -/
theorem modifyFirst_map_key (p : virNetClientCall → Bool)
    (f : virNetClientCall → virNetClientCall)
    (hf : ∀ x, virNetClientCallKey (f x) = virNetClientCallKey x)
    (l : List virNetClientCall) :
    (modifyFirst p f l).map virNetClientCallKey = l.map virNetClientCallKey := by
  induction l with
  | nil => rfl
  | cons a l ih =>
    unfold modifyFirst
    split
    · simp [hf]
    · simp [ih]

/-- The function `virNetClientQueueNonBlocking` puts one new call without thread
behind the queue. -/
theorem virNetClientQueueNonBlocking_grows {X : virNetCollab} (c : virNetClient X)
    (msg : virNetMessage) : virNetClientQueueGrows c (virNetClientQueueNonBlocking c msg).2 := by
  refine ⟨1, ?_, ?_⟩
  · simp [virNetClientQueueNonBlocking, virNetClientCallNew]
  · simp [virNetClientQueueNonBlocking, virNetClientCallNew, virNetClientCallQueue_eq_append,
      virNetClientCallKey]

/-- The function `virNetClientCallDispatchReply` keeps the call objects and their
flags. -/
theorem virNetClientCallDispatchReply_grows {X : virNetCollab} (c : virNetClient X) :
    virNetClientQueueGrows c (virNetClientCallDispatchReply c).2 := by
  unfold virNetClientCallDispatchReply
  split
  · exact virNetClientQueueGrows_of_keys _ _ rfl rfl
  · exact virNetClientQueueGrows_of_keys _ _ rfl
      (modifyFirst_map_key _ (virNetClientCallDispatchReplyCopy c.msg) (fun _ => rfl) _)

/-- The function `virNetClientCallDispatchMessage` keeps the queue. -/
theorem virNetClientCallDispatchMessage_grows {X : virNetCollab} (c : virNetClient X) :
    virNetClientQueueGrows c (virNetClientCallDispatchMessage c).2 := by
  unfold virNetClientCallDispatchMessage
  split <;> exact virNetClientQueueGrows_of_keys _ _ rfl rfl

/-- The function `virNetClientCallDispatchStream` keeps the call objects and their
flags. -/
theorem virNetClientCallDispatchStream_grows {X : virNetCollab} (c : virNetClient X) :
    virNetClientQueueGrows c (virNetClientCallDispatchStream c).2 := by
  have hcomplete : ∀ x : virNetClientCall, virNetClientCallKey
      { x with mode := virNetClientMode.VIR_NET_CLIENT_MODE_COMPLETE } =
      virNetClientCallKey x := fun _ => rfl
  have hcond : ∀ x : virNetClientCall, virNetClientCallKey
      (if x.expectReply &&
          decide (x.msg.header.status = virNetMessageStatus.VIR_NET_CONTINUE) then
        { x with mode := virNetClientMode.VIR_NET_CLIENT_MODE_COMPLETE }
      else x) = virNetClientCallKey x := by
    intro x
    split <;> rfl
  unfold virNetClientCallDispatchStream
  repeat' split
  all_goals first
    | exact virNetClientQueueGrows_of_keys _ _ rfl rfl
    | exact virNetClientQueueGrows_of_keys _ _ rfl (modifyFirst_map_key _ _ hcomplete _)
    | exact virNetClientQueueGrows_of_keys _ _ rfl (modifyFirst_map_key _ _ hcond _)

/-- The function `virNetClientCallDispatch` keeps the call objects and their flags
and at most adds a keepalive response behind them. -/
theorem virNetClientCallDispatch_grows {X : virNetCollab} (c : virNetClient X) :
    virNetClientQueueGrows c (virNetClientCallDispatch c).2 := by
  unfold virNetClientCallDispatch
  repeat' split
  all_goals first
    | exact virNetClientQueueGrows_of_keys _ _ rfl rfl
    | exact virNetClientQueueNonBlocking_grows _ _
    | exact virNetClientCallDispatchReply_grows _
    | exact virNetClientCallDispatchMessage_grows _
    | exact virNetClientCallDispatchStream_grows _

/-- The function `virNetClientIOReadMessage` keeps the queue. -/
theorem virNetClientIOReadMessage_grows {X : virNetCollab} (c : virNetClient X) :
    virNetClientQueueGrows c (virNetClientIOReadMessage c).2 := by
  unfold virNetClientIOReadMessage
  dsimp only
  split_ifs <;> exact virNetClientQueueGrows_of_keys _ _ rfl rfl

/-- The dispatch at the end of a turn of the input loop keeps the call objects and
their flags and at most adds a keepalive response behind them. -/
theorem virNetClientIOHandleInputDispatch_grows {X : virNetCollab} (c : virNetClient X) :
    virNetClientQueueGrows c (virNetClientIOHandleInputDispatch c).client := by
  have h := virNetClientCallDispatch_grows c
  unfold virNetClientIOHandleInputDispatch
  dsimp only
  split <;> exact virNetClientQueueGrows_congr _ _ _ h rfl rfl

/-- The frame step of the input loop likewise. -/
theorem virNetClientIOHandleInputFrame_grows {X : virNetCollab} (c : virNetClient X) :
    virNetClientQueueGrows c (virNetClientIOHandleInputFrame c).client := by
  unfold virNetClientIOHandleInputFrame
  split
  · exact virNetClientQueueGrows_refl c
  · rename_i hmsg _
    split
    · split
      · exact virNetClientQueueGrows_of_keys _ _ rfl rfl
      · rename_i nmsg _
        dsimp only
        split
        · exact virNetClientQueueGrows_of_keys _ _ rfl rfl
        · split
          · exact virNetClientQueueGrows_of_keys _ _ rfl rfl
          · exact virNetClientQueueGrows_trans _ _ _
              (virNetClientQueueGrows_of_keys c
                { c with
                  sock := (virNetClientIOHandleInputFDs (nmsg.nfds - nmsg.donefds) c.sock nmsg).2.1
                  msg := (virNetClientIOHandleInputFDs (nmsg.nfds - nmsg.donefds) c.sock
                    nmsg).2.2 } rfl rfl)
              (virNetClientIOHandleInputDispatch_grows _)
    · exact virNetClientQueueGrows_trans _ _ _
        (virNetClientQueueGrows_of_keys c { c with msg := hmsg } rfl rfl)
        (virNetClientIOHandleInputDispatch_grows _)

/-- The completion check of the input loop likewise. -/
theorem virNetClientIOHandleInputCheck_grows {X : virNetCollab} (c : virNetClient X) :
    virNetClientQueueGrows c (virNetClientIOHandleInputCheck c).client := by
  unfold virNetClientIOHandleInputCheck
  split
  · split
    · split
      · exact virNetClientQueueGrows_refl c
      · exact virNetClientQueueGrows_of_keys _ _ rfl rfl
    · exact virNetClientIOHandleInputFrame_grows c
  · exact virNetClientQueueGrows_refl c

/-- One turn of the input loop likewise. -/
theorem virNetClientIOHandleInputTurn_grows {X : virNetCollab} (c : virNetClient X) :
    virNetClientQueueGrows c (virNetClientIOHandleInputTurn c).client := by
  unfold virNetClientIOHandleInputTurn
  split
  · dsimp only
    split
    · exact virNetClientIOReadMessage_grows c
    · split
      · exact virNetClientIOReadMessage_grows c
      · exact virNetClientQueueGrows_trans _ _ _ (virNetClientIOReadMessage_grows c)
          (virNetClientIOHandleInputCheck_grows _)
  · exact virNetClientIOHandleInputCheck_grows c

/-- The function `virNetClientIOHandleInput` keeps the call objects and their flags
and at most adds keepalive responses behind them. -/
theorem virNetClientIOHandleInput_grows {X : virNetCollab} (fuel : Nat) :
    ∀ (c : virNetClient X) (r : Int × virNetClient X),
      virNetClientIOHandleInput fuel c = some r → virNetClientQueueGrows c r.2 := by
  induction fuel with
  | zero => intro c r h; simp [virNetClientIOHandleInput] at h
  | succ fuel ih =>
    intro c r h
    have hturn := virNetClientIOHandleInputTurn_grows c
    unfold virNetClientIOHandleInput at h
    cases ht : virNetClientIOHandleInputTurn c with
    | done ret c1 =>
      rw [ht] at h hturn
      simp only [Option.some.injEq] at h
      rw [← h]
      exact hturn
    | again c1 =>
      rw [ht] at h hturn
      exact virNetClientQueueGrows_trans _ _ _ hturn (ih c1 r h)

/-- The descriptor loop of `virNetClientIOWriteMessage` keeps the address and the
flags of the call. -/
theorem virNetClientIOWriteMessageFDs_key (n : Nat) (st : virNetClientWriteState) :
    virNetClientCallKey (virNetClientIOWriteMessageFDs n st).2.thecall =
      virNetClientCallKey st.thecall := by
  induction n generalizing st with
  | zero => rfl
  | succ n ih =>
    unfold virNetClientIOWriteMessageFDs
    split_ifs
    · rfl
    · rfl
    · rw [ih]
      rfl

/-- The second half of `virNetClientIOWriteMessage` keeps the address and the flags
of the call. -/
theorem virNetClientIOWriteMessageFinish_key (ret : Int) (st : virNetClientWriteState) :
    virNetClientCallKey (virNetClientIOWriteMessageFinish ret st).2.thecall =
      virNetClientCallKey st.thecall := by
  have h := virNetClientIOWriteMessageFDs_key (st.thecall.msg.nfds - st.thecall.msg.donefds) st
  unfold virNetClientIOWriteMessageFinish
  split
  · cases hr : virNetClientIOWriteMessageFDs (st.thecall.msg.nfds - st.thecall.msg.donefds) st with
    | mk rv st1 =>
      rw [hr] at h
      cases rv with
      | some v => exact h
      | none => exact h
  · rfl

/-- The function `virNetClientIOWriteMessage` keeps the address and the flags of
the call. -/
theorem virNetClientIOWriteMessage_key (st : virNetClientWriteState) :
    virNetClientCallKey (virNetClientIOWriteMessage st).2.thecall =
      virNetClientCallKey st.thecall := by
  unfold virNetClientIOWriteMessage
  dsimp only
  split_ifs
  · rfl
  · rw [virNetClientIOWriteMessageFinish_key]
    rfl
  · rw [virNetClientIOWriteMessageFinish_key]

/-- The second loop of the output pass keeps the call objects and their flags. -/
theorem virNetClientIOHandleOutputLoop_keys (queue : List virNetClientCall) :
    ∀ (sock : Option virNetSocket) (trace : List virNetClientEvent),
      (virNetClientIOHandleOutputLoop queue sock trace).2.2.2.map virNetClientCallKey =
        queue.map virNetClientCallKey := by
  induction queue with
  | nil => intro sock trace; rfl
  | cons c next ih =>
    intro sock trace
    have hk := virNetClientIOWriteMessage_key { sock := sock, trace := trace, thecall := c }
    unfold virNetClientIOHandleOutputLoop
    dsimp only
    split_ifs
    · simp only [List.map_cons, hk]
    · simp only [List.map_cons, hk]
    · simp only [List.map_cons, hk, ih]

/-- The output pass keeps the call objects and their flags. -/
theorem virNetClientIOHandleOutputFrom_keys (queue : List virNetClientCall) :
    ∀ (sock : Option virNetSocket) (trace : List virNetClientEvent),
      (virNetClientIOHandleOutputFrom queue sock trace).2.2.2.map virNetClientCallKey =
        queue.map virNetClientCallKey := by
  induction queue with
  | nil => intro sock trace; rfl
  | cons c next ih =>
    intro sock trace
    unfold virNetClientIOHandleOutputFrom
    split_ifs
    · simp only [List.map_cons, ih]
    · exact virNetClientIOHandleOutputLoop_keys (c :: next) sock trace

/-- The function `virNetClientIOHandleOutput` keeps the call objects and their
flags. -/
theorem virNetClientIOHandleOutput_grows {X : virNetCollab} (c : virNetClient X) :
    virNetClientQueueGrows c (virNetClientIOHandleOutput c).2 :=
  virNetClientQueueGrows_of_keys _ _ rfl
    (virNetClientIOHandleOutputFrom_keys c.waitDispatch c.sock c.trace)

/-- The keepalive step of the event loop keeps the queue and at most adds a
keepalive request behind it. -/
theorem virNetClientIOEventLoopTrigger_grows {X : virNetCollab} (env : virNetClientPoll)
    (c : virNetClient X) : virNetClientQueueGrows c (virNetClientIOEventLoopTrigger env c) := by
  unfold virNetClientIOEventLoopTrigger
  repeat' split
  all_goals first
    | exact virNetClientQueueGrows_of_keys _ _ rfl rfl
    | exact virNetClientQueueNonBlocking_grows _ _

/-- What the input step of a turn of the event loop ends in: the exit through the
label `error` or the sweep, on a connection whose queue has at most grown. -/
theorem virNetClientIOEventLoopInput_shape {X : virNetCollab} (env : virNetClientPoll)
    (revents : pollEvents) (c : virNetClient X) (thiscall : virNetClientCall)
    (step : virNetClientIOStep X)
    (h : virNetClientIOEventLoopInput env revents c thiscall = some step) :
    (∃ c1, virNetClientQueueGrows c c1 ∧
      step = virNetClientIOStep.done (virNetClientIOEventLoopError c1 thiscall)) ∨
    (∃ c1, virNetClientQueueGrows c c1 ∧
      step = virNetClientIOEventLoopSweep revents c1 thiscall) := by
  unfold virNetClientIOEventLoopInput at h
  split at h
  · cases hin : virNetClientIOHandleInput env.inputFuel c with
    | none => rw [hin] at h; simp at h
    | some r =>
      obtain ⟨ret, c1⟩ := r
      have hg := virNetClientIOHandleInput_grows env.inputFuel c (ret, c1) hin
      rw [hin] at h
      dsimp only at h
      split at h
      · exact Or.inl ⟨_, virNetClientQueueGrows_congr c c1
          (virNetClientMarkClose c1 virConnectCloseReason.VIR_CONNECT_CLOSE_REASON_ERROR)
          hg rfl rfl, (Option.some.inj h).symm⟩
      · exact Or.inr ⟨c1, hg, (Option.some.inj h).symm⟩
  · exact Or.inr ⟨c, virNetClientQueueGrows_refl c, (Option.some.inj h).symm⟩

/-- What the output step of a turn of the event loop ends in. -/
theorem virNetClientIOEventLoopOutput_shape {X : virNetCollab} (env : virNetClientPoll)
    (revents : pollEvents) (c : virNetClient X) (thiscall : virNetClientCall)
    (step : virNetClientIOStep X)
    (h : virNetClientIOEventLoopOutput env revents c thiscall = some step) :
    (∃ c1, virNetClientQueueGrows c c1 ∧
      step = virNetClientIOStep.done (virNetClientIOEventLoopError c1 thiscall)) ∨
    (∃ c1, virNetClientQueueGrows c c1 ∧
      step = virNetClientIOEventLoopSweep revents c1 thiscall) := by
  have hout := virNetClientIOHandleOutput_grows c
  unfold virNetClientIOEventLoopOutput at h
  split at h
  · split at h
    · exact Or.inl ⟨_, virNetClientQueueGrows_congr c (virNetClientIOHandleOutput c).2
        (virNetClientMarkClose (virNetClientIOHandleOutput c).2
          virConnectCloseReason.VIR_CONNECT_CLOSE_REASON_ERROR) hout rfl rfl,
        (Option.some.inj h).symm⟩
    · rcases virNetClientIOEventLoopInput_shape env revents _ thiscall step h with
        ⟨c1, hg, hs⟩ | ⟨c1, hg, hs⟩
      · exact Or.inl ⟨c1, virNetClientQueueGrows_trans _ _ _ hout hg, hs⟩
      · exact Or.inr ⟨c1, virNetClientQueueGrows_trans _ _ _ hout hg, hs⟩
  · exact virNetClientIOEventLoopInput_shape env revents c thiscall step h

/-- What a turn of the event loop ends in: the exit through the label `error`, or
the sweep that ends the loop body, on a connection whose queue holds the call
objects of the start with their flags and at most new keepalive calls behind
them. -/
theorem virNetClientIOEventLoopTurn_shape {X : virNetCollab} (env : virNetClientPoll)
    (c : virNetClient X) (thiscall : virNetClientCall) (step : virNetClientIOStep X)
    (h : virNetClientIOEventLoopTurn env c thiscall = some step) :
    (∃ c1, virNetClientQueueGrows c c1 ∧
      step = virNetClientIOStep.done (virNetClientIOEventLoopError c1 thiscall)) ∨
    (∃ revents c1, virNetClientQueueGrows c c1 ∧
      step = virNetClientIOEventLoopSweep revents c1 thiscall) := by
  have htrig := virNetClientIOEventLoopTrigger_grows env c
  unfold virNetClientIOEventLoopTurn at h
  split at h
  · exact Or.inl ⟨_, virNetClientQueueGrows_of_keys c
      { c with trace := c.trace ++ [virNetClientEvent.reportError] } rfl rfl,
      (Option.some.inj h).symm⟩
  · dsimp only at h
    split at h
    · exact Or.inl ⟨_, virNetClientQueueGrows_congr c (virNetClientIOEventLoopTrigger env c)
        (virNetClientMarkClose
          { virNetClientIOEventLoopTrigger env c with
            trace := (virNetClientIOEventLoopTrigger env c).trace ++
              [virNetClientEvent.reportError] }
          virConnectCloseReason.VIR_CONNECT_CLOSE_REASON_ERROR) htrig rfl rfl,
        (Option.some.inj h).symm⟩
    · rcases virNetClientIOEventLoopOutput_shape env _ _ thiscall step h with
        ⟨c1, hg, hs⟩ | ⟨c1, hg, hs⟩
      · exact Or.inl ⟨c1, virNetClientQueueGrows_trans _ _ _ htrig hg, hs⟩
      · exact Or.inr ⟨_, c1, virNetClientQueueGrows_trans _ _ _ htrig hg, hs⟩

/-- New keepalive calls behind the queue keep the invariant of the queue. -/
theorem virNetClientQueueLegal_grows {X : virNetCollab} (c c1 : virNetClient X)
    (hg : virNetClientQueueGrows c c1) (h : virNetClientQueueLegal c) :
    virNetClientQueueLegal c1 := by
  obtain ⟨k, hn, hk⟩ := hg
  obtain ⟨⟨hnodup, hbound⟩, hlegal⟩ := h
  have haddr : c1.waitDispatch.map (fun x => x.addr) =
      c.waitDispatch.map (fun x => x.addr) ++ List.range' c.nextAddr k := by
    have h1 := congrArg (List.map (fun key : Nat × Bool × Bool × Bool => key.1)) hk
    rw [List.map_append, List.map_map, List.map_map, List.map_map] at h1
    have e1 : ((fun key : Nat × Bool × Bool × Bool => key.1) ∘ virNetClientCallKey) =
        fun x => x.addr := rfl
    have e2 : ((fun key : Nat × Bool × Bool × Bool => key.1) ∘
        fun a : Nat => (a, false, true, false)) = id := rfl
    rw [e1, e2, List.map_id] at h1
    exact h1
  refine ⟨⟨?_, ?_⟩, ?_⟩
  · rw [haddr, List.nodup_append]
    refine ⟨hnodup, List.nodup_range' _ _, ?_⟩
    intro a ha hb
    rw [List.mem_map] at ha
    obtain ⟨x, hx, rfl⟩ := ha
    have h1 := hbound x hx
    rw [List.mem_range'_1] at hb
    omega
  · intro x hx
    have hmem : x.addr ∈ c1.waitDispatch.map (fun x => x.addr) :=
      List.mem_map.2 ⟨x, hx, rfl⟩
    rw [haddr, List.mem_append] at hmem
    rcases hmem with hmem | hmem
    · rw [List.mem_map] at hmem
      obtain ⟨y, hy, hxy⟩ := hmem
      have := hbound y hy
      omega
    · rw [List.mem_range'_1] at hmem
      omega
  · intro x hx
    have hmem : virNetClientCallKey x ∈ c1.waitDispatch.map virNetClientCallKey :=
      List.mem_map.2 ⟨x, hx, rfl⟩
    rw [hk, List.mem_append] at hmem
    rcases hmem with hmem | hmem
    · rw [List.mem_map] at hmem
      obtain ⟨y, hy, hxy⟩ := hmem
      have hl := hlegal y hy
      unfold virNetClientCallKey at hxy
      simp only [Prod.mk.injEq] at hxy
      obtain ⟨_, he, hnb, hth⟩ := hxy
      unfold virNetClientCallLegal at hl ⊢
      rw [← he, ← hnb, ← hth]
      exact hl
    · rw [List.mem_map] at hmem
      obtain ⟨a, _, hxa⟩ := hmem
      unfold virNetClientCallKey at hxa
      simp only [Prod.mk.injEq] at hxa
      obtain ⟨_, he, hnb, hth⟩ := hxa
      exact ⟨fun _ => hnb.symm, fun _ => he.symm⟩

/-- Calls taken out of the queue keep the invariant of the queue. -/
theorem virNetClientQueueLegal_sublist {X : virNetCollab} (c c1 : virNetClient X)
    (hsub : c1.waitDispatch.Sublist c.waitDispatch) (hn : c.nextAddr ≤ c1.nextAddr)
    (h : virNetClientQueueLegal c) : virNetClientQueueLegal c1 :=
  ⟨⟨(hsub.map (fun x => x.addr)).nodup h.1.1,
    fun x hx => lt_of_lt_of_le (h.1.2 x (hsub.subset hx)) hn⟩,
   fun x hx => h.2 x (hsub.subset hx)⟩

/-- Calls taken out of the queue keep the invariant of the queue. -/
theorem virNetClientQueueLegal_of_sublist {X : virNetCollab} (c c1 : virNetClient X)
    (h : virNetClientQueueLegal c) (hsub : c1.waitDispatch.Sublist c.waitDispatch)
    (hn : c.nextAddr ≤ c1.nextAddr) : virNetClientQueueLegal c1 :=
  virNetClientQueueLegal_sublist c c1 hsub hn h

/-- The function `virNetClientIOEventLoopPassTheBuck` leaves a sublist of the
queue and the next address. -/
theorem virNetClientIOEventLoopPassTheBuck_sublist {X : virNetCollab} (c : virNetClient X)
    (thiscall : Option Nat) :
    (virNetClientIOEventLoopPassTheBuck c thiscall).waitDispatch.Sublist c.waitDispatch ∧
    (virNetClientIOEventLoopPassTheBuck c thiscall).nextAddr = c.nextAddr := by
  unfold virNetClientIOEventLoopPassTheBuck
  split
  · exact ⟨List.Sublist.refl _, rfl⟩
  · split
    · dsimp only
      have hq := (virNetClientCloseLocked_fields { c with haveTheBuck := false }).2.1
      refine ⟨?_, ?_⟩
      · have hs := virNetClientCallRemovePredicate_sublist
          (virNetClientIOEventLoopRemoveAll thiscall)
          (virNetClientCloseLocked { c with haveTheBuck := false }).waitDispatch
          (virNetClientCloseLocked { c with haveTheBuck := false }).trace
        rw [hq] at hs
        rw [hq]
        exact hs
      · unfold virNetClientCloseLocked
        split <;> rfl
    · exact ⟨List.Sublist.refl _, rfl⟩

/-- The function `virNetClientIOEventLoopPassTheBuck` keeps the invariant of the
queue. -/
theorem virNetClientIOEventLoopPassTheBuck_legal {X : virNetCollab} (c : virNetClient X)
    (thiscall : Option Nat) (h : virNetClientQueueLegal c) :
    virNetClientQueueLegal (virNetClientIOEventLoopPassTheBuck c thiscall) :=
  virNetClientQueueLegal_sublist c _ (virNetClientIOEventLoopPassTheBuck_sublist c thiscall).1
    (le_of_eq (virNetClientIOEventLoopPassTheBuck_sublist c thiscall).2.symm) h

/-- The exit through the label `error` keeps the invariant of the queue. -/
theorem virNetClientIOEventLoopError_legal {X : virNetCollab} (c : virNetClient X)
    (thiscall : virNetClientCall) (h : virNetClientQueueLegal c) :
    virNetClientQueueLegal (virNetClientIOEventLoopError c thiscall).client := by
  unfold virNetClientIOEventLoopError
  exact virNetClientIOEventLoopPassTheBuck_legal _ _
    (virNetClientQueueLegal_sublist c
      { c with waitDispatch := virNetClientCallRemove c.waitDispatch thiscall.addr }
      (virNetClientCallRemove_sublist _ _) (le_refl _) h)

/-- A write through a found pointer that keeps the address keeps the addresses of
the queue. -/
theorem modifyFirst_map_addr (p : virNetClientCall → Bool)
    (f : virNetClientCall → virNetClientCall) (hf : ∀ x, (f x).addr = x.addr)
    (l : List virNetClientCall) :
    (modifyFirst p f l).map (fun x => x.addr) = l.map (fun x => x.addr) := by
  induction l with
  | nil => rfl
  | cons a l ih =>
    unfold modifyFirst
    split
    · simp [hf]
    · simp [ih]

/-- Detaching the thread of the own call, which is non-blocking, keeps the flags
of the queued calls legal. -/
theorem modifyFirst_detach_legal (thiscall : virNetClientCall) :
    ∀ queue : List virNetClientCall,
      (∀ x ∈ queue, virNetClientCallLegal x) →
      (virNetClientCallDeref queue thiscall).nonBlock = true →
      ∀ y ∈ modifyFirst (fun q => decide (q.addr = thiscall.addr))
        virNetClientIODetachNonBlocking queue, virNetClientCallLegal y := by
  intro queue
  induction queue with
  | nil => intro _ _ y hy; simp [modifyFirst] at hy
  | cons a queue ih =>
    intro hl hown y hy
    have ha := hl a (List.mem_cons_self a queue)
    have hrest : ∀ x ∈ queue, virNetClientCallLegal x :=
      fun x hx => hl x (List.mem_cons_of_mem a hx)
    unfold virNetClientCallDeref at hown
    unfold modifyFirst at hy
    by_cases hp : a.addr = thiscall.addr
    · simp only [hp, decide_True, if_true, List.mem_cons] at hy
      simp only [List.find?, hp, decide_True, Option.getD_some] at hown
      rcases hy with hy | hy
      · rw [hy]
        exact ⟨fun _ => hown, fun h => ha.2 h⟩
      · exact hrest y hy
    · simp only [hp, decide_False, Bool.false_eq_true, if_false, List.mem_cons] at hy
      simp only [List.find?, hp, decide_False] at hown
      rcases hy with hy | hy
      · rw [hy]; exact ha
      · exact ih hrest hown y hy

/-- Detaching the thread of the own call, which is non-blocking, keeps the
invariant of the queue. -/
theorem virNetClientIODetachNonBlocking_legal {X : virNetCollab} (c : virNetClient X)
    (thiscall : virNetClientCall) (h : virNetClientQueueLegal c)
    (hown : (virNetClientCallDeref c.waitDispatch thiscall).nonBlock = true) :
    virNetClientQueueLegal
      { c with
        waitDispatch := modifyFirst (fun q => decide (q.addr = thiscall.addr))
          virNetClientIODetachNonBlocking c.waitDispatch } := by
  have haddr := modifyFirst_map_addr (fun q => decide (q.addr = thiscall.addr))
    virNetClientIODetachNonBlocking (fun _ => rfl) c.waitDispatch
  refine ⟨⟨?_, ?_⟩, modifyFirst_detach_legal thiscall c.waitDispatch h.2 hown⟩
  · show ((modifyFirst (fun q => decide (q.addr = thiscall.addr))
      virNetClientIODetachNonBlocking c.waitDispatch).map (fun x => x.addr)).Nodup
    rw [haddr]
    exact h.1.1
  · intro y hy
    have hmem : y.addr ∈ (modifyFirst (fun q => decide (q.addr = thiscall.addr))
        virNetClientIODetachNonBlocking c.waitDispatch).map (fun x => x.addr) :=
      List.mem_map.2 ⟨y, hy, rfl⟩
    rw [haddr, List.mem_map] at hmem
    obtain ⟨x, hx, hxy⟩ := hmem
    have := h.1.2 x hx
    show y.addr < c.nextAddr
    omega

/-- The sweep that ends the body of the event loop, and what follows it, keep the
invariant of the queue. -/
theorem virNetClientIOEventLoopSweep_legal {X : virNetCollab} (revents : pollEvents)
    (c : virNetClient X) (thiscall : virNetClientCall) (h : virNetClientQueueLegal c) :
    virNetClientQueueLegal (virNetClientIOEventLoopSweep revents c thiscall).client := by
  have hcs : virNetClientQueueLegal
      { c with
        waitDispatch := (virNetClientCallRemovePredicate
          (virNetClientIOEventLoopRemoveDone (some thiscall.addr)) c.waitDispatch c.trace).1
        trace := (virNetClientCallRemovePredicate
          (virNetClientIOEventLoopRemoveDone (some thiscall.addr)) c.waitDispatch c.trace).2 } :=
    virNetClientQueueLegal_sublist c _ (virNetClientCallRemovePredicate_sublist _ _ _)
      (le_refl _) h
  unfold virNetClientIOEventLoopSweep
  dsimp only
  split
  · exact virNetClientIOEventLoopPassTheBuck_legal _ _
      (virNetClientQueueLegal_of_sublist _ _ hcs (virNetClientCallRemove_sublist _ _) (le_refl _))
  · split
    · rename_i hown
      exact virNetClientIOEventLoopPassTheBuck_legal _ _
        (virNetClientIODetachNonBlocking_legal _ thiscall hcs hown)
    · split
      · exact virNetClientIOEventLoopError_legal _ _
          (virNetClientQueueLegal_of_sublist _ _ hcs (List.Sublist.refl _) (le_refl _))
      · exact hcs

/-- A turn of the event loop keeps the invariant of the queue. -/
theorem virNetClientIOEventLoopTurn_legal {X : virNetCollab} (env : virNetClientPoll)
    (c : virNetClient X) (thiscall : virNetClientCall) (step : virNetClientIOStep X)
    (hstep : virNetClientIOEventLoopTurn env c thiscall = some step)
    (h : virNetClientQueueLegal c) : virNetClientQueueLegal step.client := by
  rcases virNetClientIOEventLoopTurn_shape env c thiscall step hstep with
    ⟨c1, hg, hs⟩ | ⟨revents, c1, hg, hs⟩
  · rw [hs]
    exact virNetClientIOEventLoopError_legal c1 thiscall (virNetClientQueueLegal_grows c c1 hg h)
  · rw [hs]
    exact virNetClientIOEventLoopSweep_legal revents c1 thiscall
      (virNetClientQueueLegal_grows c c1 hg h)

/-- The function `virNetClientIOEventLoop` keeps the invariant of the queue. -/
theorem virNetClientIOEventLoop_legal {X : virNetCollab} (polls : List virNetClientPoll) :
    ∀ (c : virNetClient X) (thiscall : virNetClientCall) (r : virNetClientIOResult X),
      virNetClientQueueLegal c → virNetClientIOEventLoop polls c thiscall = some r →
      virNetClientQueueLegal r.client := by
  induction polls with
  | nil => intro c thiscall r _ h; simp [virNetClientIOEventLoop] at h
  | cons env rest ih =>
    intro c thiscall r hc h
    unfold virNetClientIOEventLoop at h
    cases hturn : virNetClientIOEventLoopTurn env c thiscall with
    | none => rw [hturn] at h; simp at h
    | some step =>
      have hl := virNetClientIOEventLoopTurn_legal env c thiscall step hturn hc
      rw [hturn] at h
      cases step with
      | done r1 =>
        simp only [Option.some.injEq] at h
        rw [← h]
        exact hl
      | again c1 => exact ih c1 thiscall r hl h

/-- The flags of a call that `virNetClientCallNew` returns: as given, and not both
true. -/
theorem virNetClientCallNew_flags (addr : Nat) (msg : virNetMessage)
    (expectReply nonBlock : Bool) (call : virNetClientCall)
    (h : virNetClientCallNew addr msg expectReply nonBlock = some call) :
    call.expectReply = expectReply ∧ call.nonBlock = nonBlock ∧
    (nonBlock = true → expectReply = false) := by
  unfold virNetClientCallNew at h
  split at h
  · exact absurd h (by simp)
  · split at h
    · exact absurd h (by simp)
    · rename_i hboth
      injection h with h
      rw [← h]
      refine ⟨rfl, rfl, fun hn => ?_⟩
      cases expectReply
      · rfl
      · exact absurd (by simp [hn]) hboth

/-- The function `virNetClientIO`, called with a newly allocated call whose flags
are legal, keeps the invariant of the queue, if the other threads keep it while
this one waits. -/
theorem virNetClientIO_legal {X : virNetCollab} (env : virNetClientIOEnv X)
    (c : virNetClient X) (thiscall : virNetClientCall) (r : virNetClientIOResult X)
    (hc : virNetClientQueueLegal c)
    (hfresh : ∀ x ∈ c.waitDispatch, x.addr ≠ thiscall.addr)
    (hbound : thiscall.addr < c.nextAddr) (hcall : virNetClientCallLegal thiscall)
    (hwait : ∀ w o, env.condWait = some (w, o) → virNetClientQueueLegal w)
    (h : virNetClientIO env c thiscall = some r) : virNetClientQueueLegal r.client := by
  have hq : virNetClientQueueLegal
      { c with waitDispatch := virNetClientCallQueue c.waitDispatch thiscall } := by
    refine ⟨⟨?_, ?_⟩, ?_⟩
    · show ((virNetClientCallQueue c.waitDispatch thiscall).map (fun x => x.addr)).Nodup
      rw [virNetClientCallQueue_eq_append, List.map_append, List.nodup_append]
      refine ⟨hc.1.1, by simp, ?_⟩
      intro a ha hb
      rw [List.mem_map] at ha
      obtain ⟨x, hx, rfl⟩ := ha
      simp only [List.map_cons, List.map_nil, List.mem_singleton] at hb
      exact hfresh x hx hb
    · intro x hx
      change x ∈ virNetClientCallQueue c.waitDispatch thiscall at hx
      rw [virNetClientCallQueue_eq_append, List.mem_append, List.mem_singleton] at hx
      rcases hx with hx | hx
      · exact hc.1.2 x hx
      · rw [hx]; exact hbound
    · intro x hx
      change x ∈ virNetClientCallQueue c.waitDispatch thiscall at hx
      rw [virNetClientCallQueue_eq_append, List.mem_append, List.mem_singleton] at hx
      rcases hx with hx | hx
      · exact hc.2 x hx
      · rw [hx]; exact hcall
  have hbuck : ∀ (polls : List virNetClientPoll) (c1 : virNetClient X)
      (t : virNetClientCall) (r1 : virNetClientIOResult X),
      virNetClientQueueLegal c1 → virNetClientIOBuck polls c1 t = some r1 →
      virNetClientQueueLegal r1.client := by
    intro polls c1 t r1 hc1 hb
    unfold virNetClientIOBuck at hb
    cases hloop : virNetClientIOEventLoop polls c1 t with
    | none => rw [hloop] at hb; simp at hb
    | some r2 =>
      have hl := virNetClientIOEventLoop_legal polls c1 t r2 hc1 hloop
      rw [hloop] at hb
      dsimp only at hb
      split at hb
      · simp only [Option.some.injEq] at hb
        rw [← hb]
        exact hl
      · simp only [Option.some.injEq] at hb
        rw [← hb]
        exact hl
  unfold virNetClientIO at h
  dsimp only at h
  split at h
  · split at h
    · simp only [Option.some.injEq] at h
      rw [← h]
      exact virNetClientQueueLegal_of_sublist _ _ hq (virNetClientCallRemove_sublist _ _)
        (le_refl _)
    · split at h
      · rename_i hnb
        simp only [Option.some.injEq] at h
        rw [← h]
        apply virNetClientIODetachNonBlocking_legal
          { c with waitDispatch := virNetClientCallQueue c.waitDispatch thiscall } thiscall hq
        have hfind : (virNetClientCallQueue c.waitDispatch thiscall).find?
            (fun q => decide (q.addr = thiscall.addr)) = some thiscall := by
          rw [virNetClientCallQueue_eq_append]
          exact find?_append_first _ c.waitDispatch [] thiscall
            (fun x hx => by simpa using hfresh x hx) (by simp)
        show (virNetClientCallDeref (virNetClientCallQueue c.waitDispatch thiscall)
          thiscall).nonBlock = true
        unfold virNetClientCallDeref
        rw [hfind]
        exact hnb
      · cases hw : env.condWait with
        | none =>
          rw [hw] at h
          simp only [Option.some.injEq] at h
          rw [← h]
          exact virNetClientQueueLegal_of_sublist _ _ hq (virNetClientCallRemove_sublist _ _)
            (le_refl _)
        | some wo =>
          obtain ⟨woken, own⟩ := wo
          have hwoken := hwait woken own hw
          rw [hw] at h
          dsimp only at h
          split at h
          · simp only [Option.some.injEq] at h
            rw [← h]
            exact hwoken
          · exact hbuck _ _ _ _ hwoken h
  · exact hbuck _ _ _ _
      (virNetClientQueueLegal_sublist
        { c with waitDispatch := virNetClientCallQueue c.waitDispatch thiscall }
        { c with
          waitDispatch := virNetClientCallQueue c.waitDispatch thiscall
          haveTheBuck := true }
        (List.Sublist.refl _) (le_refl _) hq) h

/-- The function `virNetClientSendInternal` keeps the invariant of the queue, if
the other threads keep it while this one waits. -/
theorem virNetClientSendInternal_legal {X : virNetCollab} (env : virNetClientIOEnv X)
    (c : virNetClient X) (msg : virNetMessage) (expectReply nonBlock : Bool)
    (r : virNetClientSendResult X) (hc : virNetClientQueueLegal c)
    (hwait : ∀ w o, env.condWait = some (w, o) → virNetClientQueueLegal w)
    (h : virNetClientSendInternal env c msg expectReply nonBlock = some r) :
    virNetClientQueueLegal r.client := by
  unfold virNetClientSendInternal at h
  split at h
  · simp only [Option.some.injEq] at h
    rw [← h]
    exact virNetClientQueueLegal_sublist c _ (List.Sublist.refl _) (le_refl _) hc
  · cases hnew : virNetClientCallNew c.nextAddr msg expectReply nonBlock with
    | none =>
      rw [hnew] at h
      simp only [Option.some.injEq] at h
      rw [← h]
      exact virNetClientQueueLegal_sublist c _ (List.Sublist.refl _) (le_refl _) hc
    | some call =>
      rw [hnew] at h
      dsimp only at h
      have haddr := virNetClientCallNew_addr _ _ _ _ call hnew
      obtain ⟨he, hn, hflags⟩ := virNetClientCallNew_flags _ _ _ _ call hnew
      cases hio : virNetClientIO env { c with nextAddr := c.nextAddr + 1 }
          { call with haveThread := true } with
      | none => rw [hio] at h; simp at h
      | some r1 =>
        have hl := virNetClientIO_legal env { c with nextAddr := c.nextAddr + 1 }
          { call with haveThread := true } r1
          (virNetClientQueueLegal_sublist c { c with nextAddr := c.nextAddr + 1 }
            (List.Sublist.refl _) (Nat.le_succ _) hc)
          (fun x hx => by
            have := hc.1.2 x hx
            show x.addr ≠ call.addr
            omega)
          (by show call.addr < c.nextAddr + 1; omega)
          ⟨fun hth => absurd hth (by simp), fun hnb => by
            show call.expectReply = false
            rw [he]
            exact hflags (by rw [← hn]; exact hnb)⟩
          hwait hio
        rw [hio] at h
        dsimp only at h
        split at h
        · simp only [Option.some.injEq] at h
          rw [← h]
          exact hl
        · simp only [Option.some.injEq] at h
          rw [← h]
          exact virNetClientQueueLegal_sublist r1.client _ (List.Sublist.refl _) (le_refl _) hl

/-- Every connection state the operations of the client lead to has the invariant
of the queue. -/
theorem virNetClientReachable_legal {X : virNetCollab} (c : virNetClient X)
    (h : virNetClientReachable c) : virNetClientQueueLegal c := by
  induction h with
  | init c h =>
    refine ⟨⟨?_, ?_⟩, ?_⟩
    · rw [h]; exact List.nodup_nil
    · intro x hx; rw [h] at hx; simp at hx
    · intro x hx; rw [h] at hx; simp at hx
  | send env c msg expectReply nonBlock r _ _ h ihc ihwait =>
    exact virNetClientSendInternal_legal env c msg expectReply nonBlock r ihc ihwait h
  | eventLoop polls c thiscall r _ h ihc =>
    exact virNetClientIOEventLoop_legal polls c thiscall r ihc h
  | queueNonBlocking c msg _ ihc =>
    exact virNetClientQueueLegal_grows _ _ (virNetClientQueueNonBlocking_grows c msg) ihc
  | handleOutput c _ ihc =>
    exact virNetClientQueueLegal_grows _ _ (virNetClientIOHandleOutput_grows c) ihc
  | handleInput fuel c r _ h ihc =>
    exact virNetClientQueueLegal_grows _ _ (virNetClientIOHandleInput_grows fuel c r h) ihc
  | sweep c thiscall _ ihc =>
    exact virNetClientQueueLegal_sublist c _ (virNetClientCallRemovePredicate_sublist _ _ _)
      (le_refl _) ihc
  | passTheBuck c thiscall _ ihc =>
    exact virNetClientIOEventLoopPassTheBuck_legal c thiscall ihc

/-- On a queue of calls with legal flags the sweep of the completed calls never
warns of a call that expects a reply and has no thread. -/
theorem virNetClientCallRemovePredicate_removeDone_warn (thiscall : Option Nat) :
    ∀ (queue : List virNetClientCall) (trace : List virNetClientEvent),
      (∀ x ∈ queue, virNetClientCallLegal x) →
      (virNetClientCallRemovePredicate (virNetClientIOEventLoopRemoveDone thiscall)
        queue trace).2.filter virNetClientEvent.isWarn =
        trace.filter virNetClientEvent.isWarn := by
  intro queue
  induction queue with
  | nil => intro trace _; rfl
  | cons a queue ih =>
    intro trace hl
    have ha := hl a (List.mem_cons_self a queue)
    have hrest : ∀ x ∈ queue, virNetClientCallLegal x :=
      fun x hx => hl x (List.mem_cons_of_mem a hx)
    have hpred : ((virNetClientIOEventLoopRemoveDone thiscall a trace).2.filter
        virNetClientEvent.isWarn = trace.filter virNetClientEvent.isWarn) := by
      unfold virNetClientIOEventLoopRemoveDone
      split_ifs with h1 h2 h3 h4
      · rfl
      · rfl
      · simp [List.filter_append, virNetClientEvent.isWarn]
      · exfalso
        have hth : a.haveThread = false := by simpa using h3
        have := ha.2 (ha.1 hth)
        rw [h4] at this
        exact absurd this (by simp)
      · simp [List.filter_append, virNetClientEvent.isWarn]
    rw [virNetClientCallRemovePredicate]
    split
    · rw [ih _ hrest, hpred]
    · show (virNetClientCallRemovePredicate (virNetClientIOEventLoopRemoveDone thiscall) queue
        (virNetClientIOEventLoopRemoveDone thiscall a trace).2).2.filter
          virNetClientEvent.isWarn = _
      rw [ih _ hrest, hpred]

/-- Claim C28 (only non-blocking calls without reply can be without a thread). In
every connection state that the operations of the client lead to, every queued
call with `haveThread = false` has `nonBlock = true` and `expectReply = false`.
Hence the sweep of the completed calls, for any own call, never takes the branch
that warns of a call expecting a reply without a waiting thread; and when no queued
call has a thread, every queued call is non-blocking. -/
theorem C28_threadless_calls_are_nonblocking {X : virNetCollab} (client : virNetClient X)
    (h : virNetClientReachable client) :
    (∀ call ∈ client.waitDispatch, call.haveThread = false →
      call.nonBlock = true ∧ call.expectReply = false) ∧
    (∀ thiscall : Option Nat,
      (virNetClientCallRemovePredicate (virNetClientIOEventLoopRemoveDone thiscall)
        client.waitDispatch client.trace).2.filter virNetClientEvent.isWarn =
        client.trace.filter virNetClientEvent.isWarn) ∧
    ((∀ call ∈ client.waitDispatch, call.haveThread = false) →
      ∀ call ∈ client.waitDispatch, call.nonBlock = true) := by
  have hl := virNetClientReachable_legal client h
  refine ⟨fun call hc hth => ?_, fun thiscall => ?_, fun hall call hc => ?_⟩
  · have hcall := hl.2 call hc
    exact ⟨hcall.1 hth, hcall.2 (hcall.1 hth)⟩
  · exact virNetClientCallRemovePredicate_removeDone_warn thiscall _ _ hl.2
  · exact (hl.2 call hc).1 (hall call hc)

/-- Witness of C28: a non-blocking send on an open connection with an empty queue
whose buck is held leaves the new call queued without a thread; the call is
non-blocking and expects no reply. -/
theorem C28_threadless_calls_are_nonblocking_witness :
    virNetClientSendNonBlock sampleIOEnv
        (sampleClient []
          (sampleMessage 0 virNetMessageType.VIR_NET_CALL virNetMessageStatus.VIR_NET_OK))
        (sampleNonBlockCall 0 2).msg = some sampleNonBlockSent ∧
    sampleNonBlockSent.client.waitDispatch.map virNetClientCallKey =
      [(100, false, true, false)] ∧
    (∀ call ∈ sampleNonBlockSent.client.waitDispatch, call.haveThread = false →
      call.nonBlock = true ∧ call.expectReply = false) :=
  ⟨rfl, rfl,
   (C28_threadless_calls_are_nonblocking sampleNonBlockSent.client
      (virNetClientReachable.send sampleIOEnv
        (sampleClient []
          (sampleMessage 0 virNetMessageType.VIR_NET_CALL virNetMessageStatus.VIR_NET_OK))
        (sampleNonBlockCall 0 2).msg false true sampleNonBlockSent
        (virNetClientReachable.init _ rfl)
        (fun w o hw => Option.noConfusion
          (show (none : Option (virNetClient sampleCollab × virNetClientCall)) = some (w, o)
            from hw))
        rfl)).1⟩

/-- The check for completion is its part up to a whole frame, followed by the
processing of the frame. -/
theorem virNetClientIOHandleInputCheck_receive {X : virNetCollab} (client : virNetClient X) :
    virNetClientIOHandleInputCheck client =
      match virNetClientIOHandleInputCheckFrame client with
      | virNetClientIOReceived.again c => virNetClientLoop.again c
      | virNetClientIOReceived.done ret c => virNetClientLoop.done ret c
      | virNetClientIOReceived.frame c => virNetClientIOHandleInputFrame c := by
  unfold virNetClientIOHandleInputCheck virNetClientIOHandleInputCheckFrame
  split_ifs
  · cases X.virNetMessageDecodeLength client.msg <;> rfl
  · rfl
  · rfl

/-- A turn of the input loop is its part up to a whole frame, followed by the
processing of the frame. -/
theorem virNetClientIOHandleInputTurn_receive {X : virNetCollab} (client : virNetClient X) :
    virNetClientIOHandleInputTurn client =
      match virNetClientIOHandleInputTurnFrame client with
      | virNetClientIOReceived.again c => virNetClientLoop.again c
      | virNetClientIOReceived.done ret c => virNetClientLoop.done ret c
      | virNetClientIOReceived.frame c => virNetClientIOHandleInputFrame c := by
  unfold virNetClientIOHandleInputTurn virNetClientIOHandleInputTurnFrame
  dsimp only
  split_ifs
  · rfl
  · rfl
  · exact virNetClientIOHandleInputCheck_receive _
  · exact virNetClientIOHandleInputCheck_receive _

/-- The input pass is its turns up to the first whole frame, followed by the
processing of that frame and, if the loop goes round again, by the input pass on
what is left. -/
theorem virNetClientIOHandleInput_receive {X : virNetCollab} (fuel : Nat)
    (client : virNetClient X) :
    virNetClientIOHandleInput fuel client =
      match virNetClientIOHandleInputReceive fuel client with
      | none => none
      | some (virNetClientIOReceived.again _, _) => none
      | some (virNetClientIOReceived.done ret c, _) => some (ret, c)
      | some (virNetClientIOReceived.frame cf, rest) =>
        match virNetClientIOHandleInputFrame cf with
        | virNetClientLoop.done ret c => some (ret, c)
        | virNetClientLoop.again c => virNetClientIOHandleInput rest c := by
  induction fuel generalizing client with
  | zero => rfl
  | succ n ih =>
    rw [virNetClientIOHandleInput, virNetClientIOHandleInputReceive,
      virNetClientIOHandleInputTurn_receive]
    cases h : virNetClientIOHandleInputTurnFrame client with
    | again c => exact ih c
    | done ret c => rfl
    | frame c => rfl

/-- Changing only the socket and the receive buffer, twice, is changing only the
socket and the receive buffer. -/
theorem virNetClient_sock_msg_trans {X : virNetCollab} (a b c : virNetClient X)
    (h1 : b = { a with sock := b.sock, msg := b.msg })
    (h2 : c = { b with sock := c.sock, msg := c.msg }) :
    c = { a with sock := c.sock, msg := c.msg } := by
  cases a
  cases b
  cases c
  simp only [virNetClient.mk.injEq, true_and] at h1 h2 ⊢
  obtain ⟨e1, e2, e3, e4, e5, e6, e7, e8, e9, e10⟩ := h1
  obtain ⟨f1, f2, f3, f4, f5, f6, f7, f8, f9, f10⟩ := h2
  exact ⟨f1.trans e1, f2.trans e2, f3.trans e3, f4.trans e4, f5.trans e5, f6.trans e6,
    f7.trans e7, f8.trans e8, f9.trans e9, f10.trans e10⟩

/-- Reading a frame changes only the socket and the receive buffer of the
connection, and never ends in a turn still due. -/
theorem virNetClientIOHandleInputReceive_keeps {X : virNetCollab} (fuel : Nat)
    (client : virNetClient X) (t : virNetClientIOReceived X) (rest : Nat)
    (h : virNetClientIOHandleInputReceive fuel client = some (t, rest)) :
    rest < fuel ∧ (∀ c, t ≠ virNetClientIOReceived.again c) ∧
    t.client = { client with sock := t.client.sock, msg := t.client.msg } := by
  have hread : ∀ c : virNetClient X, (virNetClientIOReadMessage c).2 =
      { c with sock := (virNetClientIOReadMessage c).2.sock,
               msg := (virNetClientIOReadMessage c).2.msg } := by
    intro c
    unfold virNetClientIOReadMessage
    dsimp only
    split_ifs <;> rfl
  have hcheck : ∀ c : virNetClient X, (virNetClientIOHandleInputCheckFrame c).client =
      { c with sock := (virNetClientIOHandleInputCheckFrame c).client.sock,
               msg := (virNetClientIOHandleInputCheckFrame c).client.msg } := by
    intro c
    unfold virNetClientIOHandleInputCheckFrame
    split_ifs
    · cases X.virNetMessageDecodeLength c.msg <;> rfl
    · rfl
    · rfl
  have hturn : ∀ c : virNetClient X, (virNetClientIOHandleInputTurnFrame c).client =
      { c with sock := (virNetClientIOHandleInputTurnFrame c).client.sock,
               msg := (virNetClientIOHandleInputTurnFrame c).client.msg } := by
    intro c
    unfold virNetClientIOHandleInputTurnFrame
    dsimp only
    split_ifs
    · exact hread c
    · exact hread c
    · exact virNetClient_sock_msg_trans _ _ _ (hread c) (hcheck _)
    · exact hcheck c
  induction fuel generalizing client with
  | zero => exact Option.noConfusion (show (none : Option _) = some (t, rest) from h)
  | succ n ih =>
    rw [virNetClientIOHandleInputReceive] at h
    have ht := hturn client
    cases hc : virNetClientIOHandleInputTurnFrame client with
    | again c =>
      rw [hc] at h ht
      obtain ⟨h1, h2, h3⟩ := ih c h
      exact ⟨by omega, h2, virNetClient_sock_msg_trans _ _ _ ht h3⟩
    | done ret c =>
      rw [hc] at h ht
      simp only [Option.some.injEq, Prod.mk.injEq] at h
      obtain ⟨rfl, rfl⟩ := h
      exact ⟨by omega, fun _ hx => virNetClientIOReceived.noConfusion hx, ht⟩
    | frame c =>
      rw [hc] at h ht
      simp only [Option.some.injEq, Prod.mk.injEq] at h
      obtain ⟨rfl, rfl⟩ := h
      exact ⟨by omega, fun _ hx => virNetClientIOReceived.noConfusion hx, ht⟩

/-- The input pass on a connection that receives a whole frame: the frame is
dispatched on the connection that `virNetClientIOAtDispatch` describes, and the loop
goes on with the turns that are left. -/
theorem virNetClientIOHandleInput_atDispatch {X : virNetCollab} (fuel : Nat)
    (client frame : virNetClient X) (rest : Nat) (hmsg : virNetMessage) (c1 : virNetClient X)
    (h : virNetClientIOReceivesFrame fuel client frame rest hmsg)
    (hready : virNetClientIOAtDispatch frame hmsg = some c1) :
    virNetClientIOHandleInput fuel client =
      match virNetClientIOHandleInputDispatch c1 with
      | virNetClientLoop.done ret c => some (ret, c)
      | virNetClientLoop.again c => virNetClientIOHandleInput rest c := by
  obtain ⟨hrecv, hdec⟩ := h
  rw [virNetClientIOHandleInput_receive, hrecv]
  dsimp only
  rw [virNetClientIOHandleInputFrame_atDispatch frame hmsg c1 hdec hready]

/-- The frame step of the input pass on a frame that is not handed to the router
(the descriptor count cannot be decoded, a descriptor receipt fails, or descriptors
are still missing) returns -1 or 0 and leaves the queue and the trace alone. -/
theorem virNetClientIOHandleInputFrame_notDispatched {X : virNetCollab}
    (client : virNetClient X) (hmsg : virNetMessage)
    (hdec : X.virNetMessageDecodeHeader client.msg = some hmsg)
    (hnot : virNetClientIOAtDispatch client hmsg = none) :
    ∃ ret c, virNetClientIOHandleInputFrame client = virNetClientLoop.done ret c ∧
      (ret = 0 ∨ ret = -1) ∧ c.waitDispatch = client.waitDispatch ∧ c.trace = client.trace := by
  unfold virNetClientIOHandleInputFrame
  unfold virNetClientIOAtDispatch at hnot
  simp only [hdec]
  by_cases htype : hmsg.header.type = virNetMessageType.VIR_NET_REPLY_WITH_FDS
  · simp only [htype, if_true] at hnot ⊢
    cases hnum : X.virNetMessageDecodeNumFDs hmsg with
    | none => exact ⟨_, _, rfl, Or.inr rfl, rfl, rfl⟩
    | some nmsg =>
      simp only [hnum] at hnot ⊢
      by_cases hfail : (virNetClientIOHandleInputFDs (nmsg.nfds - nmsg.donefds)
            client.sock nmsg).1 = true
      · simp only [hfail, if_true]
        exact ⟨_, _, rfl, Or.inr rfl, rfl, rfl⟩
      · by_cases hless : (virNetClientIOHandleInputFDs (nmsg.nfds - nmsg.donefds)
              client.sock nmsg).2.2.donefds <
            (virNetClientIOHandleInputFDs (nmsg.nfds - nmsg.donefds) client.sock nmsg).2.2.nfds
        · simp only [hfail, hless, if_true, if_false]
          exact ⟨_, _, rfl, Or.inl rfl, rfl, rfl⟩
        · simp [hfail, hless] at hnot
  · simp [htype] at hnot

/-- A read that returns bytes takes them off the script of the socket. -/
theorem virNetSocketRead_pending (sock : Option virNetSocket) (len : Nat)
    (h : 0 < (virNetSocketRead sock len).1) :
    virNetSocketPending (virNetSocketRead sock len).2.1 < virNetSocketPending sock := by
  cases sock with
  | none => exact absurd h (by simp [virNetSocketRead])
  | some s =>
    obtain ⟨rx, tx, rxfds, txfds, cached⟩ := s
    cases rx with
    | nil => exact absurd h (by simp [virNetSocketRead])
    | cons r rest =>
      cases r with
      | error => exact absurd h (by simp [virNetSocketRead])
      | wouldBlock => exact absurd h (by simp [virNetSocketRead])
      | ok chunk =>
        unfold virNetSocketRead at h ⊢
        dsimp only at h ⊢
        split_ifs at h ⊢ with hlt
        · have hpos : 0 < len := by
            have h2 : (0 : Int) < (len : Int) := h
            exact_mod_cast h2
          simp only [virNetSocketPending, virNetSocketScriptSize, List.length_drop]
          omega
        · simp only [virNetSocketPending, virNetSocketScriptSize]
          omega

/-- Reading into the receive buffer leaves the descriptor count alone, and a read
that returns bytes takes them off the script of the socket. -/
theorem virNetClientIOReadMessage_pending {X : virNetCollab} (client : virNetClient X) :
    (virNetClientIOReadMessage client).2.msg.nfds = client.msg.nfds ∧
    (0 < (virNetClientIOReadMessage client).1 →
      virNetSocketPending (virNetClientIOReadMessage client).2.sock <
        virNetSocketPending client.sock) := by
  constructor
  · unfold virNetClientIOReadMessage
    dsimp only
    split_ifs <;> rfl
  · intro h
    unfold virNetClientIOReadMessage at h ⊢
    dsimp only at h ⊢
    split_ifs at h ⊢ with h1 h2 h3
    · exact absurd h (not_lt.mpr h2)
    · exact virNetSocketRead_pending _ _ h
    · exact absurd h (not_lt.mpr h3)
    · exact virNetSocketRead_pending _ _ h

/-- Receiving descriptors leaves the script of reads and the length of the buffer
alone. -/
theorem virNetClientIOHandleInputFDs_pending (n : Nat) (sock : Option virNetSocket)
    (msg : virNetMessage) :
    virNetSocketPending (virNetClientIOHandleInputFDs n sock msg).2.1 =
      virNetSocketPending sock ∧
    (virNetClientIOHandleInputFDs n sock msg).2.2.bufferLength = msg.bufferLength := by
  have hrecv : ∀ s : Option virNetSocket,
      virNetSocketPending (virNetSocketRecvFD s).2.1 = virNetSocketPending s := by
    intro s
    cases s with
    | none => rfl
    | some sk =>
      obtain ⟨rx, tx, rxfds, txfds, cached⟩ := sk
      cases rxfds with
      | nil => rfl
      | cons r rest => cases r <;> rfl
  induction n generalizing sock msg with
  | zero => exact ⟨rfl, rfl⟩
  | succ n ih =>
    rw [virNetClientIOHandleInputFDs]
    split_ifs
    · exact ⟨hrecv sock, rfl⟩
    · exact ⟨hrecv sock, rfl⟩
    · obtain ⟨h1, h2⟩ := ih (virNetSocketRecvFD sock).2.1
        { msg with
          fds := msg.fds.set msg.donefds ((virNetSocketRecvFD sock).2.2.getD 0)
          donefds := msg.donefds + 1 }
      exact ⟨h1.trans (hrecv sock), h2⟩

/-- When the dispatch step of the input loop goes round again, the receive buffer
is empty and the socket is as it was. -/
theorem virNetClientIOHandleInputDispatch_again {X : virNetCollab} (c c1 : virNetClient X)
    (h : virNetClientIOHandleInputDispatch c = virNetClientLoop.again c1) :
    c1.msg.bufferLength = 0 ∧ c1.msg.bufferOffset = 0 ∧ c1.sock = c.sock := by
  unfold virNetClientIOHandleInputDispatch at h
  dsimp only at h
  split_ifs at h
  simp only [virNetClientLoop.again.injEq] at h
  subst h
  exact ⟨rfl, rfl, virNetClientCallDispatch_sock c⟩

/-- When the frame step of the input loop goes round again, the receive buffer is
empty and the script of reads is as it was. -/
theorem virNetClientIOHandleInputFrame_again {X : virNetCollab} (c c1 : virNetClient X)
    (h : virNetClientIOHandleInputFrame c = virNetClientLoop.again c1) :
    c1.msg.bufferLength = 0 ∧ c1.msg.bufferOffset = 0 ∧
    virNetSocketPending c1.sock = virNetSocketPending c.sock := by
  unfold virNetClientIOHandleInputFrame at h
  cases hdec : X.virNetMessageDecodeHeader c.msg with
  | none =>
    rw [hdec] at h
    exact virNetClientLoop.noConfusion h
  | some hmsg =>
    rw [hdec] at h
    dsimp only at h
    split_ifs at h with htype
    · cases hnum : X.virNetMessageDecodeNumFDs hmsg with
      | none =>
        rw [hnum] at h
        exact virNetClientLoop.noConfusion h
      | some nmsg =>
        rw [hnum] at h
        dsimp only at h
        split_ifs at h
        obtain ⟨h1, h2, h3⟩ := virNetClientIOHandleInputDispatch_again _ _ h
        refine ⟨h1, h2, ?_⟩
        rw [h3]
        exact (virNetClientIOHandleInputFDs_pending _ _ _).1
    · obtain ⟨h1, h2, h3⟩ := virNetClientIOHandleInputDispatch_again _ _ h
      refine ⟨h1, h2, ?_⟩
      rw [h3]

/-- The dispatch step of the input loop leaves the receive buffer empty. -/
theorem virNetClientIOHandleInputDispatch_receiveState {X : virNetCollab}
    (c : virNetClient X) :
    (∀ c1, virNetClientIOHandleInputDispatch c = virNetClientLoop.again c1 →
      virNetClientReceiveState c1.msg) ∧
    (∀ ret c1, virNetClientIOHandleInputDispatch c = virNetClientLoop.done ret c1 →
      virNetClientReceiveState c1.msg) := by
  constructor
  · intro c1 h
    obtain ⟨h1, h2, _⟩ := virNetClientIOHandleInputDispatch_again c c1 h
    intro _
    exact ⟨by rw [h1, h2], by rw [h2]; decide⟩
  · intro ret c1 h
    unfold virNetClientIOHandleInputDispatch at h
    dsimp only at h
    split_ifs at h
    simp only [virNetClientLoop.done.injEq] at h
    obtain ⟨_, rfl⟩ := h
    intro _
    exact ⟨rfl, (by decide : (0 : Nat) ≠ 4)⟩

/-- The frame step of the input loop, entered with a whole frame in the buffer,
keeps the state of the receive buffer unless it fails. -/
theorem virNetClientIOHandleInputFrame_receiveState {X : virNetCollab}
    (hkeep : virNetMessageCodecKeepsLength X) (c : virNetClient X)
    (hbody : c.msg.bufferLength ≠ 4) :
    (∀ c1, virNetClientIOHandleInputFrame c = virNetClientLoop.again c1 →
      virNetClientReceiveState c1.msg) ∧
    (∀ ret c1, virNetClientIOHandleInputFrame c = virNetClientLoop.done ret c1 → 0 ≤ ret →
      virNetClientReceiveState c1.msg) := by
  obtain ⟨hkh, hkn⟩ := hkeep
  constructor
  · intro c1 h
    obtain ⟨h1, h2, _⟩ := virNetClientIOHandleInputFrame_again c c1 h
    intro _
    exact ⟨by rw [h1, h2], by rw [h2]; decide⟩
  · intro ret c1 h hret
    unfold virNetClientIOHandleInputFrame at h
    cases hdec : X.virNetMessageDecodeHeader c.msg with
    | none =>
      rw [hdec] at h
      simp only [virNetClientLoop.done.injEq] at h
      rw [← h.1] at hret
      exact absurd hret (by decide)
    | some hmsg =>
      rw [hdec] at h
      dsimp only at h
      split_ifs at h with htype
      · cases hnum : X.virNetMessageDecodeNumFDs hmsg with
        | none =>
          rw [hnum] at h
          simp only [virNetClientLoop.done.injEq] at h
          rw [← h.1] at hret
          exact absurd hret (by decide)
        | some nmsg =>
          rw [hnum] at h
          dsimp only at h
          split_ifs at h
          · simp only [virNetClientLoop.done.injEq] at h
            rw [← h.1] at hret
            exact absurd hret (by decide)
          · simp only [virNetClientLoop.done.injEq] at h
            obtain ⟨_, rfl⟩ := h
            intro _
            refine ⟨rfl, ?_⟩
            show (virNetClientIOHandleInputFDs (nmsg.nfds - nmsg.donefds) c.sock
              nmsg).2.2.bufferLength ≠ 4
            rw [(virNetClientIOHandleInputFDs_pending _ _ _).2, hkn _ _ hnum, hkh _ _ hdec]
            exact hbody
          · exact (virNetClientIOHandleInputDispatch_receiveState _).2 ret c1 h
      · exact (virNetClientIOHandleInputDispatch_receiveState _).2 ret c1 h

/-- A turn of the input loop keeps the state of the receive buffer unless it
fails. -/
theorem virNetClientIOHandleInputTurn_receiveState {X : virNetCollab}
    (hlen : ∀ m l, X.virNetMessageDecodeLength m = some l → l.nfds = m.nfds)
    (hkeep : virNetMessageCodecKeepsLength X) (c : virNetClient X)
    (hstate : virNetClientReceiveState c.msg) :
    (∀ c1, virNetClientIOHandleInputTurn c = virNetClientLoop.again c1 →
      virNetClientReceiveState c1.msg) ∧
    (∀ ret c1, virNetClientIOHandleInputTurn c = virNetClientLoop.done ret c1 → 0 ≤ ret →
      virNetClientReceiveState c1.msg) := by
  have hcheck : ∀ c0 : virNetClient X, c0.msg.nfds = 0 ∨
        (c0.msg.bufferOffset = c0.msg.bufferLength ∧ c0.msg.bufferOffset ≠ 4) →
      (∀ c1, virNetClientIOHandleInputCheck c0 = virNetClientLoop.again c1 →
        virNetClientReceiveState c1.msg) ∧
      (∀ ret c1, virNetClientIOHandleInputCheck c0 = virNetClientLoop.done ret c1 → 0 ≤ ret →
        virNetClientReceiveState c1.msg) := by
    intro c0 h0
    unfold virNetClientIOHandleInputCheck
    split_ifs with hfull hword
    · have hn : c0.msg.nfds = 0 := by
        rcases h0 with h | h
        · exact h
        · exact absurd hword h.2
      cases hl : X.virNetMessageDecodeLength c0.msg with
      | none =>
        refine ⟨fun c1 h => (by cases h), fun ret c1 h hret => ?_⟩
        simp only [virNetClientLoop.done.injEq] at h
        rw [← h.1] at hret
        exact absurd hret (by decide)
      | some l =>
        refine ⟨fun c1 h => ?_, fun ret c1 h _ => (by cases h)⟩
        simp only [virNetClientLoop.again.injEq] at h
        subst h
        intro hne
        exact absurd ((hlen _ _ hl).trans hn) hne
    · exact virNetClientIOHandleInputFrame_receiveState hkeep c0 (by rw [← hfull]; exact hword)
    · have hn : c0.msg.nfds = 0 := by
        rcases h0 with h | h
        · exact h
        · exact absurd h.1 hfull
      refine ⟨fun c1 h => ?_, fun ret c1 h _ => (by cases h)⟩
      simp only [virNetClientLoop.again.injEq] at h
      subst h
      intro hne
      exact absurd hn hne
  unfold virNetClientIOHandleInputTurn
  dsimp only
  split_ifs with hn h1 h2
  · refine ⟨fun c1 h => (by cases h), fun ret c1 h hret => ?_⟩
    simp only [virNetClientLoop.done.injEq] at h
    rw [← h.1] at hret
    exact absurd hret (by decide)
  · refine ⟨fun c1 h => (by cases h), fun ret c1 h _ => ?_⟩
    simp only [virNetClientLoop.done.injEq] at h
    obtain ⟨_, rfl⟩ := h
    intro hne
    exact absurd ((virNetClientIOReadMessage_pending c).1.trans hn) hne
  · exact hcheck _ (Or.inl ((virNetClientIOReadMessage_pending c).1.trans hn))
  · exact hcheck c (Or.inr (hstate hn))

/-- The input pass keeps the state of the receive buffer: when it returns without
failing, from a state in which a whole frame is in the buffer while descriptors are
pending, it leaves such a state behind. -/
theorem virNetClientIOHandleInput_receiveState {X : virNetCollab}
    (hlen : ∀ m l, X.virNetMessageDecodeLength m = some l → l.nfds = m.nfds)
    (hkeep : virNetMessageCodecKeepsLength X) (fuel : Nat) (c : virNetClient X) (ret : Int)
    (c1 : virNetClient X) (hstate : virNetClientReceiveState c.msg)
    (h : virNetClientIOHandleInput fuel c = some (ret, c1)) (hret : 0 ≤ ret) :
    virNetClientReceiveState c1.msg := by
  induction fuel generalizing c with
  | zero => exact Option.noConfusion (show (none : Option _) = some _ from h)
  | succ n ih =>
    rw [virNetClientIOHandleInput] at h
    obtain ⟨hagain, hdone⟩ := virNetClientIOHandleInputTurn_receiveState hlen hkeep c hstate
    cases hturn : virNetClientIOHandleInputTurn c with
    | again c2 =>
      rw [hturn] at h
      exact ih c2 (hagain c2 hturn) h
    | done r c2 =>
      rw [hturn] at h
      simp only [Option.some.injEq, Prod.mk.injEq] at h
      obtain ⟨rfl, rfl⟩ := h
      exact hdone _ _ hturn hret

/-- Claim C23, as stated, fails at a queue that the entry points of the client
build. A non-blocking send during which `poll` reports nothing leaves its call
queued, unsent and without a thread. `virNetClientSendNoReply` with a message
without payload then creates a call in the mode WAIT_RX, not the sending mode, and
queues it behind the first; its thread takes the buck and `poll` reports the socket
writable. The output pass writes the first call and then hands the second call to
`virNetClientIOWriteMessage`, which sets its mode to COMPLETE: the send returns 0
although the call never was in the sending mode. On the connection with an empty
queue the same send is still waiting after three such answers. -/
theorem C23_output_pass_completes_waiting_call :
    virNetClientSendNonBlock { wakeupWrite := true, condWait := none, polls := [samplePoll] }
        sampleIdleClient (sampleNonBlockCall 0 1).msg =
      some { ret := 1, client := sampleQueuedClient, msg := (sampleNonBlockCall 0 1).msg } ∧
    (virNetClientCallNew sampleQueuedClient.nextAddr
        (sampleMessage 2 virNetMessageType.VIR_NET_CALL virNetMessageStatus.VIR_NET_OK)
        false false).map (fun call => { call with haveThread := true }) =
      some sampleEmptyCall ∧
    (virNetClientCallQueue sampleQueuedClient.waitDispatch sampleEmptyCall).map
        (fun c => (c.addr, c.mode)) =
      [(100, virNetClientMode.VIR_NET_CLIENT_MODE_WAIT_TX),
       (101, virNetClientMode.VIR_NET_CLIENT_MODE_WAIT_RX)] ∧
    (virNetClientIOHandleOutput
        { sampleQueuedClient with
          waitDispatch := virNetClientCallQueue sampleQueuedClient.waitDispatch sampleEmptyCall
          haveTheBuck := true
          nextAddr := 102 }).2.waitDispatch.map (fun c => (c.addr, c.mode)) =
      [(100, virNetClientMode.VIR_NET_CLIENT_MODE_COMPLETE),
       (101, virNetClientMode.VIR_NET_CLIENT_MODE_COMPLETE)] ∧
    (virNetClientSendNoReply
        { wakeupWrite := true, condWait := none, polls := [sampleWritable] }
        sampleQueuedClient
        (sampleMessage 2 virNetMessageType.VIR_NET_CALL virNetMessageStatus.VIR_NET_OK)).map
      (fun r => (r.ret, r.client.trace, r.client.waitDispatch)) =
      some (0,
        [virNetClientEvent.socketWrite [0, 0, 0, 12, 1, 1, 7, 0, 1, 0, 1, 2],
         virNetClientEvent.callFree 100, virNetClientEvent.callFree 101],
        []) ∧
    (virNetClientSendNoReply
        { wakeupWrite := true, condWait := none
          polls := [sampleWritable, sampleWritable, sampleWritable] }
        sampleIdleClient
        (sampleMessage 2 virNetMessageType.VIR_NET_CALL virNetMessageStatus.VIR_NET_OK)).map
      (fun r => r.ret) = none := by
  refine ⟨rfl, rfl, rfl, rfl, rfl, rfl⟩

/-- Witness of the amended C23: a sent call that passed two descriptors stands
before a call to send, and a call that waits for input stands behind; the pass
sends the one call and leaves the other two as they are. -/
theorem C23_output_pass_keeps_idle_calls_witness :
    (virNetClientIOHandleOutput sampleOutputIdleClient).2.waitDispatch =
      [sampleSentFDCall 9 0,
       { sampleNonBlockCall 10 1 with
         mode := virNetClientMode.VIR_NET_CLIENT_MODE_COMPLETE
         msg := { (sampleNonBlockCall 10 1).msg with
                  buffer := [], bufferLength := 0, bufferOffset := 0 } },
       sampleCall 11 2] ∧
    List.Forall₂ virNetClientCallKept sampleOutputIdleClient.waitDispatch
      (virNetClientIOHandleOutput sampleOutputIdleClient).2.waitDispatch :=
  ⟨by decide,
   (C23_output_pass_keeps_idle_calls sampleOutputIdleClient [sampleSentFDCall 9 0]
      [sampleNonBlockCall 10 1, sampleCall 11 2] rfl (by decide)
      (by
        intro c hc hm
        simp only [List.mem_cons, List.mem_singleton, List.not_mem_nil, or_false] at hc
        rcases hc with rfl | rfl
        · exact absurd rfl hm
        · exact ⟨rfl, rfl, rfl, rfl, rfl, rfl⟩)).1⟩

/-- The input pass returns what it returns from any point that its loop
reaches. -/
theorem virNetClientIOHandleInput_reaches {X : virNetCollab} (fuel : Nat)
    (client : virNetClient X) (left : Nat) (last : virNetClient X)
    (h : virNetClientIOHandleInputReaches fuel client left last) :
    virNetClientIOHandleInput fuel client = virNetClientIOHandleInput left last := by
  induction h with
  | start fuel client => rfl
  | turn fuel client next left last hturn _ ih =>
    rw [virNetClientIOHandleInput, hturn]
    exact ih

/-- The input pass that receives a whole frame which is not a reply with
descriptors and whose dispatch returns a value other than 0 returns that value;
the connection is the one the router left, with the receive buffer reset. -/
theorem virNetClientIOHandleInput_dispatch_fails {X : virNetCollab} (fuel : Nat)
    (client cf : virNetClient X) (rest : Nat) (hmsg : virNetMessage) (ret : Int)
    (c : virNetClient X)
    (h : virNetClientIOReceivesFrame fuel client cf rest hmsg)
    (htype : hmsg.header.type ≠ virNetMessageType.VIR_NET_REPLY_WITH_FDS)
    (hdispatch : virNetClientCallDispatch { cf with msg := hmsg } = (ret, c))
    (hret : ret ≠ 0) :
    virNetClientIOHandleInput fuel client =
      some (ret, { c with msg := { c.msg with bufferOffset := 0, bufferLength := 0,
                                              buffer := [] } }) := by
  obtain ⟨hrecv, hdec⟩ := h
  rw [virNetClientIOHandleInput_receive, hrecv]
  dsimp only
  unfold virNetClientIOHandleInputFrame
  simp only [hdec, htype, if_false]
  unfold virNetClientIOHandleInputDispatch
  simp only [hdispatch, hret, false_and, if_false]

/-- Claim C3, amended. An unmatched reply is fatal to the connection. Let a turn
of the event loop run the input step on an open connection, and let the input pass,
at its start or after turns that went round again (`last` is the connection at the
top of the loop then), receive a whole REPLY frame (in one read or in several, from
an empty receive buffer or from a partly filled one) that the keepalive object does
not claim and whose (program, version, serial) matches no queued call. Then
`virNetClientIOHandleInput` reports an error and returns -1 with the queue, the
close flag and the close reason as they were in `last`; the turn of the event loop
marks the connection for close with reason ERROR and returns -1 to the buck holder.
If another queued call has a waiting thread, the connection stays marked for close
and only the own call leaves the queue; if none has, the socket is closed and the
calls of all other callers are purged from the queue. -/
theorem C3_unmatched_reply_is_fatal {X : virNetCollab} (env : virNetClientPoll)
    (client : virNetClient X) (thiscall : virNetClientCall) (left : Nat)
    (last frame : virNetClient X) (rest : Nat) (hmsg : virNetMessage)
    (hruns : virNetClientIOEventLoopRunsInput env client = true)
    (hpass : virNetClientIOHandleInputReaches env.inputFuel
      (virNetClientIOEventLoopAtInput env client) left last)
    (hframe : virNetClientIOReceivesFrame left last frame rest hmsg)
    (htype : hmsg.header.type = virNetMessageType.VIR_NET_REPLY)
    (hka : virNetClientNotKeepAlive last hmsg)
    (hnone : ∀ c ∈ last.waitDispatch,
      virNetMessageTriple c.msg ≠ virNetMessageTriple hmsg) :
    (virNetClientIOEventLoopAtInput env client).wantClose = false ∧
    ∃ c3 r,
      virNetClientIOHandleInput env.inputFuel (virNetClientIOEventLoopAtInput env client) =
        some (-1, c3) ∧
      c3.waitDispatch = last.waitDispatch ∧
      c3.trace = last.trace ++ [virNetClientEvent.reportError] ∧
      c3.wantClose = last.wantClose ∧
      c3.closeReason = last.closeReason ∧
      virNetClientIOEventLoopTurn env client thiscall = some (virNetClientIOStep.done r) ∧
      r.ret = -1 ∧
      r.client.closeReason = virConnectCloseReason.VIR_CONNECT_CLOSE_REASON_ERROR ∧
      ((∃ other ∈ last.waitDispatch,
          other.addr ≠ thiscall.addr ∧ other.haveThread = true) →
        r.client.wantClose = true ∧
        r.client.waitDispatch = virNetClientCallRemove last.waitDispatch thiscall.addr) ∧
      ((∀ other ∈ last.waitDispatch,
          other.addr ≠ thiscall.addr → other.haveThread = false) →
        r.client.sock = none ∧ r.client.haveTheBuck = false ∧
        ∀ call ∈ r.client.waitDispatch, call.addr = thiscall.addr) := by
  have hopen := virNetClientIOEventLoopAtInput_wantClose env client hruns
  refine ⟨hopen, ?_⟩
  have hreach := virNetClientIOHandleInput_reaches _ _ _ _ hpass
  have hkeeps := (virNetClientIOHandleInputReceive_keeps _ _ _ _ hframe.1).2.2
  have hcf : frame = { last with sock := frame.sock, msg := frame.msg } := hkeeps
  have hq : frame.waitDispatch = last.waitDispatch := by rw [hcf]
  have htr : frame.trace = last.trace := by rw [hcf]
  have hkeep : frame.keepalive = last.keepalive := by rw [hcf]
  have hwant : frame.wantClose = last.wantClose := by rw [hcf]
  have hreason : frame.closeReason = last.closeReason := by rw [hcf]
  have hdispatch := virNetClientCallDispatch_unmatched_reply
    { frame with msg := hmsg } htype
    (by intro ka hk; exact hka ka (hkeep ▸ hk))
    (by intro c hc; exact hnone c (hq ▸ hc))
  have hinput := virNetClientIOHandleInput_dispatch_fails left last frame rest hmsg (-1) _
    hframe (by rw [htype]; decide) hdispatch (by decide)
  rw [← hreach] at hinput
  have hturn := virNetClientIOEventLoopTurn_of_runsInput env client thiscall hruns
  rw [hinput] at hturn
  simp only [show ((-1 : Int) < 0) from by decide, if_true] at hturn
  obtain ⟨hret, hreasonE, hcase1, hcase2⟩ := virNetClientIOEventLoopError_markClose
    ({ ({ frame with msg := hmsg, trace :=
          frame.trace ++ [virNetClientEvent.reportError] } :
        virNetClient X) with
       msg := { hmsg with bufferOffset := 0, bufferLength := 0, buffer := [] } })
    thiscall virConnectCloseReason.VIR_CONNECT_CLOSE_REASON_ERROR
  refine ⟨_, _, hinput, hq, ?_, ?_, hreason, hturn, hret, hreasonE, ?_, ?_⟩
  · show frame.trace ++ _ = _
    rw [htr]
  · exact hwant
  · intro hother
    have := hcase1 (by
      obtain ⟨o, ho, h1, h2⟩ := hother
      exact ⟨o, (show o ∈ frame.waitDispatch from hq ▸ ho), h1, h2⟩)
    refine ⟨this.1, ?_⟩
    rw [this.2.2]
    show virNetClientCallRemove frame.waitDispatch _ = _
    rw [hq]
  · intro hall
    exact hcase2 (by
      intro o ho h1
      exact hall o (show o ∈ last.waitDispatch from hq ▸ ho) h1)

/-- Witness of the amended C3: a whole REPLY frame for serial 9 arrives while the
calls of serials 1 and 2 wait: on an empty receive buffer in one piece, in three
pieces, and as the second frame of a pass on a socket with cached data, after an
event that is dispatched. In each case the turn of the event loop returns -1 with
the close reason ERROR. -/
theorem C3_unmatched_reply_is_fatal_witness :
    (virNetClientIOEventLoopRunsInput sampleReadable
        (sampleArrival [sampleCall 10 1, sampleCall 11 2] 1) = true ∧
      virNetClientIOReceivesFrame sampleReadable.inputFuel
        (virNetClientIOEventLoopAtInput sampleReadable
          (sampleArrival [sampleCall 10 1, sampleCall 11 2] 1))
        (sampleArrivalFrame [sampleCall 10 1, sampleCall 11 2] 1) 6 (sampleArrivalHeader 1) ∧
      ∃ r, virNetClientIOEventLoopTurn sampleReadable
            (sampleArrival [sampleCall 10 1, sampleCall 11 2] 1) (sampleCall 10 1) =
          some (virNetClientIOStep.done r) ∧
        r.ret = -1 ∧
        r.client.closeReason = virConnectCloseReason.VIR_CONNECT_CLOSE_REASON_ERROR) ∧
    (virNetClientIOEventLoopRunsInput sampleReadable
        (sampleArrivalPieces [sampleCall 10 1, sampleCall 11 2] 1) = true ∧
      virNetClientIOReceivesFrame sampleReadable.inputFuel
        (virNetClientIOEventLoopAtInput sampleReadable
          (sampleArrivalPieces [sampleCall 10 1, sampleCall 11 2] 1))
        (sampleArrivalFrame [sampleCall 10 1, sampleCall 11 2] 1) 4 (sampleArrivalHeader 1) ∧
      ∃ r, virNetClientIOEventLoopTurn sampleReadable
            (sampleArrivalPieces [sampleCall 10 1, sampleCall 11 2] 1) (sampleCall 10 1) =
          some (virNetClientIOStep.done r) ∧
        r.ret = -1 ∧
        r.client.closeReason = virConnectCloseReason.VIR_CONNECT_CLOSE_REASON_ERROR) ∧
    (virNetClientIOEventLoopRunsInput sampleReadable
        (sampleArrivalSecond [sampleCall 10 1, sampleCall 11 2] 1 1) = true ∧
      virNetClientIOHandleInputReaches sampleReadable.inputFuel
        (virNetClientIOEventLoopAtInput sampleReadable
          (sampleArrivalSecond [sampleCall 10 1, sampleCall 11 2] 1 1))
        6 (sampleArrivalSecondLast [sampleCall 10 1, sampleCall 11 2] 1 1) ∧
      virNetClientIOReceivesFrame 6 (sampleArrivalSecondLast [sampleCall 10 1, sampleCall 11 2] 1 1)
        (sampleArrivalSecondFrame [sampleCall 10 1, sampleCall 11 2] 1 1) 4
        (sampleArrivalHeader 1) ∧
      ∃ r, virNetClientIOEventLoopTurn sampleReadable
            (sampleArrivalSecond [sampleCall 10 1, sampleCall 11 2] 1 1) (sampleCall 10 1) =
          some (virNetClientIOStep.done r) ∧
        r.ret = -1 ∧
        r.client.closeReason = virConnectCloseReason.VIR_CONNECT_CLOSE_REASON_ERROR) :=
  ⟨⟨rfl, ⟨rfl, rfl⟩,
    match C3_unmatched_reply_is_fatal sampleReadable
       (sampleArrival [sampleCall 10 1, sampleCall 11 2] 1) (sampleCall 10 1) _ _
       (sampleArrivalFrame [sampleCall 10 1, sampleCall 11 2] 1) 6
       (sampleArrivalHeader 1) rfl (virNetClientIOHandleInputReaches.start _ _) ⟨rfl, rfl⟩ rfl
       (fun ka h => Option.noConfusion
         (show (none : Option sampleCollab.KeepAlive) = some ka from h))
       (by decide) with
    | ⟨_, _, r, _, _, _, _, _, hturn, hret, hreason, _⟩ => ⟨r, hturn, hret, hreason⟩⟩,
   ⟨rfl, ⟨rfl, rfl⟩,
    match C3_unmatched_reply_is_fatal sampleReadable
       (sampleArrivalPieces [sampleCall 10 1, sampleCall 11 2] 1) (sampleCall 10 1) _ _
       (sampleArrivalFrame [sampleCall 10 1, sampleCall 11 2] 1) 4
       (sampleArrivalHeader 1) rfl (virNetClientIOHandleInputReaches.start _ _) ⟨rfl, rfl⟩ rfl
       (fun ka h => Option.noConfusion
         (show (none : Option sampleCollab.KeepAlive) = some ka from h))
       (by decide) with
    | ⟨_, _, r, _, _, _, _, _, hturn, hret, hreason, _⟩ => ⟨r, hturn, hret, hreason⟩⟩,
   ⟨rfl,
    virNetClientIOHandleInputReaches.turn 7 _ _ 6 _ rfl
      (virNetClientIOHandleInputReaches.turn 6 _ _ 6 _ rfl
        (virNetClientIOHandleInputReaches.start 6 _)),
    ⟨rfl, rfl⟩,
    match C3_unmatched_reply_is_fatal sampleReadable
       (sampleArrivalSecond [sampleCall 10 1, sampleCall 11 2] 1 1) (sampleCall 10 1) 6
       (sampleArrivalSecondLast [sampleCall 10 1, sampleCall 11 2] 1 1)
       (sampleArrivalSecondFrame [sampleCall 10 1, sampleCall 11 2] 1 1) 4
       (sampleArrivalHeader 1) rfl
       (virNetClientIOHandleInputReaches.turn 7 _ _ 6 _ rfl
         (virNetClientIOHandleInputReaches.turn 6 _ _ 6 _ rfl
           (virNetClientIOHandleInputReaches.start 6 _)))
       ⟨rfl, rfl⟩ rfl
       (fun ka h => Option.noConfusion
         (show (none : Option sampleCollab.KeepAlive) = some ka from h))
       (by decide) with
    | ⟨_, _, r, _, _, _, _, _, hturn, hret, hreason, _⟩ => ⟨r, hturn, hret, hreason⟩⟩⟩

/-- Claim C4, amended. An event nobody subscribed to is fatal to the connection.
Let a turn of the event loop run the input step on an open connection, and let the
input pass, at its start or after turns that went round again (`last` is the
connection at the top of the loop then), receive a whole MESSAGE frame (in one read
or in several, from an empty receive buffer or from a partly filled one) that the
keepalive object does not claim and that matches no registered program. Then
`virNetClientIOHandleInput` invokes no callback and reports nothing (the trace is
as in `last`), leaves the queue, the close flag and the close reason as they were
in `last`, and returns -1; the turn of the event loop marks the connection for
close with reason ERROR and returns -1 to the buck holder. If another queued call
has a waiting thread, the connection stays marked for close and only the own call
leaves the queue; if none has, the socket is closed and the calls of all other
callers are purged from the queue. -/
theorem C4_unmatched_event_is_fatal {X : virNetCollab} (env : virNetClientPoll)
    (client : virNetClient X) (thiscall : virNetClientCall) (left : Nat)
    (last frame : virNetClient X) (rest : Nat) (hmsg : virNetMessage)
    (hruns : virNetClientIOEventLoopRunsInput env client = true)
    (hpass : virNetClientIOHandleInputReaches env.inputFuel
      (virNetClientIOEventLoopAtInput env client) left last)
    (hframe : virNetClientIOReceivesFrame left last frame rest hmsg)
    (htype : hmsg.header.type = virNetMessageType.VIR_NET_MESSAGE)
    (hka : virNetClientNotKeepAlive last hmsg)
    (hnone : ∀ prog ∈ last.programs,
      X.virNetClientProgramMatches prog hmsg = false) :
    (virNetClientIOEventLoopAtInput env client).wantClose = false ∧
    ∃ c3 r,
      virNetClientIOHandleInput env.inputFuel (virNetClientIOEventLoopAtInput env client) =
        some (-1, c3) ∧
      c3.waitDispatch = last.waitDispatch ∧
      c3.trace = last.trace ∧
      c3.wantClose = last.wantClose ∧
      c3.closeReason = last.closeReason ∧
      virNetClientIOEventLoopTurn env client thiscall = some (virNetClientIOStep.done r) ∧
      r.ret = -1 ∧
      r.client.closeReason = virConnectCloseReason.VIR_CONNECT_CLOSE_REASON_ERROR ∧
      ((∃ other ∈ last.waitDispatch,
          other.addr ≠ thiscall.addr ∧ other.haveThread = true) →
        r.client.wantClose = true ∧
        r.client.waitDispatch = virNetClientCallRemove last.waitDispatch thiscall.addr) ∧
      ((∀ other ∈ last.waitDispatch,
          other.addr ≠ thiscall.addr → other.haveThread = false) →
        r.client.sock = none ∧ r.client.haveTheBuck = false ∧
        ∀ call ∈ r.client.waitDispatch, call.addr = thiscall.addr) := by
  have hopen := virNetClientIOEventLoopAtInput_wantClose env client hruns
  refine ⟨hopen, ?_⟩
  have hreach := virNetClientIOHandleInput_reaches _ _ _ _ hpass
  have hkeeps := (virNetClientIOHandleInputReceive_keeps _ _ _ _ hframe.1).2.2
  have hcf : frame = { last with sock := frame.sock, msg := frame.msg } := hkeeps
  have hq : frame.waitDispatch = last.waitDispatch := by rw [hcf]
  have htr : frame.trace = last.trace := by rw [hcf]
  have hkeep : frame.keepalive = last.keepalive := by rw [hcf]
  have hprogs : frame.programs = last.programs := by rw [hcf]
  have hwant : frame.wantClose = last.wantClose := by rw [hcf]
  have hreason : frame.closeReason = last.closeReason := by rw [hcf]
  have hdispatch := virNetClientCallDispatch_unmatched_message
    { frame with msg := hmsg } htype
    (by intro ka hk; exact hka ka (hkeep ▸ hk))
    (by intro prog hp; exact hnone prog (hprogs ▸ hp))
  have hinput := virNetClientIOHandleInput_dispatch_fails left last frame rest hmsg (-1) _
    hframe (by rw [htype]; decide) hdispatch (by decide)
  rw [← hreach] at hinput
  have hturn := virNetClientIOEventLoopTurn_of_runsInput env client thiscall hruns
  rw [hinput] at hturn
  simp only [show ((-1 : Int) < 0) from by decide, if_true] at hturn
  obtain ⟨hret, hreasonE, hcase1, hcase2⟩ := virNetClientIOEventLoopError_markClose
    ({ ({ frame with msg := hmsg } : virNetClient X) with
       msg := { hmsg with bufferOffset := 0, bufferLength := 0, buffer := [] } })
    thiscall virConnectCloseReason.VIR_CONNECT_CLOSE_REASON_ERROR
  refine ⟨_, _, hinput, hq, htr, ?_, hreason, hturn, hret, hreasonE, ?_, ?_⟩
  · exact hwant
  · intro hother
    have := hcase1 (by
      obtain ⟨o, ho, h1, h2⟩ := hother
      exact ⟨o, (show o ∈ frame.waitDispatch from hq ▸ ho), h1, h2⟩)
    refine ⟨this.1, ?_⟩
    rw [this.2.2]
    show virNetClientCallRemove frame.waitDispatch _ = _
    rw [hq]
  · intro hall
    exact hcase2 (by
      intro o ho h1
      exact hall o (show o ∈ last.waitDispatch from hq ▸ ho) h1)

/-- Witness of the amended C4: a whole MESSAGE frame of program 1 arrives on a
connection where only program 5 is registered: on an empty receive buffer in one
piece, in three pieces, and as the second frame of a pass on a socket with cached
data, after an event of program 5 that is dispatched. In each case the turn of the
event loop returns -1 with the close reason ERROR. -/
theorem C4_unmatched_event_is_fatal_witness :
    (virNetClientIOEventLoopRunsInput sampleReadable
        (sampleEventArrival [sampleCall 10 1, sampleCall 11 2]) = true ∧
      virNetClientIOReceivesFrame sampleReadable.inputFuel
        (virNetClientIOEventLoopAtInput sampleReadable
          (sampleEventArrival [sampleCall 10 1, sampleCall 11 2]))
        (sampleEventArrivalFrame [sampleCall 10 1, sampleCall 11 2]) 6 (sampleArrivalHeader 2) ∧
      ∃ r, virNetClientIOEventLoopTurn sampleReadable
            (sampleEventArrival [sampleCall 10 1, sampleCall 11 2]) (sampleCall 10 1) =
          some (virNetClientIOStep.done r) ∧
        r.ret = -1 ∧
        r.client.closeReason = virConnectCloseReason.VIR_CONNECT_CLOSE_REASON_ERROR) ∧
    (virNetClientIOEventLoopRunsInput sampleReadable
        (sampleEventArrivalPieces [sampleCall 10 1, sampleCall 11 2]) = true ∧
      virNetClientIOReceivesFrame sampleReadable.inputFuel
        (virNetClientIOEventLoopAtInput sampleReadable
          (sampleEventArrivalPieces [sampleCall 10 1, sampleCall 11 2]))
        (sampleEventArrivalFrame [sampleCall 10 1, sampleCall 11 2]) 4 (sampleArrivalHeader 2) ∧
      ∃ r, virNetClientIOEventLoopTurn sampleReadable
            (sampleEventArrivalPieces [sampleCall 10 1, sampleCall 11 2]) (sampleCall 10 1) =
          some (virNetClientIOStep.done r) ∧
        r.ret = -1 ∧
        r.client.closeReason = virConnectCloseReason.VIR_CONNECT_CLOSE_REASON_ERROR) ∧
    (virNetClientIOEventLoopRunsInput sampleReadable
        (sampleEventArrivalSecond [sampleCall 10 1, sampleCall 11 2]) = true ∧
      virNetClientIOHandleInputReaches sampleReadable.inputFuel
        (virNetClientIOEventLoopAtInput sampleReadable
          (sampleEventArrivalSecond [sampleCall 10 1, sampleCall 11 2]))
        6 (sampleEventArrivalSecondLast [sampleCall 10 1, sampleCall 11 2]) ∧
      virNetClientIOReceivesFrame 6 (sampleEventArrivalSecondLast [sampleCall 10 1, sampleCall 11 2])
        (sampleEventArrivalSecondFrame [sampleCall 10 1, sampleCall 11 2]) 4
        (sampleArrivalHeader 2) ∧
      ∃ r, virNetClientIOEventLoopTurn sampleReadable
            (sampleEventArrivalSecond [sampleCall 10 1, sampleCall 11 2]) (sampleCall 10 1) =
          some (virNetClientIOStep.done r) ∧
        r.ret = -1 ∧
        r.client.closeReason = virConnectCloseReason.VIR_CONNECT_CLOSE_REASON_ERROR) :=
  ⟨⟨rfl, ⟨rfl, rfl⟩,
    match C4_unmatched_event_is_fatal sampleReadable
       (sampleEventArrival [sampleCall 10 1, sampleCall 11 2]) (sampleCall 10 1) _ _
       (sampleEventArrivalFrame [sampleCall 10 1, sampleCall 11 2]) 6
       (sampleArrivalHeader 2) rfl (virNetClientIOHandleInputReaches.start _ _) ⟨rfl, rfl⟩ rfl
       (fun ka h => Option.noConfusion
         (show (none : Option sampleCollab.KeepAlive) = some ka from h))
       (by decide) with
    | ⟨_, _, r, _, _, _, _, _, hturn, hret, hreason, _⟩ => ⟨r, hturn, hret, hreason⟩⟩,
   ⟨rfl, ⟨rfl, rfl⟩,
    match C4_unmatched_event_is_fatal sampleReadable
       (sampleEventArrivalPieces [sampleCall 10 1, sampleCall 11 2]) (sampleCall 10 1) _ _
       (sampleEventArrivalFrame [sampleCall 10 1, sampleCall 11 2]) 4
       (sampleArrivalHeader 2) rfl (virNetClientIOHandleInputReaches.start _ _) ⟨rfl, rfl⟩ rfl
       (fun ka h => Option.noConfusion
         (show (none : Option sampleCollab.KeepAlive) = some ka from h))
       (by decide) with
    | ⟨_, _, r, _, _, _, _, _, hturn, hret, hreason, _⟩ => ⟨r, hturn, hret, hreason⟩⟩,
   ⟨rfl,
    virNetClientIOHandleInputReaches.turn 7 _ _ 6 _ rfl
      (virNetClientIOHandleInputReaches.turn 6 _ _ 6 _ rfl
        (virNetClientIOHandleInputReaches.start 6 _)),
    ⟨rfl, rfl⟩,
    match C4_unmatched_event_is_fatal sampleReadable
       (sampleEventArrivalSecond [sampleCall 10 1, sampleCall 11 2]) (sampleCall 10 1) 6
       (sampleEventArrivalSecondLast [sampleCall 10 1, sampleCall 11 2])
       (sampleEventArrivalSecondFrame [sampleCall 10 1, sampleCall 11 2]) 4
       (sampleArrivalHeader 2) rfl
       (virNetClientIOHandleInputReaches.turn 7 _ _ 6 _ rfl
         (virNetClientIOHandleInputReaches.turn 6 _ _ 6 _ rfl
           (virNetClientIOHandleInputReaches.start 6 _)))
       ⟨rfl, rfl⟩ rfl
       (fun ka h => Option.noConfusion
         (show (none : Option sampleCollab.KeepAlive) = some ka from h))
       (by decide) with
    | ⟨_, _, r, _, _, _, _, _, hturn, hret, hreason, _⟩ => ⟨r, hturn, hret, hreason⟩⟩⟩

/-- Claim C18, amended. One invocation of `virNetClientIOHandleInput`, from
whatever the receive buffer holds at the start:

(a) when it receives a whole frame, at its start or after turns that went round
again (`last` is the connection at the top of the loop then), in one read or in
several, and hands it to the router (for a reply with descriptors: once all of them
are received), it returns the router's result at once, with the receive buffer
reset and the socket as the frame's last read and descriptor receipts left it,
unless the router returned 0 and the socket has cached data; only in that case does
the loop go round again for the next frame, with the turns that are left;

(b) in a turn that reads (no descriptors pending), a read that would block makes it
return 0 and a read that fails makes it return -1;

(c) a turn that ends before the frame is whole (a partial read, or the length word
just decoded) is followed by the next turn;

(d) when the loop stops before a frame is whole, the pass returns what the loop
stopped with, which is 0 or -1;

(e) a whole frame whose header cannot be decoded makes it return -1, and a whole
frame that is not handed to the router (the descriptor count cannot be decoded, a
descriptor receipt fails, or descriptors are missing) makes it return -1 or 0 with
the queue and the trace untouched. -/
theorem C18_input_returns_after_dispatch {X : virNetCollab} :
    (∀ (fuel : Nat) (client : virNetClient X) (left : Nat) (last frame : virNetClient X)
        (rest : Nat) (hmsg : virNetMessage) (c1 : virNetClient X),
      virNetClientIOHandleInputReaches fuel client left last →
      virNetClientIOReceivesFrame left last frame rest hmsg →
      virNetClientIOAtDispatch frame hmsg = some c1 →
      (virNetClientIOAfterDispatch c1).sock = c1.sock ∧
      ((virNetClientCallDispatch c1).1 ≠ 0 ∨ virNetSocketHasCachedData c1.sock = false →
        virNetClientIOHandleInput fuel client =
          some ((virNetClientCallDispatch c1).1, virNetClientIOAfterDispatch c1)) ∧
      ((virNetClientCallDispatch c1).1 = 0 → virNetSocketHasCachedData c1.sock = true →
        virNetClientIOHandleInput fuel client =
          virNetClientIOHandleInput rest (virNetClientIOAfterDispatch c1))) ∧
    (∀ (fuel : Nat) (client : virNetClient X), client.msg.nfds = 0 →
      ((virNetClientIOReadMessage client).1 = 0 →
        virNetClientIOHandleInput (fuel + 1) client =
          some (0, (virNetClientIOReadMessage client).2)) ∧
      ((virNetClientIOReadMessage client).1 < 0 →
        virNetClientIOHandleInput (fuel + 1) client =
          some (-1, (virNetClientIOReadMessage client).2))) ∧
    (∀ (fuel : Nat) (client c1 : virNetClient X),
      virNetClientIOHandleInputTurnFrame client = virNetClientIOReceived.again c1 →
      virNetClientIOHandleInput (fuel + 1) client = virNetClientIOHandleInput fuel c1) ∧
    (∀ (fuel : Nat) (client : virNetClient X) (ret : Int) (c : virNetClient X) (rest : Nat),
      virNetClientIOHandleInputReceive fuel client =
        some (virNetClientIOReceived.done ret c, rest) →
      virNetClientIOHandleInput fuel client = some (ret, c) ∧ (ret = 0 ∨ ret = -1)) ∧
    (∀ (fuel : Nat) (client frame : virNetClient X) (rest : Nat),
      virNetClientIOHandleInputReceive fuel client =
        some (virNetClientIOReceived.frame frame, rest) →
      (X.virNetMessageDecodeHeader frame.msg = none →
        virNetClientIOHandleInput fuel client = some (-1, frame)) ∧
      ∀ hmsg, X.virNetMessageDecodeHeader frame.msg = some hmsg →
        virNetClientIOAtDispatch frame hmsg = none →
        ∃ ret c, virNetClientIOHandleInput fuel client = some (ret, c) ∧
          (ret = 0 ∨ ret = -1) ∧
          c.waitDispatch = client.waitDispatch ∧ c.trace = client.trace) := by
  refine ⟨?_, ?_, ?_, ?_, ?_⟩
  · intro fuel client left last frame rest hmsg c1 hreach hframe hready
    have hsock : (virNetClientIOAfterDispatch c1).sock = c1.sock :=
      virNetClientCallDispatch_sock c1
    have hstep := virNetClientIOHandleInput_atDispatch left last frame rest hmsg c1 hframe hready
    rw [← virNetClientIOHandleInput_reaches fuel client left last hreach] at hstep
    have hdisp : virNetClientIOHandleInputDispatch c1 =
        if (virNetClientCallDispatch c1).1 = 0 ∧ virNetSocketHasCachedData c1.sock = true then
          virNetClientLoop.again (virNetClientIOAfterDispatch c1)
        else virNetClientLoop.done (virNetClientCallDispatch c1).1
          (virNetClientIOAfterDispatch c1) := by
      rw [← hsock]
      rfl
    rw [hdisp] at hstep
    refine ⟨hsock, ?_, ?_⟩
    · intro hor
      have hnot : ¬ ((virNetClientCallDispatch c1).1 = 0 ∧
          virNetSocketHasCachedData c1.sock = true) := by
        rintro ⟨h0, hc⟩
        rcases hor with h | h
        · exact h h0
        · rw [h] at hc
          exact absurd hc (by simp)
      rw [hstep]
      simp only [hnot, if_false]
    · intro h0 hc
      rw [hstep]
      simp only [h0, hc, and_self, if_true]
  · intro fuel client hnfds
    constructor
    · intro h0
      have hnot : ¬ (virNetClientIOReadMessage client).1 < 0 := by omega
      rw [virNetClientIOHandleInput]
      unfold virNetClientIOHandleInputTurn
      dsimp only
      rw [if_pos hnfds, if_neg hnot, if_pos h0]
    · intro hneg
      rw [virNetClientIOHandleInput]
      unfold virNetClientIOHandleInputTurn
      dsimp only
      rw [if_pos hnfds, if_pos hneg]
  · intro fuel client c1 hturn
    rw [virNetClientIOHandleInput, virNetClientIOHandleInputTurn_receive, hturn]
  · intro fuel client ret c rest hrecv
    refine ⟨by rw [virNetClientIOHandleInput_receive, hrecv], ?_⟩
    have hcheck : ∀ (c0 : virNetClient X) r c', virNetClientIOHandleInputCheckFrame c0 =
        virNetClientIOReceived.done r c' → r = 0 ∨ r = -1 := by
      intro c0 r c' h
      unfold virNetClientIOHandleInputCheckFrame at h
      split_ifs at h
      · cases hl : X.virNetMessageDecodeLength c0.msg with
        | none =>
          rw [hl] at h
          simp only [virNetClientIOReceived.done.injEq] at h
          exact Or.inr h.1.symm
        | some l =>
          rw [hl] at h
          exact virNetClientIOReceived.noConfusion h
    have hturn : ∀ (c0 : virNetClient X) r c', virNetClientIOHandleInputTurnFrame c0 =
        virNetClientIOReceived.done r c' → r = 0 ∨ r = -1 := by
      intro c0 r c' h
      unfold virNetClientIOHandleInputTurnFrame at h
      dsimp only at h
      split_ifs at h
      · simp only [virNetClientIOReceived.done.injEq] at h
        exact Or.inr h.1.symm
      · simp only [virNetClientIOReceived.done.injEq] at h
        exact Or.inl h.1.symm
      · exact hcheck _ _ _ h
      · exact hcheck _ _ _ h
    clear hcheck
    induction fuel generalizing client with
    | zero => exact Option.noConfusion (show (none : Option _) = some _ from hrecv)
    | succ n ih =>
      rw [virNetClientIOHandleInputReceive] at hrecv
      cases hc : virNetClientIOHandleInputTurnFrame client with
      | again c0 =>
        rw [hc] at hrecv
        exact ih c0 hrecv
      | done r c0 =>
        rw [hc] at hrecv
        simp only [Option.some.injEq, Prod.mk.injEq, virNetClientIOReceived.done.injEq] at hrecv
        obtain ⟨⟨rfl, rfl⟩, _⟩ := hrecv
        exact hturn _ _ _ hc
      | frame c0 =>
        rw [hc] at hrecv
        simp only [Option.some.injEq, Prod.mk.injEq] at hrecv
        exact virNetClientIOReceived.noConfusion hrecv.1
  · intro fuel client frame rest hrecv
    have hkeeps := (virNetClientIOHandleInputReceive_keeps _ _ _ _ hrecv).2.2
    have hcf : frame = { client with sock := frame.sock, msg := frame.msg } := hkeeps
    constructor
    · intro hdec
      rw [virNetClientIOHandleInput_receive, hrecv]
      dsimp only
      unfold virNetClientIOHandleInputFrame
      simp only [hdec]
    · intro hmsg hdec hnot
      obtain ⟨ret, c, hframe, hret, hq, htr⟩ :=
        virNetClientIOHandleInputFrame_notDispatched frame hmsg hdec hnot
      refine ⟨ret, c, ?_, hret, ?_, ?_⟩
      · rw [virNetClientIOHandleInput_receive, hrecv]
        dsimp only
        rw [hframe]
      · rw [hq, hcf]
      · rw [htr, hcf]

/-- Witness of the amended C18: the first of two event frames is received on an
empty receive buffer and dispatched; the pass returns 0 with the second frame still
on the socket. -/
theorem C18_input_returns_after_dispatch_witness :
    virNetClientIOReceivesFrame 8 sampleTwoFrames sampleTwoFramesFrame 6 sampleFirstFrame ∧
    (virNetClientIOHandleInput 8 sampleTwoFrames).map
        (fun r => (r.1, r.2.sock.map (fun s => s.rx))) =
      some (0, some [virNetSocketResult.ok [0, 0, 0, 12, 1, 1, 7, 2, 9, 0, 204, 221]]) :=
  ⟨⟨rfl, rfl⟩,
   by rw [((C18_input_returns_after_dispatch (X := sampleCollab)).1 8 sampleTwoFrames
        8 sampleTwoFrames sampleTwoFramesFrame 6 sampleFirstFrame
        { sampleTwoFramesFrame with msg := sampleFirstFrame }
        (virNetClientIOHandleInputReaches.start _ _) ⟨rfl, rfl⟩ rfl).2.1 (Or.inr rfl)]; rfl⟩

/-- Claim C19 (partial descriptor receipt is resumable and never dispatches
early). A reply with descriptors announces `nfds` descriptors; `got` are the
descriptors that arrive before a receipt would block.

First invocation: the input pass, at its start or after turns that went round
again (`last` is the connection at the top of the loop then), receives the whole
frame, in one read or in several and from whatever the receive buffer holds; when
fewer than the missing descriptors arrive it returns 0 (would block) without
running the router on the frame: queue and trace are as in `last`, the descriptors
that arrived are stored, `donefds` has advanced by their number and `bufferOffset`
equals `bufferLength`.

Next invocation, on a connection with descriptors pending (`nfds` not 0) and a
full frame in the buffer: no byte is read (the bytes pending on the socket are
untouched) and the receipt goes on from `donefds`; when again fewer than the
missing descriptors arrive it returns 0 as before, and only when all of them have
arrived is the frame handed to the router. -/
theorem C19_partial_descriptors_resumable {X : virNetCollab} :
    (∀ (fuel : Nat) (client : virNetClient X) (turns : Nat) (last frame : virNetClient X)
        (left : Nat) (hmsg nmsg : virNetMessage)
        (sk : virNetSocket) (got : List Int) (rest : List (virNetSocketResult Int)),
      virNetClientIOHandleInputReaches fuel client turns last →
      virNetClientIOReceivesFrame turns last frame left hmsg →
      hmsg.header.type = virNetMessageType.VIR_NET_REPLY_WITH_FDS →
      X.virNetMessageDecodeNumFDs hmsg = some nmsg →
      frame.sock = some sk →
      sk.rxfds = got.map virNetSocketResult.ok ++ rest →
      got.length < nmsg.nfds - nmsg.donefds →
      (rest = [] ∨ ∃ r, rest = virNetSocketResult.wouldBlock :: r) →
      ∃ c1, virNetClientIOHandleInput fuel client = some (0, c1) ∧
        c1.waitDispatch = last.waitDispatch ∧ c1.trace = last.trace ∧
        c1.sock = some { sk with rxfds := rest.tail } ∧
        c1.msg = { virNetMessageStoreFDs nmsg got with bufferOffset := nmsg.bufferLength } ∧
        c1.msg.donefds = nmsg.donefds + got.length ∧ c1.msg.nfds = nmsg.nfds ∧
        c1.msg.bufferOffset = c1.msg.bufferLength) ∧
    (∀ (fuel : Nat) (c : virNetClient X) (hmsg nmsg : virNetMessage) (sk : virNetSocket)
        (got : List Int) (rest : List (virNetSocketResult Int)),
      c.msg.nfds ≠ 0 →
      c.msg.bufferOffset = c.msg.bufferLength →
      c.msg.bufferLength ≠ 4 →
      X.virNetMessageDecodeHeader c.msg = some hmsg →
      hmsg.header.type = virNetMessageType.VIR_NET_REPLY_WITH_FDS →
      X.virNetMessageDecodeNumFDs hmsg = some nmsg →
      nmsg.donefds = c.msg.donefds →
      c.sock = some sk →
      sk.rxfds = got.map virNetSocketResult.ok ++ rest →
      (got.length < nmsg.nfds - nmsg.donefds →
        (rest = [] ∨ ∃ r, rest = virNetSocketResult.wouldBlock :: r) →
        ∃ c1, virNetClientIOHandleInput (fuel + 1) c = some (0, c1) ∧
          c1.waitDispatch = c.waitDispatch ∧ c1.trace = c.trace ∧
          c1.sock = some { sk with rxfds := rest.tail } ∧
          c1.msg.donefds = c.msg.donefds + got.length ∧ c1.msg.nfds = nmsg.nfds ∧
          c1.msg.bufferOffset = c1.msg.bufferLength) ∧
      (got.length = nmsg.nfds - nmsg.donefds →
        (virNetMessageStoreFDs nmsg got).donefds = c.msg.donefds + got.length ∧
        virNetClientIOHandleInput (fuel + 1) c =
          match virNetClientIOHandleInputDispatch
              { c with
                sock := some { sk with rxfds := rest }
                msg := virNetMessageStoreFDs nmsg got } with
          | virNetClientLoop.done ret c2 => some (ret, c2)
          | virNetClientLoop.again c2 => virNetClientIOHandleInput fuel c2)) := by
  constructor
  · intro fuel client turns last frame left hmsg nmsg sk got rest hreach hframe htype hnum hsock
      hscript hless hblock
    obtain ⟨hrecv, hdec⟩ := hframe
    have hkeeps := (virNetClientIOHandleInputReceive_keeps _ _ _ _ hrecv).2.2
    have hcf : frame = { last with sock := frame.sock, msg := frame.msg } := hkeeps
    have hq : frame.waitDispatch = last.waitDispatch := by rw [hcf]
    have htr : frame.trace = last.trace := by rw [hcf]
    obtain ⟨hdone, hn, hlen, _, _, _⟩ := virNetMessageStoreFDs_spec nmsg got
    rw [virNetClientIOHandleInput_reaches fuel client turns last hreach,
      virNetClientIOHandleInput_receive, hrecv]
    dsimp only
    rw [virNetClientIOHandleInputFrame_blocks _ hmsg nmsg sk got rest hdec htype hnum hsock
        hscript hless hblock]
    exact ⟨_, rfl, hq, htr, rfl, rfl, hdone, hn, hlen.symm⟩
  · intro fuel c hmsg nmsg sk got rest hpending hfull hbody hdec htype hnum hkeep hsock hscript
    obtain ⟨hdone, hn, hlen, _, _, _⟩ := virNetMessageStoreFDs_spec nmsg got
    have hturn : virNetClientIOHandleInputTurn c = virNetClientIOHandleInputFrame c := by
      unfold virNetClientIOHandleInputTurn
      simp only [hpending, if_false]
      unfold virNetClientIOHandleInputCheck
      simp only [hfull, if_true]
      simp only [hbody, if_false]
    constructor
    · intro hless hblock
      rw [virNetClientIOHandleInput, hturn,
        virNetClientIOHandleInputFrame_blocks _ hmsg nmsg sk got rest hdec htype hnum hsock
          hscript hless hblock]
      exact ⟨_, rfl, rfl, rfl, rfl, by rw [← hkeep]; exact hdone, hn, hlen.symm⟩
    · intro hall
      refine ⟨by rw [← hkeep]; exact hdone, ?_⟩
      rw [virNetClientIOHandleInput, hturn,
        virNetClientIOHandleInputFrame_complete _ hmsg nmsg sk got rest hdec htype hnum hsock
          hscript hall]

/-- Witness of C19: a reply that announces two descriptors arrives on an empty
receive buffer; descriptor 7 arrives and the receipt of the second would block; the
input pass returns 0 with `donefds = 1` and the call of serial 2 still waiting. -/
theorem C19_partial_descriptors_resumable_witness :
    virNetClientIOReceivesFrame 8 (sampleFDArrival [virNetSocketResult.ok 7])
      (sampleFDArrivalFrame [virNetSocketResult.ok 7]) 6 sampleFDHeader ∧
    ∃ c1, virNetClientIOHandleInput 8 (sampleFDArrival [virNetSocketResult.ok 7]) =
        some (0, c1) ∧
      c1.waitDispatch = [sampleCall 11 2] ∧
      c1.msg.donefds = 1 ∧ c1.msg.nfds = 2 ∧ c1.msg.bufferOffset = c1.msg.bufferLength :=
  ⟨⟨rfl, rfl⟩,
   match (C19_partial_descriptors_resumable (X := sampleCollab)).1 8
      (sampleFDArrival [virNetSocketResult.ok 7]) 8 (sampleFDArrival [virNetSocketResult.ok 7])
      (sampleFDArrivalFrame [virNetSocketResult.ok 7]) 6 sampleFDHeader sampleFDCount
      { sampleSocket with rxfds := [virNetSocketResult.ok 7] } [7] []
      (virNetClientIOHandleInputReaches.start _ _) ⟨rfl, rfl⟩ rfl rfl rfl rfl (by decide)
      (Or.inl rfl) with
   | ⟨c1, h, hq, _, _, _, hdone, hn, hoff⟩ => ⟨c1, h, hq, hdone, hn, hoff⟩⟩

end VirNetClient
